import Mathlib

/-!
# Plant nursery back end: request handlers over a document store

A shallow embedding of the Express/Mongoose controllers of the plant nursery
application (`scheduleController.js`, `bookingController.js`).

* A collection is a list of documents; `find`/`findOne`/`findById` return the
  first document that matches, and a document that was found, mutated and
  saved is rewritten in place (`modifyFirst`).
* Object identifiers are strings in canonical form; number fields hold
  integers (seedling counts, amounts); dates are integers (epoch
  milliseconds).  The `createdAt`/`updatedAt` stamps that Mongoose maintains
  by itself are not part of the model.
* A handler is a function from the store and the request to the HTTP status
  it answers and the store afterwards.
-/

namespace PlantNursing

/-! ## Generic store operations -/

/-- Rewrite the first element that satisfies `p` with `f`, leaving the rest. -/
def modifyFirst {α : Type} (p : α → Bool) (f : α → α) : List α → List α
  | [] => []
  | x :: xs => if p x then f x :: xs else x :: modifyFirst p f xs

/-- Remove the first element that satisfies `p` (`deleteOne`). -/
def deleteFirst {α : Type} (p : α → Bool) : List α → List α
  | [] => []
  | x :: xs => if p x then xs else x :: deleteFirst p xs

/-- JavaScript truthiness of a string value: only the empty string is falsy. -/
def truthy (s : String) : Bool := s != ""

/-- The value of a request field in a boolean position: an absent field and an
empty string are both falsy. -/
def present (s : Option String) : Option String := s.filter truthy

/-- The HTTP answer of a handler (only the status code is modelled). -/
structure Response where
  status : Nat
  deriving DecidableEq

/-! ## Schedule documents (`models/Schedule.js`) -/

/-- One booking line of a schedule variety. -/
structure ScheduleBooking where
  bookingId : String
  farmerId : String
  quantity : Int
  deriving DecidableEq

/-- The sub-document `scheduleVarietySchema`; `total` and `completed` are
`none` when the stored document has no value for them. -/
structure ScheduleVariety where
  varietyId : String
  bookings : List ScheduleBooking
  total : Option Int
  completed : Option Int
  deriving DecidableEq

/-- The sub-document `scheduleGroupSchema`. -/
structure ScheduleGroup where
  groupId : String
  varieties : List ScheduleVariety
  deriving DecidableEq

/-- The document `scheduleSchema`. -/
structure Schedule where
  _id : String
  name : String
  groups : List ScheduleGroup
  startDate : Int
  endDate : Int
  status : String
  deriving DecidableEq

/-- The `payload` object of an `updateSchedule` request; a field is `none`
when it is `null` or `undefined`. -/
structure ProgressPayload where
  scheduleId : Option String
  groupId : Option String
  varietyId : Option String
  completed : Option Int
  deriving DecidableEq

/-- The body of an `updateSchedule` request. -/
structure UpdateScheduleBody where
  action : Option String
  payload : Option ProgressPayload
  deriving DecidableEq

/-! ## Booking documents and the collections around them -/

/-- The document `bookingSchema` (`models/Booking.js`); optional fields are
`none` when the document has no value for them. -/
structure Booking where
  _id : String
  farmer : String
  cropGroup : Option String
  bookingDate : Int
  variety : String
  quantity : Int
  ratePerUnit : Int
  plotNumber : String
  sowingDate : Option Int
  dispatchDate : Option Int
  vehicleNumber : Option String
  driverName : Option String
  startKm : Option Int
  endKm : Option Int
  ratePerKm : Option Int
  advancePayment : Int
  totalPayment : Int
  pendingPayment : Int
  finalTotalPrice : Int
  deriving DecidableEq

/-- Modelled from the spec: `models/Farmer.js` is not among the sources; a
farmer "holds a status field" and the controllers read `_id` and `status`
(`none` when the document has no status). -/
structure Farmer where
  _id : String
  status : Option String
  deriving DecidableEq

/-- Modelled from the spec: `models/CropVariety.js` is not among the sources;
the controllers read `_id`, `name` and `group`. -/
structure CropVariety where
  _id : String
  name : String
  group : Option String
  deriving DecidableEq

/-- Modelled from the spec: `models/TopCrop.js` is not among the sources; "a
running counter of booked quantity per crop variety", with the fields the
controllers filter on and write. -/
structure TopCrop where
  varietyRef : Option String
  varietyName : String
  cropGroup : Option String
  bookedQuantity : Int
  lastBookedAt : Option Int
  deriving DecidableEq

/-- Modelled from the spec: `models/Stock.js` is not among the sources;
"remaining inventory counter per crop variety", with the fields the
controllers filter on and write. -/
structure Stock where
  variety : String
  quantity : Int
  lastUpdated : Option Int
  deriving DecidableEq

/-- Modelled from the spec: `models/Income.js` is not among the sources; a
ledger record with the four fields `promoteBookingStatus` fills in. -/
structure Income where
  date : Int
  amount : Int
  booking : String
  farmer : String
  deriving DecidableEq

/-- Modelled from the spec: `models/Expense.js` is not among the sources; a
ledger record "summed over date ranges for reporting", with the fields
`getIncomeData` reads. -/
structure Expense where
  date : Int
  total : Int
  status : String
  deriving DecidableEq

/-- Modelled from the spec: `models/Salary.js` is not among the sources; a
ledger record with the fields `getIncomeData` reads. -/
structure Salary where
  paymentDate : Int
  totalAmount : Int
  status : String
  deriving DecidableEq

/-- Modelled from the spec: `models/Loss.js` is not among the sources; a
ledger record with the fields `getIncomeData` reads. -/
structure Loss where
  date : Int
  value : Int
  status : String
  deriving DecidableEq

/-- The document `newEntrySchema` (`models/NewEntry.js`). -/
structure NewEntry where
  groupId : String
  varietyId : String
  date : Int
  totalTrays : Int
  totalPlants : Int
  sowingDate : Option Int
  totalMans : Int
  status : String
  deriving DecidableEq

/-- Modelled from the spec: `models/Nutrient.js` is not among the sources; a
stock record with the fields `getNutrientStock` reads. -/
structure Nutrient where
  _id : String
  name : String
  currentStock : Int
  threshold : Int
  deriving DecidableEq

/-- The document store: one list per collection. -/
structure DB where
  farmers : List Farmer := []
  bookings : List Booking := []
  cropVarieties : List CropVariety := []
  topCrops : List TopCrop := []
  stocks : List Stock := []
  incomes : List Income := []
  schedules : List Schedule := []
  expenses : List Expense := []
  salaries : List Salary := []
  losses : List Loss := []
  newEntries : List NewEntry := []
  nutrients : List Nutrient := []
  deriving DecidableEq

/-- What a request takes from outside the store: `isValid` is
`mongoose.Types.ObjectId.isValid` (a library function; casting a string that
fails it to an identifier raises an error), `now` is `new Date()`, `newId` is
the identifier Mongoose gives a new document, and `afterBookingCreated` is
the hook of `utils/scheduleUtils.js` (not among the sources), which is given
the new booking and works on the schedules. -/
structure Env where
  isValid : String → Bool
  now : Int
  newId : String
  afterBookingCreated : Booking → List Schedule → List Schedule

/-- The body of a `createBooking` request; a field is `none` when the body
does not carry a usable value for it. -/
structure BookingBody where
  farmerId : Option String
  bookingDate : Option Int
  cropGroup : Option String
  variety : Option String
  quantity : Option Int
  ratePerUnit : Option Int
  plotNumber : Option String
  sowingDate : Option Int
  dispatchDate : Option Int
  vehicleNumber : Option String
  driverName : Option String
  startKm : Option Int
  endKm : Option Int
  ratePerKm : Option Int
  advancePayment : Option Int
  totalPayment : Option Int
  pendingPayment : Option Int
  finalTotalPrice : Option Int
  deriving DecidableEq

/-! ## `scheduleController.js` -/

/-- The handler `updateSchedule`: the only action is `updateVarietyProgress`,
which assigns `completed` to the variety found by schedule, group and variety
identifier, unless it is above `variety.total || 0`. -/
def updateSchedule (env : Env) (db : DB) (body : UpdateScheduleBody) : Response × DB :=
  match present body.action, body.payload with
  | some action, some payload =>
    if action != "updateVarietyProgress" then (⟨400⟩, db) else
    match present payload.scheduleId, present payload.groupId, present payload.varietyId,
        payload.completed with
    | some scheduleId, some groupId, some varietyId, some completed =>
      -- `Schedule.findById` fails on a malformed identifier; the `catch` answers 500
      if !env.isValid scheduleId then (⟨500⟩, db) else
      match db.schedules.find? (fun s => s._id == scheduleId) with
      | none => (⟨404⟩, db)
      | some schedule =>
        match schedule.groups.find? (fun g => g.groupId == groupId) with
        | none => (⟨404⟩, db)
        | some group =>
          match group.varieties.find? (fun v => v.varietyId == varietyId) with
          | none => (⟨404⟩, db)
          | some variety =>
            if completed > variety.total.getD 0 then (⟨400⟩, db) else
            let setCompleted := fun (v : ScheduleVariety) => { v with completed := some completed }
            let inGroup := fun (g : ScheduleGroup) =>
              { g with varieties := modifyFirst (fun v => v.varietyId == varietyId) setCompleted g.varieties }
            let inSchedule := fun (s : Schedule) =>
              { s with groups := modifyFirst (fun g => g.groupId == groupId) inGroup s.groups }
            (⟨200⟩, { db with
              schedules := modifyFirst (fun s => s._id == scheduleId) inSchedule db.schedules })
    | _, _, _, _ => (⟨400⟩, db)
  | _, _ => (⟨400⟩, db)

/-- The variety a progress update addresses: the first variety with the
identifier in the first group with the identifier of the schedule found by
identifier. -/
def findVariety (db : DB) (scheduleId groupId varietyId : String) : Option ScheduleVariety :=
  (db.schedules.find? (fun s => s._id == scheduleId)).bind fun s =>
    (s.groups.find? (fun g => g.groupId == groupId)).bind fun g =>
      g.varieties.find? (fun v => v.varietyId == varietyId)

/-- The store after a progress update that passed every check. -/
def progressSaved (db : DB) (scheduleId groupId varietyId : String) (completed : Int) : DB :=
  { db with
    schedules := modifyFirst (fun s => s._id == scheduleId)
      (fun s => { s with
        groups := modifyFirst (fun g => g.groupId == groupId)
          (fun g => { g with
            varieties := modifyFirst (fun v => v.varietyId == varietyId)
              (fun v => { v with completed := some completed }) g.varieties })
          s.groups })
      db.schedules }

/-! ## `bookingController.js` -/

/-- The document `new Booking({...})` builds from the request, as `save`
accepts it: the fields `models/Booking.js` marks `required` must be there and
`cropGroup`, when given, must be an identifier; the payment fields default
to 0. -/
def newBooking (env : Env) (farmerId : String) (body : BookingBody) : Option Booking :=
  match body.bookingDate, present body.variety, body.quantity, body.ratePerUnit,
      present body.plotNumber with
  | some bookingDate, some variety, some quantity, some ratePerUnit, some plotNumber =>
    if (present body.cropGroup).all env.isValid then
      some {
        _id := env.newId, farmer := farmerId, cropGroup := present body.cropGroup,
        bookingDate := bookingDate, variety := variety, quantity := quantity,
        ratePerUnit := ratePerUnit, plotNumber := plotNumber,
        sowingDate := body.sowingDate, dispatchDate := body.dispatchDate,
        vehicleNumber := body.vehicleNumber, driverName := body.driverName,
        startKm := body.startKm, endKm := body.endKm, ratePerKm := body.ratePerKm,
        advancePayment := body.advancePayment.getD 0,
        totalPayment := body.totalPayment.getD 0,
        pendingPayment := body.pendingPayment.getD 0,
        finalTotalPrice := body.finalTotalPrice.getD 0 }
    else none
  | _, _, _, _, _ => none

/-- The crop variety `createBooking` resolves the `variety` field to: by
identifier when the field is a valid identifier, by name otherwise. -/
def resolveVariety (env : Env) (db : DB) (variety : String) : Option CropVariety :=
  if truthy variety && env.isValid variety then
    db.cropVarieties.find? (fun cv => cv._id == variety)
  else
    db.cropVarieties.find? (fun cv => cv.name == variety)

/-- The filter `varietyRef ? { varietyRef } : { varietyName }` on TopCrop. -/
def topCropFilter (varietyRef : Option String) (varietyName : String) (t : TopCrop) : Bool :=
  match varietyRef with
  | some ref => t.varietyRef == some ref
  | none => t.varietyName == varietyName

/-- The call `TopCrop.findOneAndUpdate(filter, update, { upsert: true, ... })`
of `createBooking`: the first matching entry gets `$inc` and `$set`, and when
no entry matches one is inserted from the filter and the update. -/
def upsertTopCrop (now : Int) (varietyRef : Option String) (varietyName : String)
    (cropGroupId : Option String) (qty : Int) (topCrops : List TopCrop) : List TopCrop :=
  if topCrops.any (topCropFilter varietyRef varietyName) then
    modifyFirst (topCropFilter varietyRef varietyName)
      (fun t => { t with
        bookedQuantity := t.bookedQuantity + qty,
        lastBookedAt := some now,
        varietyName := varietyName,
        cropGroup := if cropGroupId.isSome then cropGroupId else t.cropGroup,
        varietyRef := if varietyRef.isSome then varietyRef else t.varietyRef })
      topCrops
  else
    topCrops ++ [{ varietyRef := varietyRef, varietyName := varietyName,
                   cropGroup := cropGroupId, bookedQuantity := qty, lastBookedAt := some now }]

/-- The handler `createBooking`. -/
def createBooking (env : Env) (db : DB) (body : BookingBody) : Response × DB :=
  match body.farmerId with
  | none => (⟨404⟩, db)
  | some farmerId =>
    -- `Farmer.findById` fails on a malformed identifier; the `catch` answers 500
    if !env.isValid farmerId then (⟨500⟩, db) else
    match db.farmers.find? (fun f => f._id == farmerId) with
    | none => (⟨404⟩, db)
    | some _ =>
      match newBooking env farmerId body with
      | none => (⟨500⟩, db)
      | some booking =>
        let db1 := { db with bookings := db.bookings ++ [booking] }
        let db2 := { db1 with schedules := env.afterBookingCreated booking db1.schedules }
        let db3 := { db2 with
          farmers := modifyFirst (fun f => f._id == farmerId)
            (fun f => { f with status := some "pending" }) db2.farmers }
        let qty := body.quantity.getD 0
        let cv := resolveVariety env db3 booking.variety
        let varietyRef := cv.map (fun c => c._id)
        let varietyName := (cv.map (fun c => c.name)).getD booking.variety
        let cropGroupId :=
          match present body.cropGroup with
          | some g => some g
          | none => cv.bind (fun c => present c.group)
        let db4 := { db3 with
          topCrops := upsertTopCrop env.now varietyRef varietyName cropGroupId qty db3.topCrops }
        let db5 :=
          match varietyRef with
          | some ref => { db4 with
              stocks := modifyFirst (fun s => s.variety == ref)
                (fun s => { s with quantity := max (s.quantity - qty) 0,
                                   lastUpdated := some env.now }) db4.stocks }
          | none => db4
        (⟨201⟩, db5)

/-- The writes of `createBooking` that follow the save of the new booking. -/
inductive BookingWrite where
  | farmerSave
  | topCropUpdate
  | stockSave
  deriving DecidableEq

/-- The handler `createBooking` on a database that rejects the writes selected
by `fails`: a rejected write throws, the `catch` answers 500, and the writes
made before it stay (there is no transaction).  The Stock save is only
attempted when a Stock document was found. -/
def createBookingWith (fails : BookingWrite → Bool) (env : Env) (db : DB)
    (body : BookingBody) : Response × DB :=
  match body.farmerId with
  | none => (⟨404⟩, db)
  | some farmerId =>
    if !env.isValid farmerId then (⟨500⟩, db) else
    match db.farmers.find? (fun f => f._id == farmerId) with
    | none => (⟨404⟩, db)
    | some _ =>
      match newBooking env farmerId body with
      | none => (⟨500⟩, db)
      | some booking =>
        let db1 := { db with bookings := db.bookings ++ [booking] }
        let db2 := { db1 with schedules := env.afterBookingCreated booking db1.schedules }
        if fails .farmerSave then (⟨500⟩, db2) else
        let db3 := { db2 with
          farmers := modifyFirst (fun f => f._id == farmerId)
            (fun f => { f with status := some "pending" }) db2.farmers }
        let qty := body.quantity.getD 0
        let cv := resolveVariety env db3 booking.variety
        let varietyRef := cv.map (fun c => c._id)
        let varietyName := (cv.map (fun c => c.name)).getD booking.variety
        let cropGroupId :=
          match present body.cropGroup with
          | some g => some g
          | none => cv.bind (fun c => present c.group)
        if fails .topCropUpdate then (⟨500⟩, db3) else
        let db4 := { db3 with
          topCrops := upsertTopCrop env.now varietyRef varietyName cropGroupId qty db3.topCrops }
        match varietyRef with
        | some ref =>
          if (db4.stocks.find? (fun s => s.variety == ref)).isSome && fails .stockSave then
            (⟨500⟩, db4)
          else
            (⟨201⟩, { db4 with
              stocks := modifyFirst (fun s => s.variety == ref)
                (fun s => { s with quantity := max (s.quantity - qty) 0,
                                   lastUpdated := some env.now }) db4.stocks })
        | none => (⟨201⟩, db4)

/-- The handler `deleteBooking`. -/
def deleteBooking (env : Env) (db : DB) (id : String) : Response × DB :=
  if !truthy id || !env.isValid id then (⟨400⟩, db) else
  match db.bookings.find? (fun b => b._id == id) with
  | none => (⟨404⟩, db)
  | some booking =>
    match db.farmers.find? (fun f => f._id == booking.farmer) with
    | none => (⟨404⟩, db)
    | some farmer =>
      let qty := booking.quantity
      let varietyRef0 := if env.isValid booking.variety then some booking.variety else none
      let db2 :=
        if farmer.status == some "pending" then
          let varietyRef :=
            match varietyRef0 with
            | some ref => some ref
            | none => (db.cropVarieties.find? (fun cv => cv.name == booking.variety)).map
                (fun c => c._id)
          let db1 :=
            match varietyRef with
            | some ref => { db with
                stocks := modifyFirst (fun s => s.variety == ref)
                  (fun s => { s with quantity := s.quantity + qty,
                                     lastUpdated := some env.now }) db.stocks }
            | none => db
          { db1 with
            topCrops := modifyFirst (topCropFilter varietyRef booking.variety)
              (fun t => { t with bookedQuantity := max (t.bookedQuantity - qty) 0,
                                 lastBookedAt := some env.now }) db1.topCrops }
        else db
      (⟨200⟩, { db2 with bookings := deleteFirst (fun b => b._id == id) db2.bookings })

/-- The method `String.prototype.toLowerCase`, on the ASCII letters (no other character
maps to a letter of `pending`, `sowing`, `sown` or `completed`). -/
def toLowerCase (s : String) : String := ⟨s.data.map Char.toLower⟩

/-- The handler `promoteBookingStatus`. -/
def promoteBookingStatus (env : Env) (db : DB) (id : String) : Response × DB :=
  if !truthy id || !env.isValid id then (⟨400⟩, db) else
  match db.bookings.find? (fun b => b._id == id) with
  | none => (⟨404⟩, db)
  | some booking =>
    -- `.populate("farmer")`
    match db.farmers.find? (fun f => f._id == booking.farmer) with
    | none => (⟨404⟩, db)
    | some farmer =>
      let currentStatus := toLowerCase (farmer.status.getD "")
      let setStatus := fun (newStatus : String) (d : DB) =>
        { d with
          farmers := modifyFirst (fun f => f._id == booking.farmer)
            (fun f => { f with status := some newStatus }) d.farmers }
      if currentStatus == "pending" then
        (⟨200⟩, setStatus "sowing" db)
      else if currentStatus == "sowing" || currentStatus == "sown" then
        let db1 := { db with
          bookings := modifyFirst (fun b => b._id == id)
            (fun b => { b with pendingPayment := 0 }) db.bookings }
        let db2 := { db1 with
          incomes := db1.incomes ++ [{ date := env.now, amount := booking.finalTotalPrice,
                                       booking := booking._id, farmer := farmer._id }] }
        (⟨200⟩, setStatus "completed" db2)
      else (⟨400⟩, db)

/-! ## `adminDashboardController.js` -/

/-- A `Date` read in local time: `year`, `month` (0 for January) and `date` are
what `getFullYear`, `getMonth` and `getDate` return, and `msOfDay` is the time
since local midnight in milliseconds.  Local time is taken at a fixed offset
from UTC. -/
structure LocalDate where
  year : Int
  month : Int
  date : Int
  msOfDay : Int
  deriving DecidableEq

/-- Milliseconds in a day. -/
def msPerDay : Int := 86400000

/-- Leap years of the Gregorian calendar. -/
def isLeapYear (y : Int) : Bool := y % 4 == 0 && (y % 100 != 0 || y % 400 == 0)

/-- Days of month `m` (0 for January) of year `y`. -/
def daysInMonth (y m : Int) : Int :=
  if m == 1 then (if isLeapYear y then 29 else 28)
  else if m == 3 || m == 5 || m == 8 || m == 10 then 30
  else 31

/-- Days between 1 January of year 1 and 1 January of year `y`. -/
def daysBeforeYear (y : Int) : Int :=
  365 * (y - 1) + (y - 1) / 4 - (y - 1) / 100 + (y - 1) / 400

/-- Days between 1 January of year `y` and the first day of its month `m`. -/
def daysBeforeMonth (y m : Int) : Int :=
  ([0, 31, 59, 90, 120, 151, 181, 212, 243, 273, 304, 334] : List Int).getD m.toNat 0 +
    (if decide (2 ≤ m) && isLeapYear y then 1 else 0)

/-- The instant `new Date(year, monthIndex, day)`, local midnight, in
milliseconds from local midnight of 1 January of year 1.  As in JavaScript, a
year from 0 to 99 stands for 1900 + year, a month index outside 0..11 carries
into the year, and a day outside the month carries into the neighbouring
months. -/
def mkDate (year monthIndex day : Int) : Int :=
  let yr := if 0 ≤ year ∧ year ≤ 99 then 1900 + year else year
  let ym := yr + monthIndex / 12
  let mn := monthIndex % 12
  (daysBeforeYear ym + daysBeforeMonth ym mn + (day - 1)) * msPerDay

/-- The instant of a local date (`getTime`, from the same origin as
`mkDate`). -/
def LocalDate.getTime (d : LocalDate) : Int :=
  mkDate d.year d.month d.date + d.msOfDay

/-- The three values of `type` that `calcNetIncome` is called with. -/
inductive Period where
  | day
  | month
  | year
  deriving DecidableEq

/-- The helper `getDateRange` of `getIncomeData`: `start` and `end` of the
period around `now`.  For a day, `end` is `start` with `setDate(getDate() + 1)`. -/
def getDateRange (type : Period) (now : LocalDate) : Int × Int :=
  match type with
  | .day => (mkDate now.year now.month now.date, mkDate now.year now.month (now.date + 1))
  | .month => (mkDate now.year now.month 1, mkDate now.year (now.month + 1) 1)
  | .year => (mkDate now.year 0 1, mkDate (now.year + 1) 0 1)

/-- The filter `{ $gte: start, $lt: end }` on a date field. -/
def inRange (start stop x : Int) : Bool := decide (start ≤ x) && decide (x < stop)

/-- The pipeline `Model.aggregate([{ $match }, { $group: { _id: null, total:
{ $sum } } }])`: no group when no record matches, else one group with the
total. -/
def aggregateTotal {α : Type} (records : List α) (field dateField : α → Int)
    (start stop : Int) (extraFilter : α → Bool) : List Int :=
  let matched := records.filter fun r => inRange start stop (dateField r) && extraFilter r
  if matched.isEmpty then [] else [(matched.map field).sum]

/-- The helper `sumAmounts` of `getIncomeData`: `result[0]?.total || 0`. -/
def sumAmounts {α : Type} (records : List α) (field dateField : α → Int)
    (start stop : Int) (extraFilter : α → Bool) : Int :=
  (aggregateTotal records field dateField start stop extraFilter).head?.getD 0

/-- The helper `calcNetIncome` of `getIncomeData`. -/
def calcNetIncome (type : Period) (now : LocalDate) (db : DB) : Int :=
  let (start, stop) := getDateRange type now
  let totalIncome := sumAmounts db.incomes (fun i => i.amount) (fun i => i.date) start stop
    (fun _ => true)
  let totalExpenses := sumAmounts db.expenses (fun e => e.total) (fun e => e.date) start stop
    (fun e => e.status == "Done")
  let totalSalaries := sumAmounts db.salaries (fun s => s.totalAmount) (fun s => s.paymentDate)
    start stop (fun s => s.status == "paid")
  let net := totalIncome - totalExpenses - totalSalaries
  if type = .month ∨ type = .year then
    let totalLosses := sumAmounts db.losses (fun l => l.value) (fun l => l.date) start stop
      (fun l => l.status == "Done")
    net - totalLosses
  else net

/-- The `data` object of the answer of `getIncomeData`. -/
structure IncomeData where
  daily : Int
  monthly : Int
  yearly : Int
  deriving DecidableEq

/-- The handler `getIncomeData`. -/
def getIncomeData (now : LocalDate) (db : DB) : IncomeData :=
  { daily := calcNetIncome .day now db,
    monthly := calcNetIncome .month now db,
    yearly := calcNetIncome .year now db }

/-- One group of `monthlyTrendRaw`: `{ _id: { month }, count }`. -/
structure MonthGroup where
  month : Int
  count : Int
  deriving DecidableEq

/-- One entry of `monthly_trend`. -/
structure TrendEntry where
  month : String
  count : Int
  deriving DecidableEq

/-- The table `monthNames` of `getBookingStats`. -/
def monthNames : List String :=
  ["Jan", "Feb", "Mar", "Apr", "May", "Jun", "Jul", "Aug", "Sep", "Oct", "Nov", "Dec"]

/-- The list `monthly_trend` of `getBookingStats`, from the groups the
aggregation returned. -/
def monthlyTrend (monthlyTrendRaw : List MonthGroup) : List TrendEntry :=
  monthNames.enum.map fun (idx, name) =>
    let found := monthlyTrendRaw.find? fun m => m.month == (idx : Int) + 1
    { month := name,
      count := match found with
        | some f => f.count
        | none => 0 }

/-- The answer of `getBookingStats`. -/
structure BookingStats where
  daily : Nat
  monthly : Nat
  yearly : Nat
  monthly_trend : List TrendEntry
  deriving DecidableEq

/-- The query `Booking.countDocuments({ bookingDate: { $gte, $lt } })`. -/
def countDocuments (bookings : List Booking) (start stop : Int) : Nat :=
  (bookings.filter fun b => inRange start stop b.bookingDate).length

/-- The handler `getBookingStats`; `monthlyTrendRaw` is what the database
answers to the `$match`/`$group`/`$sort` aggregation. -/
def getBookingStats (now : LocalDate) (db : DB) (monthlyTrendRaw : List MonthGroup) :
    BookingStats :=
  let startOfDay := mkDate now.year now.month now.date
  let endOfDay := mkDate now.year now.month (now.date + 1)
  let startOfMonth := mkDate now.year now.month 1
  let endOfMonth := mkDate now.year (now.month + 1) 1
  let startOfYear := mkDate now.year 0 1
  let endOfYear := mkDate (now.year + 1) 0 1
  { daily := countDocuments db.bookings startOfDay endOfDay,
    monthly := countDocuments db.bookings startOfMonth endOfMonth,
    yearly := countDocuments db.bookings startOfYear endOfYear,
    monthly_trend := monthlyTrend monthlyTrendRaw }

/-! ## `newEntryController.js` -/

/-- The body of a `createNewEntry` request; a field is `none` when the body
does not carry it.  Dates arrive as strings. -/
structure NewEntryBody where
  date : Option String
  groupId : Option String
  varietyId : Option String
  totalTrays : Option Int
  totalPlants : Option Int
  sowingDate : Option String
  totalMans : Option Int
  deriving DecidableEq

/-- The document `new NewEntry({...})` builds from the request, as `save`
accepts it under `models/NewEntry.js`: `groupId` and `varietyId` must be
identifiers, `date` a date, `totalTrays` and `totalPlants` are required and at
least 0, `sowingDate` defaults to null, `totalMans` defaults to 0 and is at
least 0, and `status` defaults to `active`.  `castDate` is Mongoose's reading of
a date string. -/
def newEntry (env : Env) (castDate : String → Option Int) (groupId varietyId date : String)
    (body : NewEntryBody) : Option NewEntry :=
  match castDate date, body.totalTrays, body.totalPlants with
  | some date, some totalTrays, some totalPlants =>
    let sowingDate : Option (Option Int) :=
      match present body.sowingDate with
      | none => some none
      | some s => (castDate s).map some
    match sowingDate with
    | some sowingDate =>
      if env.isValid groupId && env.isValid varietyId && decide (0 ≤ totalTrays) &&
          decide (0 ≤ totalPlants) && decide (0 ≤ body.totalMans.getD 0) then
        some { groupId := groupId, varietyId := varietyId, date := date,
               totalTrays := totalTrays, totalPlants := totalPlants,
               sowingDate := sowingDate, totalMans := body.totalMans.getD 0,
               status := "active" }
      else none
    | none => none
  | _, _, _ => none

/-- The handler `createNewEntry`. -/
def createNewEntry (env : Env) (castDate : String → Option Int) (db : DB)
    (body : NewEntryBody) : Response × DB :=
  match present body.groupId, present body.varietyId, present body.date with
  | some groupId, some varietyId, some date =>
    match newEntry env castDate groupId varietyId date body with
    | some entry => (⟨201⟩, { db with newEntries := db.newEntries ++ [entry] })
    | none => (⟨500⟩, db)
  | _, _, _ => (⟨400⟩, db)

/-! ## The schedule page (`SowingSchedulePage.jsx`) -/

/-- White space that `parseInt` skips before the number. -/
def isWhiteSpace (c : Char) : Bool :=
  c == ' ' || c == '\t' || c == '\n' || c == '\r' || c.toNat == 0x0B || c.toNat == 0x0C ||
  c.toNat == 0xA0 || c.toNat == 0xFEFF || c.toNat == 0x2028 || c.toNat == 0x2029 ||
  c.toNat == 0x1680 || (decide (0x2000 ≤ c.toNat) && decide (c.toNat ≤ 0x200A)) ||
  c.toNat == 0x202F || c.toNat == 0x205F || c.toNat == 0x3000

/-- The call `parseInt(text, 10)`: leading white space, an optional sign and the
longest run of decimal digits; `none` is `NaN` (no digit). -/
def parseInt (text : String) : Option Int :=
  let cs := text.data.dropWhile isWhiteSpace
  let signed : Bool × List Char :=
    match cs with
    | '-' :: rest => (true, rest)
    | '+' :: rest => (false, rest)
    | _ => (false, cs)
  let digits := signed.2.takeWhile Char.isDigit
  if digits.isEmpty then none
  else
    let n : Int := digits.foldl (fun acc c => 10 * acc + ((c.toNat - 48 : Nat) : Int)) 0
    some (if signed.1 then -n else n)

/-- The state of the schedule page that `handleAddCompleted` reads. -/
structure SchedulePage where
  schedules : List Schedule
  selectedScheduleId : Option String
  selectedGroupId : Option String
  selectedVarietyId : Option String
  completedQtyInput : String
  deriving DecidableEq

/-- The value `currentVariety` of the page: the selected variety of the
selected group of the selected schedule, if there is one. -/
def currentVariety (page : SchedulePage) : Option ScheduleVariety :=
  let currentSchedule := page.schedules.find? fun s => some s._id == page.selectedScheduleId
  let currentGroup := currentSchedule.bind fun s =>
    s.groups.find? fun g => some g.groupId == page.selectedGroupId
  currentGroup.bind fun g =>
    g.varieties.find? fun v => some v.varietyId == page.selectedVarietyId

/-- What `handleAddCompleted` does: it sets a message and sends nothing, or it
sends a `PATCH /schedules/update` request. -/
inductive AddCompleted where
  | message (text : String)
  | send (body : UpdateScheduleBody)
  deriving DecidableEq

/-- The handler `handleAddCompleted` of the page, up to the request it sends. -/
def handleAddCompleted (page : SchedulePage) : AddCompleted :=
  match parseInt page.completedQtyInput with
  | none => .message "Please enter a valid positive quantity."
  | some added =>
    if added ≤ 0 then .message "Please enter a valid positive quantity." else
    match currentVariety page with
    | none => .message "No variety selected."
    | some variety =>
      let currentTotal := variety.total.getD 0
      let currentCompleted := variety.completed.getD 0
      if currentCompleted + added > currentTotal then
        .message "Warning: entered quantity exceeds total planned quantity."
      else
        .send ⟨some "updateVarietyProgress",
               some ⟨page.selectedScheduleId, page.selectedGroupId, page.selectedVarietyId,
                     some (currentCompleted + added)⟩⟩

/-! ## Data fetches of the pages

A request of the page is given by its outcome: `none` when the request fails
(axios throws), else the data of the response. -/

/-- A row of the bookings table (`BookingManagementPage.jsx`). -/
structure BookingRow where
  bookingId : String
  farmer : String
  crop : String
  quantity : String
  bookingDate : String
  status : String
  amount : Int
  deriving DecidableEq

/-- The sample rows `defaultData` of the bookings page. -/
def bookingsDefaultData : List BookingRow :=
  [⟨"#1001", "Soham Patil", "Tomato", "1000 seedlings", "Jul 1, 2025", "Sown", 2000⟩,
   ⟨"#1002", "Soham Sonawane", "Chilli", "500 seedlings", "Jun 28, 2025", "Pending", 1000⟩,
   ⟨"#1003", "Soham Shinde", "Bhendi", "750 seedlings", "Jun 25, 2025", "Completed", 1500⟩]

/-- The helper `mapTabToParam` of the bookings page. -/
def mapTabToParam (tab : String) : String :=
  let normalized := toLowerCase tab
  if normalized == "all bookings" then ""
  else if normalized == "pending" then "pending"
  else if normalized == "sowing" then "sowing"
  else if normalized == "completed" then "completed"
  else ""

/-- The function `fetchBookingsForTab` of the bookings page, as the value it
gives the list state `bookings`; `get` is the outcome of a GET on an
endpoint. -/
def fetchBookingsForTab (activeTab : String) (get : String → Option (List BookingRow)) :
    List BookingRow :=
  let statusParam := mapTabToParam activeTab
  let tryEndpoints :=
    (if truthy statusParam then ["/bookings?status=" ++ statusParam] else []) ++ ["/bookings"]
  match tryEndpoints.findSome? get with
  | none =>
    if activeTab == "All Bookings" then bookingsDefaultData
    else bookingsDefaultData.filter fun d => toLowerCase d.status == mapTabToParam activeTab
  | some gotData =>
    if activeTab == "All Bookings" then gotData
    else gotData.filter fun b =>
      let bookingStatus := toLowerCase b.status
      bookingStatus == statusParam || decide (statusParam.data <:+: bookingStatus.data)

/-- A row of the nutrient table of the dashboard (`AdminDashboard.jsx`). -/
structure NutrientRow where
  id : String
  name : String
  available : Int
  lowerLimit : Int
  status : String
  deriving DecidableEq

/-- The sample `dummyIncome` of the dashboard. -/
def dummyIncome : IncomeData := ⟨8550, 120750, 1450000⟩

/-- The sample `dummyBookingStats` of the dashboard. -/
def dummyBookingStats : BookingStats :=
  { daily := 32, monthly := 540, yearly := 6120,
    monthly_trend := [⟨"Jan", 420⟩, ⟨"Feb", 380⟩, ⟨"Mar", 510⟩, ⟨"Apr", 550⟩, ⟨"May", 600⟩,
                      ⟨"Jun", 540⟩] }

/-- The sample `dummyNutrients` of the dashboard. -/
def dummyNutrients : List NutrientRow :=
  [⟨"1", "Nitrogen (N)", 45, 15, "ok"⟩, ⟨"2", "Phosphorus (P)", 18, 22, "low"⟩,
   ⟨"3", "Potassium (K)", 60, 10, "ok"⟩, ⟨"4", "Organic Compost", 85, 35, "ok"⟩]

/-- The function `fetchData` of the dashboard, as the values it gives the
states `incomeData`, `bookingStats` and `nutrientStock`.  The three requests go
through `Promise.all`, which fails when one of them fails; the data of a
response is `none` when it is falsy. -/
def fetchData (incomeRes : Option (Option IncomeData)) (bookingRes : Option (Option BookingStats))
    (nutrientRes : Option (Option (List NutrientRow))) :
    IncomeData × BookingStats × List NutrientRow :=
  match incomeRes, bookingRes, nutrientRes with
  | some income, some booking, some nutrient =>
    (income.getD dummyIncome, booking.getD dummyBookingStats, nutrient.getD dummyNutrients)
  | _, _, _ => (dummyIncome, dummyBookingStats, dummyNutrients)

/-- An expense as the expenses page receives it (`AdminExpencessPage.jsx`), in
the shape of the sample expenses. -/
structure ExpenseItem where
  id : Int
  date : Int
  category : String
  description : String
  amount : Int
  receiptUrl : String
  deriving DecidableEq

/-- A row of the expenses table: what `normalize` returns. -/
structure ExpenseRow where
  id : Option Int
  date : Option Int
  category : String
  description : String
  amount : Int
  receiptUrl : String
  raw : ExpenseItem
  deriving DecidableEq

/-- The sample `defaultExpenses` of the expenses page; their date is
`new Date()`. -/
def defaultExpenses (now : Int) : List ExpenseItem :=
  [⟨1, now, "Seed", "Default seed expense", 500, ""⟩,
   ⟨2, now, "Fertilizer", "Default fertilizer expense", 800, ""⟩,
   ⟨3, now, "Labour", "Default labour expense", 1200, ""⟩]

/-- The helper `normalize` of the expenses page, on an item of the sample
shape (`item.id || null`, `item.date || null`, and so on). -/
def normalize (item : ExpenseItem) : ExpenseRow :=
  { id := if item.id = 0 then none else some item.id,
    date := some item.date,
    category := item.category,
    description := item.description,
    amount := item.amount,
    receiptUrl := item.receiptUrl,
    raw := item }

/-- The function `fetchExpenses` of the expenses page, as the value it gives
the list state `expenses`. -/
def fetchExpenses (now : Int) (resp : Option (List ExpenseItem)) : List ExpenseRow :=
  match resp with
  | some items =>
    if items.isEmpty then (defaultExpenses now).map normalize else items.map normalize
  | none => (defaultExpenses now).map normalize

/-- The function `fetchLosses` of the expenses page, as the value it gives the
list state `losses`; `normalizeLoss` is the page's helper of that name. -/
def fetchLosses {α β : Type} (normalizeLoss : α → β) (resp : Option (List α)) : List β :=
  match resp with
  | some items => if items.isEmpty then [] else items.map normalizeLoss
  | none => []

/-- A row of the crop entries table (`NewPage.jsx`). -/
structure CropRow where
  _id : String
  date : String
  cropGroup : String
  variety : String
  totalTrays : Int
  totalPlants : Int
  sowingDate : String
  totalMans : Int
  deriving DecidableEq

/-- The sample rows `defaultData` of the crop entries page. -/
def cropsDefaultData : List CropRow :=
  [⟨"1", "2025-07-01", "Vegetables", "Tomato", 20, 1960, "2025-07-03", 5⟩]

/-- The function `fetchCrops` of the crop entries page, as the value it gives
the list state `crops`. -/
def fetchCrops (resp : Option (List CropRow)) : List CropRow :=
  match resp with
  | some data => data
  | none => cropsDefaultData

/-- The sample `defaultSchedules` of the schedule page (its display names are
not part of `Schedule`; the dates are in epoch milliseconds). -/
def defaultSchedules : List Schedule :=
  [{ _id := "64f200a17d9f2a1234567001", name := "Schedule 1 (1 Aug - 5 Aug)",
     startDate := 1754006400000, endDate := 1754438399999, status := "pending",
     groups := [⟨"64f200b27d9f2a1234567002",
       [⟨"64f200c37d9f2a1234567003",
         [⟨"64f200d47d9f2a1234567004", "64f200e57d9f2a1234567005", 5000⟩,
          ⟨"64f200f67d9f2a1234567006", "64f201077d9f2a1234567007", 3000⟩],
         some 8000, some 2000⟩]⟩] }]

/-- The function `fetchSchedules` of the schedule page, as the value it gives
the list state `schedules`. -/
def fetchSchedules (resp : Option (List Schedule)) : List Schedule :=
  match resp with
  | some data => if data.isEmpty then defaultSchedules else data
  | none => defaultSchedules

/-! ## Reading the bookings (`getBookings`) and promoting from the page -/

/-- An item of the answer of `getBookings`.  The display fields `farmer` (the
farmer's full name), `cropGroup` (the group's name) and `bookingDate` (an ISO
date) are left out: they read a collection and a format that are outside the
model. -/
structure BookingItem where
  _id : String
  bookingId : String
  variety : String
  quantity : String
  status : String
  amount : Int
  deriving DecidableEq

/-- The call `s.slice(-4)`: the last four characters, the whole string when it
is shorter. -/
def sliceLast4 (s : String) : String := ⟨s.data.drop (s.data.length - 4)⟩

/-- The farmer that `.populate("farmer", ...)` puts on a booking: `none` when
no farmer has the identifier. -/
def populatedFarmer (db : DB) (b : Booking) : Option Farmer :=
  db.farmers.find? fun f => f._id == b.farmer

/-- The item `getBookings` makes of a booking. -/
def formatBooking (db : DB) (b : Booking) : BookingItem :=
  { _id := b._id,
    bookingId := "#" ++ sliceLast4 b._id,
    variety := if truthy b.variety then b.variety else "N/A",
    quantity := toString b.quantity ++ " seedlings",
    status := (present ((populatedFarmer db b).bind fun f => f.status)).getD "Pending",
    amount := b.finalTotalPrice }

/-- The handler `getBookings`, as the list it answers with status 200; `status`
is the query parameter. -/
def getBookings (db : DB) (status : Option String) : List BookingItem :=
  let bookings := db.bookings
  let filteredBookings :=
    match present status with
    | some status =>
      bookings.filter fun b =>
        match present ((populatedFarmer db b).bind fun f => f.status) with
        | some farmerStatus => toLowerCase farmerStatus == toLowerCase status
        | none => false
    | none => bookings
  filteredBookings.map (formatBooking db)

/-- The next status the promote button of the bookings page computes from the
status of a row (`booking.status || booking.farmer?.status || ""`); `none` when
the page shows no button. -/
def nextStatus (status : String) : Option String :=
  let st := toLowerCase status
  if st == "pending" then some "sowing"
  else if st == "sowing" || st == "sown" then some "completed"
  else none

/-- A `PATCH /bookings/:id/promote` request: the path parameter and the `status`
field of the body. -/
structure PromoteRequest where
  id : String
  status : Option String
  deriving DecidableEq

/-- The request `handlePromoteBooking(id, newStatus)` of the bookings page
sends. -/
def handlePromoteBooking (id newStatus : String) : PromoteRequest :=
  { id := id, status := some newStatus }

/-- The handler `promoteBookingStatus` on a whole request: it reads
`req.params.id` and nothing of the body. -/
def promoteBookingStatusOf (env : Env) (db : DB) (req : PromoteRequest) : Response × DB :=
  promoteBookingStatus env db req.id

/-! ## Nutrient stock (`getNutrientStock`) -/

/-- The handler `getNutrientStock`, as the list it answers; the identifier of a
stored nutrient is never empty, so `nutrient._id || null` is the identifier. -/
def getNutrientStock (db : DB) : List NutrientRow :=
  db.nutrients.map fun nutrient =>
    let available := nutrient.currentStock
    let lowerLimit := nutrient.threshold
    let status := if available < nutrient.threshold then "low" else "ok"
    { id := nutrient._id, name := nutrient.name, available := available,
      lowerLimit := lowerLimit, status := status }

/-! ## Sequences of booking requests -/

/-- The three state-changing booking requests. -/
inductive Request where
  | create (body : BookingBody)
  | delete (id : String)
  | promote (id : String)
  deriving DecidableEq

/-- One request served on the store. -/
def step (env : Env) (db : DB) : Request → Response × DB
  | .create body => createBooking env db body
  | .delete id => deleteBooking env db id
  | .promote id => promoteBookingStatus env db id

/-- The stores a sequence of requests goes through, each request with its own
environment; the initial store is not listed. -/
def trace (db : DB) : List (Env × Request) → List DB
  | [] => []
  | (env, r) :: rest => (step env db r).2 :: trace (step env db r).2 rest

/-! ## Vocabulary of the statements -/

/-- The quantity of the Stock document `Stock.findOne({ variety: ref })` finds. -/
def stockOf (db : DB) (ref : String) : Option Int :=
  (db.stocks.find? (fun s => s.variety == ref)).map (fun s => s.quantity)

/-- The counter of the TopCrop entry the filter of `topCropFilter` finds. -/
def topCropOf (db : DB) (varietyRef : Option String) (varietyName : String) : Option Int :=
  (db.topCrops.find? (topCropFilter varietyRef varietyName)).map (fun t => t.bookedQuantity)

/-- The `varietyRef` that `deleteBooking` has computed when it restores the
counters of a booking: the `variety` field itself when it is a valid
identifier, else the identifier of the crop variety of that name. -/
def deletedVarietyRef (env : Env) (db : DB) (booking : Booking) : Option String :=
  if env.isValid booking.variety then some booking.variety
  else (db.cropVarieties.find? (fun cv => cv.name == booking.variety)).map (fun c => c._id)

/-- The `varietyRef` that `createBooking` has computed when it updates TopCrop
and Stock: the identifier of the crop variety the `variety` field resolves
to. -/
def bookedVarietyRef (env : Env) (db : DB) (variety : String) : Option String :=
  (resolveVariety env db variety).map fun c => c._id

/-- The `varietyName` that `createBooking` has computed when it updates
TopCrop: the name of the resolved crop variety, else the `variety` field. -/
def bookedVarietyName (env : Env) (db : DB) (variety : String) : String :=
  ((resolveVariety env db variety).map fun c => c.name).getD variety

/-- The sum of `field` over the records whose date lies in the half-open
range from `start` to `stop` and which pass `keep`: the specification's total of
a period, to compare with `sumAmounts`. -/
def totalIn {α : Type} (records : List α) (field dateField : α → Int)
    (start stop : Int) (keep : α → Bool) : Int :=
  ((records.filter fun r =>
    decide (start ≤ dateField r ∧ dateField r < stop) && keep r).map field).sum

/-- A local date as `new Date()` gives it: a year from 100 on, a month index
from 0 to 11, a day of that month, and a time of day. -/
def LocalDate.valid (d : LocalDate) : Prop :=
  100 ≤ d.year ∧ 0 ≤ d.month ∧ d.month ≤ 11 ∧ 1 ≤ d.date ∧ d.date ≤ daysInMonth d.year d.month ∧
    0 ≤ d.msOfDay ∧ d.msOfDay < msPerDay

instance (d : LocalDate) : Decidable d.valid := by
  unfold LocalDate.valid
  exact inferInstance

/-- The count that `monthly_trend` shows for month number `i`: the count of the
first raw group of that month, 0 when there is none. -/
def trendCount (raw : List MonthGroup) (i : Int) : Int :=
  ((raw.find? fun m => m.month == i).map fun f => f.count).getD 0

/-- One move of a farmer's status along pending → sowing → completed: the
status stays, or goes from `pending` to `sowing`, or from `sowing` (or `sown`)
to `completed`; the old status is read without regard to case. -/
def advances (old new : Option String) : Bool :=
  new == old ||
  (toLowerCase (old.getD "") == "pending" && new == some "sowing") ||
  ((toLowerCase (old.getD "") == "sowing" || toLowerCase (old.getD "") == "sown") &&
    new == some "completed")

/-- Whether a request is a `createBooking`. -/
def Request.isCreate : Request → Bool
  | .create _ => true
  | _ => false

/-! ## Sample data -/

/-- An environment in which the identifiers are the four-character strings. -/
def sampleEnv : Env :=
  { isValid := fun s => s.length == 4, now := 1000, newId := "b999",
    afterBookingCreated := fun _ s => s }

/-- A schedule with one group of two varieties. -/
def sampleSchedule : Schedule :=
  { _id := "s001", name := "week 1",
    groups := [⟨"g001", [⟨"v001", [⟨"b001", "f001", 4⟩], some 10, some 2⟩,
                          ⟨"v002", [], none, none⟩]⟩],
    startDate := 0, endDate := 7, status := "pending" }

/-- A stored booking of 4 seedlings of the sample crop variety, named by its
identifier. -/
def sampleBooking (id farmer : String) : Booking :=
  { _id := id, farmer := farmer, cropGroup := none, bookingDate := 1,
    variety := "c001", quantity := 4, ratePerUnit := 2, plotNumber := "P7",
    sowingDate := none, dispatchDate := none, vehicleNumber := none,
    driverName := none, startKm := none, endKm := none, ratePerKm := none,
    advancePayment := 0, totalPayment := 8, pendingPayment := 8, finalTotalPrice := 8 }

/-- A store with three farmers, a booking of each, one crop variety with its
stock and top-crop entry, and one schedule. -/
def sampleDB : DB :=
  { farmers := [⟨"f001", some "completed"⟩, ⟨"f002", some "Sown"⟩, ⟨"f003", some "pending"⟩],
    bookings := [sampleBooking "b001" "f002", sampleBooking "b002" "f003",
                 sampleBooking "b003" "f001"],
    cropVarieties := [⟨"c001", "Roma tomato", none⟩],
    topCrops := [⟨some "c001", "Roma tomato", none, 10, none⟩],
    stocks := [⟨"c001", 3, none⟩],
    incomes := [],
    schedules := [sampleSchedule] }

/-- A progress update for variety `v001` of the sample schedule. -/
def sampleProgress (completed : Int) : UpdateScheduleBody :=
  ⟨some "updateVarietyProgress", some ⟨some "s001", some "g001", some "v001", some completed⟩⟩

/-- A booking request of farmer `f001` for `quantity` seedlings of the sample
crop variety, named by its name. -/
def sampleBody (quantity : Int) : BookingBody :=
  { farmerId := some "f001", bookingDate := some 5, cropGroup := none,
    variety := some "Roma tomato", quantity := some quantity, ratePerUnit := some 2,
    plotNumber := some "P1", sowingDate := none, dispatchDate := none,
    vehicleNumber := none, driverName := none, startKm := none, endKm := none,
    ratePerKm := none, advancePayment := none, totalPayment := none,
    pendingPayment := none, finalTotalPrice := some 10 }

/-- The booking that `sampleBody quantity` creates in `sampleEnv`. -/
def sampleCreated (quantity : Int) : Booking :=
  { _id := "b999", farmer := "f001", cropGroup := none, bookingDate := 5,
    variety := "Roma tomato", quantity := quantity, ratePerUnit := 2, plotNumber := "P1",
    sowingDate := none, dispatchDate := none, vehicleNumber := none,
    driverName := none, startKm := none, endKm := none, ratePerKm := none,
    advancePayment := 0, totalPayment := 0, pendingPayment := 0, finalTotalPrice := 10 }

/-- The sample instant: 6 November 2026, 10:00 local time. -/
def sampleNow : LocalDate := ⟨2026, 10, 6, 36000000⟩

/-- A ledger with records in November 2026 and in October 2026, none of them on
6 November. -/
def sampleLedger : DB :=
  { incomes := [⟨mkDate 2026 10 3, 500, "b001", "f002"⟩, ⟨mkDate 2026 9 20, 200, "b002", "f003"⟩],
    expenses := [⟨mkDate 2026 10 2, 100, "Done"⟩, ⟨mkDate 2026 10 4, 50, "Pending"⟩],
    salaries := [⟨mkDate 2026 9 30, 120, "paid"⟩],
    losses := [⟨mkDate 2026 10 1, 30, "Done"⟩] }

/-- A reading of date strings that knows two dates. -/
def sampleCastDate (s : String) : Option Int :=
  if s == "2026-11-06" then some (mkDate 2026 10 6)
  else if s == "2026-11-09" then some (mkDate 2026 10 9)
  else none

/-- A crop entry request for 20 trays of the sample variety. -/
def sampleEntryBody : NewEntryBody :=
  { date := some "2026-11-06", groupId := some "g001", varietyId := some "c001",
    totalTrays := some 20, totalPlants := some 1960, sowingDate := some "2026-11-09",
    totalMans := none }

/-- The schedule page showing the sample schedule, variety `v001` selected
(completed 2 of 10), with `3` typed into the quantity field. -/
def samplePage : SchedulePage :=
  { schedules := [sampleSchedule], selectedScheduleId := some "s001",
    selectedGroupId := some "g001", selectedVarietyId := some "v001",
    completedQtyInput := "3" }

/-- The sample store with a second booking, `b004`, of farmer `f002`. -/
def sampleDB2 : DB :=
  { sampleDB with bookings := sampleDB.bookings ++ [sampleBooking "b004" "f002"] }

/-- The sample store with one TopCrop entry, kept under the name `c009`, which
is a well-formed identifier of no crop variety. -/
def sampleDB3 : DB :=
  { sampleDB with topCrops := [⟨none, "c009", none, 10, none⟩] }

/-- A nutrient store with one stock below, one at and one above its
threshold. -/
def sampleNutrients : DB :=
  { nutrients := [⟨"n001", "Nitrogen", 10, 15⟩, ⟨"n002", "Potash", 20, 20⟩,
                  ⟨"n003", "Compost", 30, 5⟩] }

/-! # Theorems -/

/-! ## Lemmas on the store operations -/

theorem modifyFirst_of_find?_none {α : Type} (p : α → Bool) (f : α → α) :
    ∀ l : List α, l.find? p = none → modifyFirst p f l = l
  | [], _ => rfl
  | x :: xs, h => by
    by_cases hx : p x = true
    · simp [List.find?, hx] at h
    · have hx' : p x = false := by simpa using hx
      simp only [List.find?, hx'] at h
      simp [modifyFirst, hx', modifyFirst_of_find?_none p f xs h]

theorem modifyFirst_split {α : Type} (p : α → Bool) (f : α → α) :
    ∀ (l : List α) (x : α), l.find? p = some x →
      ∃ l₁ l₂, l = l₁ ++ x :: l₂ ∧ (∀ y ∈ l₁, p y = false) ∧ p x = true ∧
        modifyFirst p f l = l₁ ++ f x :: l₂
  | [], x, h => by simp at h
  | y :: ys, x, h => by
    by_cases hy : p y = true
    · simp only [List.find?, hy, Option.some.injEq] at h
      subst h
      exact ⟨[], ys, rfl, by simp, hy, by simp [modifyFirst, hy]⟩
    · have hy' : p y = false := by simpa using hy
      simp only [List.find?, hy'] at h
      obtain ⟨l₁, l₂, h₁, h₂, h₃, h₄⟩ := modifyFirst_split p f ys x h
      refine ⟨y :: l₁, l₂, by simp [h₁], ?_, h₃, by simp [modifyFirst, hy', h₄]⟩
      intro z hz
      rcases List.mem_cons.mp hz with rfl | hz
      · exact hy'
      · exact h₂ z hz

theorem find?_modifyFirst {α : Type} (p : α → Bool) (f : α → α)
    (hf : ∀ x, p x = true → p (f x) = true) :
    ∀ l : List α, (modifyFirst p f l).find? p = (l.find? p).map f
  | [] => rfl
  | x :: xs => by
    by_cases hx : p x = true
    · simp [modifyFirst, List.find?, hx, hf x hx]
    · have hx' : p x = false := by simpa using hx
      simp [modifyFirst, List.find?, hx', find?_modifyFirst p f hf xs]

theorem mem_modifyFirst {α : Type} (p : α → Bool) (f : α → α) :
    ∀ (l : List α) (x : α), x ∈ modifyFirst p f l → x ∈ l ∨ ∃ y ∈ l, x = f y
  | [], x, h => by simp [modifyFirst] at h
  | y :: ys, x, h => by
    by_cases hy : p y = true
    · simp only [modifyFirst, hy, if_true, List.mem_cons] at h
      rcases h with rfl | h
      · exact Or.inr ⟨y, by simp, rfl⟩
      · exact Or.inl (by simp [h])
    · have hy' : p y = false := by simpa using hy
      simp only [modifyFirst, hy', Bool.false_eq_true, if_false, List.mem_cons] at h
      rcases h with rfl | h
      · exact Or.inl (by simp)
      · rcases mem_modifyFirst p f ys x h with h | ⟨z, hz, rfl⟩
        · exact Or.inl (by simp [h])
        · exact Or.inr ⟨z, by simp [hz], rfl⟩

theorem perm_deleteFirst {α : Type} (p : α → Bool) :
    ∀ (l : List α) (x : α), l.find? p = some x → l.Perm (x :: deleteFirst p l)
  | [], x, h => by simp at h
  | y :: ys, x, h => by
    by_cases hy : p y = true
    · simp only [List.find?, hy, Option.some.injEq] at h
      subst h
      simp [deleteFirst, hy]
    · have hy' : p y = false := by simpa using hy
      simp only [List.find?, hy'] at h
      simp only [deleteFirst, hy', Bool.false_eq_true, if_false]
      exact ((perm_deleteFirst p ys x h).cons y).trans (List.Perm.swap x y _)

/-! ## Lemmas on `updateSchedule` -/

theorem present_eq_some {o : Option String} {s : String} :
    present o = some s ↔ o = some s ∧ truthy s = true := by
  cases o with
  | none => simp [present, Option.filter]
  | some t =>
    by_cases ht : truthy t = true
    · simp only [present, Option.filter, ht, if_true, Option.some.injEq]
      constructor
      · rintro rfl; exact ⟨rfl, ht⟩
      · exact fun h => h.1
    · simp only [present, Option.filter, ht, Bool.false_eq_true, if_false, Option.some.injEq]
      constructor
      · intro h; cases h
      · rintro ⟨rfl, h⟩; exact absurd h ht

theorem updateSchedule_inv (env : Env) (db : DB) (body : UpdateScheduleBody) :
    ((updateSchedule env db body).1.status ≠ 200 ∧ (updateSchedule env db body).2 = db) ∨
    ∃ sid gid vid c s g v,
      body = ⟨some "updateVarietyProgress", some ⟨some sid, some gid, some vid, some c⟩⟩ ∧
      env.isValid sid = true ∧
      db.schedules.find? (fun s => s._id == sid) = some s ∧
      s.groups.find? (fun g => g.groupId == gid) = some g ∧
      g.varieties.find? (fun v => v.varietyId == vid) = some v ∧
      c ≤ v.total.getD 0 ∧
      updateSchedule env db body = (⟨200⟩, progressSaved db sid gid vid c) := by
  unfold updateSchedule
  split
  · rename_i action payload hact hpl
    split
    · exact Or.inl ⟨by simp, rfl⟩
    · rename_i hname
      split
      · rename_i sid gid vid c hsid hgid hvid hc
        split
        · exact Or.inl ⟨by simp, rfl⟩
        · rename_i hvalid
          split
          · exact Or.inl ⟨by simp, rfl⟩
          · rename_i s hs
            split
            · exact Or.inl ⟨by simp, rfl⟩
            · rename_i g hg
              split
              · exact Or.inl ⟨by simp, rfl⟩
              · rename_i v hv
                split
                · exact Or.inl ⟨by simp, rfl⟩
                · rename_i hle
                  refine Or.inr ⟨sid, gid, vid, c, s, g, v, ?_, by simpa using hvalid, hs, hg, hv,
                    by omega, rfl⟩
                  have h1 := (present_eq_some.mp hact).1
                  have h2 := (present_eq_some.mp hsid).1
                  have h3 := (present_eq_some.mp hgid).1
                  have h4 := (present_eq_some.mp hvid).1
                  have h5 : action = "updateVarietyProgress" := by simpa using hname
                  rcases body with ⟨a, p⟩
                  simp only at h1 hpl
                  subst h1 hpl h5
                  rcases payload with ⟨p1, p2, p3, p4⟩
                  simp only at h2 h3 h4 hc
                  subst h2 h3 h4 hc
                  rfl
      · exact Or.inl ⟨by simp, rfl⟩
  · exact Or.inl ⟨by simp, rfl⟩

theorem updateSchedule_found (env : Env) (db : DB) (sid gid vid : String) (c : Int)
    (s : Schedule) (g : ScheduleGroup) (v : ScheduleVariety)
    (hsid : truthy sid = true) (hgid : truthy gid = true) (hvid : truthy vid = true)
    (hvalid : env.isValid sid = true)
    (hs : db.schedules.find? (fun s => s._id == sid) = some s)
    (hg : s.groups.find? (fun g => g.groupId == gid) = some g)
    (hv : g.varieties.find? (fun v => v.varietyId == vid) = some v) :
    updateSchedule env db
        ⟨some "updateVarietyProgress", some ⟨some sid, some gid, some vid, some c⟩⟩ =
      if c > v.total.getD 0 then (⟨400⟩, db) else (⟨200⟩, progressSaved db sid gid vid c) := by
  have h0 : present (some "updateVarietyProgress") = some "updateVarietyProgress" :=
    present_eq_some.mpr ⟨rfl, by decide⟩
  have h1 : present (some sid) = some sid := present_eq_some.mpr ⟨rfl, hsid⟩
  have h2 : present (some gid) = some gid := present_eq_some.mpr ⟨rfl, hgid⟩
  have h3 : present (some vid) = some vid := present_eq_some.mpr ⟨rfl, hvid⟩
  simp only [updateSchedule, h0, h1, h2, h3, hvalid, hs, hg, hv, progressSaved]
  simp

theorem findVariety_progressSaved (db : DB) (sid gid vid : String) (c : Int) :
    findVariety (progressSaved db sid gid vid c) sid gid vid =
      (findVariety db sid gid vid).map fun v => { v with completed := some c } := by
  unfold findVariety progressSaved
  simp only
  rw [find?_modifyFirst]
  · cases db.schedules.find? (fun s => s._id == sid) with
    | none => rfl
    | some s =>
      simp only [Option.map_some', Option.some_bind]
      rw [find?_modifyFirst]
      · cases s.groups.find? (fun g => g.groupId == gid) with
        | none => rfl
        | some g =>
          simp only [Option.map_some', Option.some_bind]
          rw [find?_modifyFirst]
          intro x hx; exact hx
      · intro x hx; exact hx
  · intro x hx; exact hx

theorem findVariety_eq_some {db : DB} {sid gid vid : String} {v : ScheduleVariety}
    (h : findVariety db sid gid vid = some v) :
    ∃ s g, db.schedules.find? (fun s => s._id == sid) = some s ∧
      s.groups.find? (fun g => g.groupId == gid) = some g ∧
      g.varieties.find? (fun v => v.varietyId == vid) = some v := by
  unfold findVariety at h
  obtain ⟨s, hs, h⟩ := Option.bind_eq_some.mp h
  obtain ⟨g, hg, h⟩ := Option.bind_eq_some.mp h
  exact ⟨s, g, hs, hg, h⟩

/-! ## Lemmas on the booking handlers -/

theorem newBooking_eq_some {env : Env} {farmerId : String} {body : BookingBody} {b : Booking}
    (h : newBooking env farmerId body = some b) :
    body.variety = some b.variety ∧ truthy b.variety = true ∧
    body.quantity = some b.quantity ∧ b._id = env.newId ∧ b.farmer = farmerId ∧
    b.finalTotalPrice = body.finalTotalPrice.getD 0 := by
  unfold newBooking at h
  split at h
  · rename_i bookingDate variety quantity ratePerUnit plotNumber h1 h2 h3 h4 h5
    split at h
    · simp only [Option.some.injEq] at h
      subst h
      exact ⟨(present_eq_some.mp h2).1, (present_eq_some.mp h2).2, h3, rfl, rfl, rfl⟩
    · cases h
  · cases h

/-- What a `createBooking` request does to each collection. -/
theorem createBooking_inv (env : Env) (db : DB) (body : BookingBody) :
    ((createBooking env db body).1.status ≠ 201 ∧ (createBooking env db body).2 = db) ∨
    ∃ farmerId farmer booking,
      body.farmerId = some farmerId ∧ env.isValid farmerId = true ∧
      db.farmers.find? (fun f => f._id == farmerId) = some farmer ∧
      newBooking env farmerId body = some booking ∧
      (createBooking env db body).1.status = 201 ∧
      (createBooking env db body).2.farmers =
        modifyFirst (fun f => f._id == farmerId) (fun f => { f with status := some "pending" })
          db.farmers ∧
      (createBooking env db body).2.bookings = db.bookings ++ [booking] ∧
      (createBooking env db body).2.cropVarieties = db.cropVarieties ∧
      (createBooking env db body).2.incomes = db.incomes ∧
      (createBooking env db body).2.schedules = env.afterBookingCreated booking db.schedules ∧
      (createBooking env db body).2.topCrops =
        upsertTopCrop env.now ((resolveVariety env db booking.variety).map fun c => c._id)
          (((resolveVariety env db booking.variety).map fun c => c.name).getD booking.variety)
          (match present body.cropGroup with
            | some g => some g
            | none => (resolveVariety env db booking.variety).bind fun c => present c.group)
          booking.quantity db.topCrops ∧
      (createBooking env db body).2.stocks =
        match resolveVariety env db booking.variety with
        | some cv => modifyFirst (fun s => s.variety == cv._id)
            (fun s => { s with quantity := max (s.quantity - booking.quantity) 0,
                               lastUpdated := some env.now }) db.stocks
        | none => db.stocks := by
  unfold createBooking
  split
  · exact Or.inl ⟨by simp, rfl⟩
  · rename_i farmerId hfid
    split
    · exact Or.inl ⟨by simp, rfl⟩
    · rename_i hvalid
      split
      · exact Or.inl ⟨by simp, rfl⟩
      · rename_i farmer hfarmer
        split
        · exact Or.inl ⟨by simp, rfl⟩
        · rename_i booking hbooking
          have hq := (newBooking_eq_some hbooking).2.2.1
          refine Or.inr ⟨farmerId, farmer, booking, hfid, by simpa using hvalid, hfarmer,
            hbooking, rfl, ?_, ?_, ?_, ?_, ?_, ?_, ?_⟩
          all_goals simp only [hq, Option.getD_some]
          all_goals
            have hr : ∀ (fs : List Farmer) (bs : List Booking) (ss : List Schedule),
                resolveVariety env { db with farmers := fs, bookings := bs, schedules := ss }
                  booking.variety = resolveVariety env db booking.variety := fun _ _ _ => rfl
            simp only [hr]
            cases resolveVariety env db booking.variety <;> rfl

/-- What a `deleteBooking` request does to each collection. -/
theorem deleteBooking_inv (env : Env) (db : DB) (id : String) :
    ((deleteBooking env db id).1.status ≠ 200 ∧ (deleteBooking env db id).2 = db) ∨
    ∃ booking farmer,
      truthy id = true ∧ env.isValid id = true ∧
      db.bookings.find? (fun b => b._id == id) = some booking ∧
      db.farmers.find? (fun f => f._id == booking.farmer) = some farmer ∧
      (deleteBooking env db id).1.status = 200 ∧
      (deleteBooking env db id).2.farmers = db.farmers ∧
      (deleteBooking env db id).2.bookings = deleteFirst (fun b => b._id == id) db.bookings ∧
      (deleteBooking env db id).2.cropVarieties = db.cropVarieties ∧
      (deleteBooking env db id).2.incomes = db.incomes ∧
      (deleteBooking env db id).2.schedules = db.schedules ∧
      (deleteBooking env db id).2.topCrops =
        (if farmer.status = some "pending" then
          modifyFirst (topCropFilter (deletedVarietyRef env db booking) booking.variety)
            (fun t => { t with bookedQuantity := max (t.bookedQuantity - booking.quantity) 0,
                               lastBookedAt := some env.now }) db.topCrops
        else db.topCrops) ∧
      (deleteBooking env db id).2.stocks =
        (if farmer.status = some "pending" then
          match deletedVarietyRef env db booking with
          | some ref => modifyFirst (fun s => s.variety == ref)
              (fun s => { s with quantity := s.quantity + booking.quantity,
                                 lastUpdated := some env.now }) db.stocks
          | none => db.stocks
        else db.stocks) := by
  unfold deleteBooking
  split
  · exact Or.inl ⟨by simp, rfl⟩
  · rename_i hid
    split
    · exact Or.inl ⟨by simp, rfl⟩
    · rename_i booking hbooking
      split
      · exact Or.inl ⟨by simp, rfl⟩
      · rename_i farmer hfarmer
        simp only [Bool.or_eq_true, Bool.not_eq_true', not_or, Bool.not_eq_false] at hid
        refine Or.inr ⟨booking, farmer, hid.1, hid.2, hbooking, hfarmer, rfl, ?_, ?_, ?_, ?_, ?_,
          ?_, ?_⟩
        all_goals
          by_cases hst : farmer.status = some "pending"
          · simp only [hst, beq_self_eq_true, if_true, deletedVarietyRef]
            cases env.isValid booking.variety
            · cases db.cropVarieties.find? (fun cv => cv.name == booking.variety) <;> rfl
            · rfl
          · have hst' : (farmer.status == some "pending") = false := by simpa using hst
            simp only [hst', hst, Bool.false_eq_true, if_false]

/-- The three branches of `promoteBookingStatus` once booking and farmer are
found. -/
theorem promoteBookingStatus_found (env : Env) (db : DB) (id : String)
    (booking : Booking) (farmer : Farmer)
    (hid : truthy id = true) (hvalid : env.isValid id = true)
    (hb : db.bookings.find? (fun b => b._id == id) = some booking)
    (hf : db.farmers.find? (fun f => f._id == booking.farmer) = some farmer) :
    promoteBookingStatus env db id =
      if toLowerCase (farmer.status.getD "") = "pending" then
        (⟨200⟩, { db with
          farmers := modifyFirst (fun f => f._id == booking.farmer)
            (fun f => { f with status := some "sowing" }) db.farmers })
      else if toLowerCase (farmer.status.getD "") = "sowing" ∨
          toLowerCase (farmer.status.getD "") = "sown" then
        (⟨200⟩, { db with
          farmers := modifyFirst (fun f => f._id == booking.farmer)
            (fun f => { f with status := some "completed" }) db.farmers,
          bookings := modifyFirst (fun b => b._id == id)
            (fun b => { b with pendingPayment := 0 }) db.bookings,
          incomes := db.incomes ++ [{ date := env.now, amount := booking.finalTotalPrice,
                                      booking := booking._id, farmer := farmer._id }] })
      else (⟨400⟩, db) := by
  simp only [promoteBookingStatus, hid, hvalid, hb, hf, Bool.not_true, Bool.or_self,
    Bool.false_eq_true, if_false, beq_iff_eq, Bool.or_eq_true]

/-- A `promoteBookingStatus` request changes the store only after it has found
the booking and its farmer. -/
theorem promoteBookingStatus_inv (env : Env) (db : DB) (id : String) :
    promoteBookingStatus env db id = (⟨400⟩, db) ∨ promoteBookingStatus env db id = (⟨404⟩, db) ∨
    ∃ booking farmer,
      truthy id = true ∧ env.isValid id = true ∧
      db.bookings.find? (fun b => b._id == id) = some booking ∧
      db.farmers.find? (fun f => f._id == booking.farmer) = some farmer := by
  unfold promoteBookingStatus
  split
  · exact Or.inl rfl
  · rename_i hid
    simp only [Bool.or_eq_true, Bool.not_eq_true', not_or, Bool.not_eq_false] at hid
    split
    · exact Or.inr (Or.inl rfl)
    · rename_i booking hb
      split
      · exact Or.inr (Or.inl rfl)
      · rename_i farmer hf
        exact Or.inr (Or.inr ⟨booking, farmer, hid.1, hid.2, hb, hf⟩)

/-! ## Schedule progress -/

/-- C1: `updateSchedule` with action `updateVarietyProgress` never stores a
completed value above the variety's total.  When the addressed variety exists
and `completed > (total or 0)` the answer is 400 and the store is unchanged;
whenever the answer is 200, the addressed variety afterwards carries the
requested `completed`, which is at most its total (or 0). -/
theorem updateSchedule_completed_le_total (env : Env) (db : DB) (body : UpdateScheduleBody) :
    (∀ sid gid vid c v,
        body = ⟨some "updateVarietyProgress", some ⟨some sid, some gid, some vid, some c⟩⟩ →
        env.isValid sid = true →
        findVariety db sid gid vid = some v →
        c > v.total.getD 0 →
        updateSchedule env db body = (⟨400⟩, db)) ∧
    ((updateSchedule env db body).1.status = 200 →
      ∃ sid gid vid c v,
        body.payload = some ⟨some sid, some gid, some vid, some c⟩ ∧
        findVariety (updateSchedule env db body).2 sid gid vid = some v ∧
        v.completed = some c ∧ c ≤ v.total.getD 0) := by
  constructor
  · rintro sid gid vid c v rfl hvalid hfind hgt
    obtain ⟨s, g, hs, hg, hv⟩ := findVariety_eq_some hfind
    by_cases hsid : truthy sid = true
    · by_cases hgid : truthy gid = true
      · by_cases hvid : truthy vid = true
        · rw [updateSchedule_found env db sid gid vid c s g v hsid hgid hvid hvalid hs hg hv,
            if_pos hgt]
        · have h3 : present (some vid) = none := by simp [present, Option.filter, hvid]
          have h0 : present (some "updateVarietyProgress") = some "updateVarietyProgress" :=
            present_eq_some.mpr ⟨rfl, by decide⟩
          simp [updateSchedule, h0, h3]
      · have h2 : present (some gid) = none := by simp [present, Option.filter, hgid]
        have h0 : present (some "updateVarietyProgress") = some "updateVarietyProgress" :=
          present_eq_some.mpr ⟨rfl, by decide⟩
        simp [updateSchedule, h0, h2]
    · have h1 : present (some sid) = none := by simp [present, Option.filter, hsid]
      have h0 : present (some "updateVarietyProgress") = some "updateVarietyProgress" :=
        present_eq_some.mpr ⟨rfl, by decide⟩
      simp [updateSchedule, h0, h1]
  · intro h200
    rcases updateSchedule_inv env db body with ⟨hne, _⟩ | ⟨sid, gid, vid, c, s, g, v, hb, _, hs, hg, hv, hle, heq⟩
    · exact absurd h200 hne
    · refine ⟨sid, gid, vid, c, { v with completed := some c }, by rw [hb], ?_, rfl, hle⟩
      rw [heq]
      simp only
      rw [findVariety_progressSaved]
      simp [findVariety, hs, hg, hv]

/-- Witness of C1: on the sample schedule (total 10), completed 11 is answered
400 with the store unchanged, and completed 7 is answered 200 and stored. -/
theorem updateSchedule_completed_le_total_witness :
    updateSchedule sampleEnv sampleDB (sampleProgress 11) = (⟨400⟩, sampleDB) ∧
    ∃ sid gid vid c v,
      (sampleProgress 7).payload = some ⟨some sid, some gid, some vid, some c⟩ ∧
      findVariety (updateSchedule sampleEnv sampleDB (sampleProgress 7)).2 sid gid vid = some v ∧
      v.completed = some c ∧ c ≤ v.total.getD 0 :=
  ⟨(updateSchedule_completed_le_total sampleEnv sampleDB (sampleProgress 11)).1
      "s001" "g001" "v001" 11 ⟨"v001", [⟨"b001", "f001", 4⟩], some 10, some 2⟩
      rfl (by decide) (by decide) (by decide),
   (updateSchedule_completed_le_total sampleEnv sampleDB (sampleProgress 7)).2 (by decide)⟩

/-- C7: a successful `updateSchedule` assigns the payload value to the
`completed` of the addressed variety (the first variety with the identifier in
the first group with the identifier of the schedule found), whatever the
previous value was, and changes nothing else: the store afterwards is the store
before with that one field replaced. -/
theorem updateSchedule_sets_completed_only (env : Env) (db : DB) (body : UpdateScheduleBody)
    (sid gid vid : String) (c : Int)
    (hbody : body.payload = some ⟨some sid, some gid, some vid, some c⟩)
    (h200 : (updateSchedule env db body).1.status = 200) :
    ∃ S₁ s S₂ G₁ g G₂ V₁ v V₂,
      db.schedules = S₁ ++ s :: S₂ ∧ (∀ x ∈ S₁, x._id ≠ sid) ∧ s._id = sid ∧
      s.groups = G₁ ++ g :: G₂ ∧ (∀ x ∈ G₁, x.groupId ≠ gid) ∧ g.groupId = gid ∧
      g.varieties = V₁ ++ v :: V₂ ∧ (∀ x ∈ V₁, x.varietyId ≠ vid) ∧ v.varietyId = vid ∧
      (updateSchedule env db body).2 =
        { db with
          schedules := S₁ ++
            { s with
              groups := G₁ ++
                { g with varieties := V₁ ++ { v with completed := some c } :: V₂ } :: G₂ } ::
            S₂ } := by
  rcases updateSchedule_inv env db body with ⟨hne, _⟩ |
    ⟨sid', gid', vid', c', s, g, v, hb, _, hs, hg, hv, _, heq⟩
  · exact absurd h200 hne
  · rw [hb] at hbody
    simp only [Option.some.injEq, ProgressPayload.mk.injEq] at hbody
    obtain ⟨rfl, rfl, rfl, rfl⟩ := hbody
    obtain ⟨S₁, S₂, hS, hS₁, hps, hSm⟩ := modifyFirst_split (fun s : Schedule => s._id == sid')
      (fun s => { s with
        groups := modifyFirst (fun g => g.groupId == gid')
          (fun g => { g with
            varieties := modifyFirst (fun v => v.varietyId == vid')
              (fun v => { v with completed := some c' }) g.varieties })
          s.groups }) db.schedules s hs
    obtain ⟨G₁, G₂, hG, hG₁, hpg, hGm⟩ := modifyFirst_split (fun g : ScheduleGroup => g.groupId == gid')
      (fun g => { g with
        varieties := modifyFirst (fun v => v.varietyId == vid')
          (fun v => { v with completed := some c' }) g.varieties }) s.groups g hg
    obtain ⟨V₁, V₂, hV, hV₁, hpv, hVm⟩ := modifyFirst_split
      (fun v : ScheduleVariety => v.varietyId == vid')
      (fun v => { v with completed := some c' }) g.varieties v hv
    refine ⟨S₁, s, S₂, G₁, g, G₂, V₁, v, V₂, hS, ?_, by simpa using hps, hG, ?_,
      by simpa using hpg, hV, ?_, by simpa using hpv, ?_⟩
    · intro x hx; simpa using hS₁ x hx
    · intro x hx; simpa using hG₁ x hx
    · intro x hx; simpa using hV₁ x hx
    · rw [heq]
      simp only [progressSaved]
      rw [hSm, hGm, hVm]

/-- Witness of C7: completed 7 on the sample schedule, whose variety `v001`
had completed 2. -/
theorem updateSchedule_sets_completed_only_witness :
    (updateSchedule sampleEnv sampleDB (sampleProgress 7)).1.status = 200 ∧
    ∃ S₁ s S₂ G₁ g G₂ V₁ v V₂,
      sampleDB.schedules = S₁ ++ s :: S₂ ∧ (∀ x ∈ S₁, x._id ≠ "s001") ∧ s._id = "s001" ∧
      s.groups = G₁ ++ g :: G₂ ∧ (∀ x ∈ G₁, x.groupId ≠ "g001") ∧ g.groupId = "g001" ∧
      g.varieties = V₁ ++ v :: V₂ ∧ (∀ x ∈ V₁, x.varietyId ≠ "v001") ∧ v.varietyId = "v001" ∧
      (updateSchedule sampleEnv sampleDB (sampleProgress 7)).2 =
        { sampleDB with
          schedules := S₁ ++
            { s with
              groups := G₁ ++
                { g with varieties := V₁ ++ { v with completed := some 7 } :: V₂ } :: G₂ } ::
            S₂ } :=
  ⟨by decide,
   updateSchedule_sets_completed_only sampleEnv sampleDB (sampleProgress 7)
     "s001" "g001" "v001" 7 rfl (by decide)⟩

/-! ## Stock on booking creation and deletion -/

theorem stockOf_modifyFirst (db db' : DB) (ref : String) (f : Stock → Stock)
    (h : db'.stocks = modifyFirst (fun s => s.variety == ref) f db.stocks)
    (hf : ∀ s, (f s).variety = s.variety) :
    stockOf db' ref =
      (db.stocks.find? (fun s => s.variety == ref)).map (fun s => (f s).quantity) := by
  unfold stockOf
  rw [h, find?_modifyFirst]
  · cases db.stocks.find? (fun s => s.variety == ref) <;> rfl
  · intro x hx
    simpa [hf x] using hx

theorem stockOf_eq_some {db : DB} {ref : String} {q : Int} (h : stockOf db ref = some q) :
    ∃ s, db.stocks.find? (fun s => s.variety == ref) = some s ∧ s.quantity = q := by
  unfold stockOf at h
  exact Option.map_eq_some'.mp h

theorem stockOf_createBooking (env : Env) (db : DB) (body : BookingBody)
    (variety : String) (qty : Int) (cv : CropVariety) (q₀ : Int)
    (hv : body.variety = some variety) (hq : body.quantity = some qty)
    (h201 : (createBooking env db body).1.status = 201)
    (hcv : resolveVariety env db variety = some cv)
    (hs : stockOf db cv._id = some q₀) :
    stockOf (createBooking env db body).2 cv._id = some (max (q₀ - qty) 0) := by
  rcases createBooking_inv env db body with ⟨hne, _⟩ |
    ⟨farmerId, farmer, booking, _, _, _, hnew, _, _, _, _, _, _, _, hstocks⟩
  · exact absurd h201 hne
  · obtain ⟨hv', _, hq', _⟩ := newBooking_eq_some hnew
    have e1 : booking.variety = variety := by rw [hv] at hv'; exact (Option.some.inj hv').symm
    have e2 : booking.quantity = qty := by rw [hq] at hq'; exact (Option.some.inj hq').symm
    rw [e1, hcv, e2] at hstocks
    simp only at hstocks
    obtain ⟨s, hfind, hsq⟩ := stockOf_eq_some hs
    rw [stockOf_modifyFirst db _ cv._id _ hstocks (fun _ => rfl), hfind]
    simp [hsq]

/-- C2 (as stated it fails): the sample stock holds 3, a booking of 5 is
created with answer 201, and the stock afterwards is 0, not 3 - 5. -/
theorem createBooking_stock_not_difference :
    (createBooking sampleEnv sampleDB (sampleBody 5)).1.status = 201 ∧
    resolveVariety sampleEnv sampleDB "Roma tomato" = some ⟨"c001", "Roma tomato", none⟩ ∧
    stockOf sampleDB "c001" = some 3 ∧
    stockOf (createBooking sampleEnv sampleDB (sampleBody 5)).2 "c001" = some 0 ∧
    stockOf (createBooking sampleEnv sampleDB (sampleBody 5)).2 "c001" ≠ some (3 - 5) := by
  decide

/-- C2 (amended): after a successful `createBooking` whose variety resolves to
a crop variety with a Stock document, the Stock quantity is the quantity before
minus the booked quantity, but not below 0; it is exactly the difference when
the booked quantity does not exceed the stock. -/
theorem createBooking_stock_decrement (env : Env) (db : DB) (body : BookingBody)
    (variety : String) (qty : Int) (cv : CropVariety) (q₀ : Int)
    (hv : body.variety = some variety) (hq : body.quantity = some qty)
    (h201 : (createBooking env db body).1.status = 201)
    (hcv : resolveVariety env db variety = some cv)
    (hs : stockOf db cv._id = some q₀) :
    stockOf (createBooking env db body).2 cv._id = some (max (q₀ - qty) 0) ∧
    (qty ≤ q₀ → stockOf (createBooking env db body).2 cv._id = some (q₀ - qty)) := by
  have key := stockOf_createBooking env db body variety qty cv q₀ hv hq h201 hcv hs
  refine ⟨key, fun hle => ?_⟩
  rw [key, max_eq_left (by omega)]

/-- Witness of C2 (amended): a booking of 2 against the sample stock of 3. -/
theorem createBooking_stock_decrement_witness :
    stockOf (createBooking sampleEnv sampleDB (sampleBody 2)).2 "c001" = some (max (3 - 2) 0) ∧
    ((2 : Int) ≤ 3 →
      stockOf (createBooking sampleEnv sampleDB (sampleBody 2)).2 "c001" = some (3 - 2)) :=
  createBooking_stock_decrement sampleEnv sampleDB (sampleBody 2) "Roma tomato" 2
    ⟨"c001", "Roma tomato", none⟩ 3 rfl rfl (by decide) (by decide) (by decide)

theorem find?_append_fresh {α : Type} (p : α → Bool) (l : List α) (x y : α)
    (hl : ∀ z ∈ l, p z = false) (h : (l ++ [x]).find? p = some y) : y = x := by
  have hnone : l.find? p = none := by
    rw [List.find?_eq_none]
    intro z hz
    simp [hl z hz]
  rw [List.find?_append, hnone] at h
  simp only [Option.none_or] at h
  by_cases hx : p x = true
  · simp only [List.find?, hx, Option.some.injEq] at h
    exact h.symm
  · have hx' : p x = false := by simpa using hx
    simp [List.find?, hx'] at h

/-- The booking a `deleteBooking` finds right after the `createBooking` that
made it, and the key under which it restores the counters. -/
theorem delete_after_create (env env' : Env) (db : DB) (body : BookingBody)
    (henv : env'.isValid = env.isValid)
    (hfresh : ∀ b ∈ db.bookings, b._id ≠ env.newId)
    (h201 : (createBooking env db body).1.status = 201)
    (h200 : (deleteBooking env' (createBooking env db body).2 env.newId).1.status = 200) :
    ∃ farmerId booking farmer,
      newBooking env farmerId body = some booking ∧
      (createBooking env db body).2.bookings.find? (fun b => b._id == env.newId) = some booking ∧
      (createBooking env db body).2.farmers.find? (fun f => f._id == booking.farmer) =
        some farmer ∧
      farmer.status = some "pending" ∧
      (∀ cv, resolveVariety env db booking.variety = some cv →
        deletedVarietyRef env' (createBooking env db body).2 booking = some cv._id) := by
  rcases createBooking_inv env db body with ⟨hne, _⟩ |
    ⟨farmerId, farmer₀, booking, _, _, hfarmer₀, hnew, _, hfarmers, hbookings, hcvs, _⟩
  · exact absurd h201 hne
  rcases deleteBooking_inv env' (createBooking env db body).2 env.newId with ⟨hne, _⟩ |
    ⟨booking', farmer, _, _, hb', hf', _⟩
  · exact absurd h200 hne
  obtain ⟨_, htruthy, _, _, hbf, _⟩ := newBooking_eq_some hnew
  have hbb : booking' = booking := by
    rw [hbookings] at hb'
    refine find?_append_fresh _ db.bookings booking booking' ?_ hb'
    intro z hz
    simpa using hfresh z hz
  subst hbb
  refine ⟨farmerId, booking', farmer, hnew, hb', hf', ?_, ?_⟩
  · rw [hfarmers, hbf, find?_modifyFirst, hfarmer₀] at hf'
    · simp only [Option.map_some', Option.some.injEq] at hf'
      rw [← hf']
    · intro x hx; exact hx
  · intro cv hcv
    unfold resolveVariety at hcv
    unfold deletedVarietyRef
    rw [henv, hcvs]
    by_cases hval : env.isValid booking'.variety = true
    · simp only [htruthy, hval, Bool.and_self, if_true] at hcv ⊢
      have := List.find?_some hcv
      simp only [beq_iff_eq] at this
      rw [this]
    · have hval' : env.isValid booking'.variety = false := by simpa using hval
      simp only [hval', Bool.and_false, Bool.false_eq_true, if_false] at hcv ⊢
      rw [hcv]
      rfl

/-- C3 (as stated it fails): the sample stock holds 3; a booking of 5 is
created (stock 0) and deleted at once (stock 5), so the stock does not return
to 3. -/
theorem create_then_delete_stock_not_restored :
    (createBooking sampleEnv sampleDB (sampleBody 5)).1.status = 201 ∧
    (deleteBooking sampleEnv (createBooking sampleEnv sampleDB (sampleBody 5)).2 "b999").1.status
      = 200 ∧
    stockOf sampleDB "c001" = some 3 ∧
    stockOf (createBooking sampleEnv sampleDB (sampleBody 5)).2 "c001" = some 0 ∧
    stockOf (deleteBooking sampleEnv (createBooking sampleEnv sampleDB (sampleBody 5)).2 "b999").2
      "c001" = some 5 := by
  decide

/-- C3 (amended): when the booked quantity does not exceed the Stock quantity
of the crop variety the booking resolves to, a successful `createBooking`
followed at once by a successful `deleteBooking` of the new booking leaves that
Stock quantity equal to its value before the creation. -/
theorem create_then_delete_restores_stock (env env' : Env) (db : DB) (body : BookingBody)
    (variety : String) (qty : Int) (cv : CropVariety) (q₀ : Int)
    (hv : body.variety = some variety) (hq : body.quantity = some qty)
    (hcv : resolveVariety env db variety = some cv)
    (hs : stockOf db cv._id = some q₀) (hle : qty ≤ q₀)
    (henv : env'.isValid = env.isValid)
    (hfresh : ∀ b ∈ db.bookings, b._id ≠ env.newId)
    (h201 : (createBooking env db body).1.status = 201)
    (h200 : (deleteBooking env' (createBooking env db body).2 env.newId).1.status = 200) :
    stockOf (deleteBooking env' (createBooking env db body).2 env.newId).2 cv._id = some q₀ := by
  obtain ⟨farmerId, booking, farmer, hnew, hb, hf, hst, hkey⟩ :=
    delete_after_create env env' db body henv hfresh h201 h200
  obtain ⟨hv', _, hq', _⟩ := newBooking_eq_some hnew
  have e1 : booking.variety = variety := by rw [hv] at hv'; exact (Option.some.inj hv').symm
  have e2 : booking.quantity = qty := by rw [hq] at hq'; exact (Option.some.inj hq').symm
  have hkey' := hkey cv (by rw [e1]; exact hcv)
  rcases createBooking_inv env db body with ⟨hne, _⟩ |
    ⟨_, _, booking₁, _, _, _, hnew₁, _, _, _, _, _, _, _, hstocks⟩
  · exact absurd h201 hne
  have e3 : booking₁.variety = variety := by
    have := (newBooking_eq_some hnew₁).1; rw [hv] at this; exact (Option.some.inj this).symm
  have e4 : booking₁.quantity = qty := by
    have := (newBooking_eq_some hnew₁).2.2.1; rw [hq] at this; exact (Option.some.inj this).symm
  rw [e3, hcv, e4] at hstocks
  simp only at hstocks
  rcases deleteBooking_inv env' (createBooking env db body).2 env.newId with ⟨hne, _⟩ |
    ⟨booking', farmer', _, _, hb', hf', _, _, _, _, _, _, _, hstocks'⟩
  · exact absurd h200 hne
  rw [hb] at hb'
  obtain rfl := Option.some.inj hb'
  rw [hf] at hf'
  obtain rfl := Option.some.inj hf'
  rw [if_pos hst, hkey', e2] at hstocks'
  simp only at hstocks'
  obtain ⟨s, hfind, hsq⟩ := stockOf_eq_some hs
  rw [stockOf_modifyFirst _ _ cv._id _ hstocks' (fun _ => rfl), hstocks, find?_modifyFirst, hfind]
  · simp only [Option.map_some', hsq, Option.some.injEq]
    rw [max_eq_left (by omega)]
    omega
  · intro x hx; exact hx

/-- Witness of C3 (amended): a booking of 2 against the sample stock of 3,
created and deleted at once. -/
theorem create_then_delete_restores_stock_witness :
    stockOf (deleteBooking sampleEnv (createBooking sampleEnv sampleDB (sampleBody 2)).2 "b999").2
      "c001" = some 3 :=
  create_then_delete_restores_stock sampleEnv sampleEnv sampleDB (sampleBody 2) "Roma tomato" 2
    ⟨"c001", "Roma tomato", none⟩ 3 rfl rfl (by decide) (by decide) (by decide) rfl
    (by decide) (by decide) (by decide)

/-! ## The farmer's status -/

theorem forall₂_modifyFirst_of_find? {α : Type} (R : α → α → Prop) (p : α → Bool) (f : α → α)
    (hrefl : ∀ x, R x x) :
    ∀ (l : List α) (x : α), l.find? p = some x → R x (f x) →
      List.Forall₂ R l (modifyFirst p f l)
  | [], x, h, _ => by simp at h
  | y :: ys, x, h, hx => by
    by_cases hy : p y = true
    · simp only [List.find?, hy, Option.some.injEq] at h
      subst h
      simp only [modifyFirst, hy, if_true]
      exact List.Forall₂.cons hx (List.forall₂_same.mpr fun z _ => hrefl z)
    · have hy' : p y = false := by simpa using hy
      simp only [List.find?, hy'] at h
      simp only [modifyFirst, hy', Bool.false_eq_true, if_false]
      exact List.Forall₂.cons (hrefl y) (forall₂_modifyFirst_of_find? R p f hrefl ys x h hx)

theorem advances_refl (s : Option String) : advances s s = true := by
  simp [advances]

/-- C5: `promoteBookingStatus` is the linear step on the farmer's status read
without regard to case.  For a request that finds the booking and its farmer:
from `pending` the farmer is set to `sowing`, from `sowing` or `sown` to
`completed`, both answered 200; from every other status, among them
`completed` and the empty or absent status, the answer is 400 and the store
(farmer, booking and incomes included) is unchanged. -/
theorem promoteBookingStatus_linear_step (env : Env) (db : DB) (id : String)
    (booking : Booking) (farmer : Farmer)
    (hid : truthy id = true) (hvalid : env.isValid id = true)
    (hb : db.bookings.find? (fun b => b._id == id) = some booking)
    (hf : db.farmers.find? (fun f => f._id == booking.farmer) = some farmer) :
    (toLowerCase (farmer.status.getD "") = "pending" →
      (promoteBookingStatus env db id).1.status = 200 ∧
      (promoteBookingStatus env db id).2.farmers.find? (fun f => f._id == booking.farmer) =
        some { farmer with status := some "sowing" }) ∧
    (toLowerCase (farmer.status.getD "") = "sowing" ∨
        toLowerCase (farmer.status.getD "") = "sown" →
      (promoteBookingStatus env db id).1.status = 200 ∧
      (promoteBookingStatus env db id).2.farmers.find? (fun f => f._id == booking.farmer) =
        some { farmer with status := some "completed" }) ∧
    (toLowerCase (farmer.status.getD "") ≠ "pending" →
      toLowerCase (farmer.status.getD "") ≠ "sowing" →
      toLowerCase (farmer.status.getD "") ≠ "sown" →
      promoteBookingStatus env db id = (⟨400⟩, db)) ∧
    (toLowerCase (farmer.status.getD "") = "completed" →
      promoteBookingStatus env db id = (⟨400⟩, db)) ∧
    (farmer.status.getD "" = "" → promoteBookingStatus env db id = (⟨400⟩, db)) := by
  have key := promoteBookingStatus_found env db id booking farmer hid hvalid hb hf
  have other : toLowerCase (farmer.status.getD "") ≠ "pending" →
      toLowerCase (farmer.status.getD "") ≠ "sowing" →
      toLowerCase (farmer.status.getD "") ≠ "sown" →
      promoteBookingStatus env db id = (⟨400⟩, db) := by
    intro h1 h2 h3
    rw [key, if_neg h1, if_neg (by simp [h2, h3])]
  refine ⟨fun h => ?_, fun h => ?_, other, fun h => ?_, fun h => ?_⟩
  · rw [key, if_pos h]
    refine ⟨rfl, ?_⟩
    simp only
    rw [find?_modifyFirst, hf]
    · rfl
    · intro x hx; exact hx
  · have hne : toLowerCase (farmer.status.getD "") ≠ "pending" := by
      rcases h with h | h <;> rw [h] <;> decide
    rw [key, if_neg hne, if_pos h]
    refine ⟨rfl, ?_⟩
    simp only
    rw [find?_modifyFirst, hf]
    · rfl
    · intro x hx; exact hx
  · exact other (by rw [h]; decide) (by rw [h]; decide) (by rw [h]; decide)
  · exact other (by rw [h]; decide) (by rw [h]; decide) (by rw [h]; decide)

/-- Witness of C5: in the sample store booking `b001` belongs to farmer `f002`
(`Sown`), booking `b002` to farmer `f003` (`pending`) and booking `b003` to
farmer `f001` (`completed`). -/
theorem promoteBookingStatus_linear_step_witness :
    ((promoteBookingStatus sampleEnv sampleDB "b001").1.status = 200 ∧
      (promoteBookingStatus sampleEnv sampleDB "b001").2.farmers.find?
        (fun f => f._id == "f002") = some ⟨"f002", some "completed"⟩) ∧
    ((promoteBookingStatus sampleEnv sampleDB "b002").1.status = 200 ∧
      (promoteBookingStatus sampleEnv sampleDB "b002").2.farmers.find?
        (fun f => f._id == "f003") = some ⟨"f003", some "sowing"⟩) ∧
    promoteBookingStatus sampleEnv sampleDB "b003" = (⟨400⟩, sampleDB) :=
  ⟨(promoteBookingStatus_linear_step sampleEnv sampleDB "b001" (sampleBooking "b001" "f002")
      ⟨"f002", some "Sown"⟩ (by decide) (by decide) (by decide) (by decide)).2.1
      (Or.inr (by decide)),
   (promoteBookingStatus_linear_step sampleEnv sampleDB "b002" (sampleBooking "b002" "f003")
      ⟨"f003", some "pending"⟩ (by decide) (by decide) (by decide) (by decide)).1 (by decide),
   (promoteBookingStatus_linear_step sampleEnv sampleDB "b003" (sampleBooking "b003" "f001")
      ⟨"f001", some "completed"⟩ (by decide) (by decide) (by decide) (by decide)).2.2.2.1
      (by decide)⟩

/-- C6: an Income record is created on the final transition only.  A promotion
from `sowing` (or `sown`) appends exactly one Income, whose amount is the
booking's `finalTotalPrice` and which refers to the booking and its farmer, and
sets the booking's `pendingPayment` to 0; a promotion from `pending` leaves the
incomes and the bookings (so `pendingPayment`) as they were. -/
theorem promoteBookingStatus_income (env : Env) (db : DB) (id : String)
    (booking : Booking) (farmer : Farmer)
    (hid : truthy id = true) (hvalid : env.isValid id = true)
    (hb : db.bookings.find? (fun b => b._id == id) = some booking)
    (hf : db.farmers.find? (fun f => f._id == booking.farmer) = some farmer) :
    (toLowerCase (farmer.status.getD "") = "sowing" ∨
        toLowerCase (farmer.status.getD "") = "sown" →
      (promoteBookingStatus env db id).2.incomes =
        db.incomes ++ [{ date := env.now, amount := booking.finalTotalPrice,
                         booking := id, farmer := booking.farmer }] ∧
      (promoteBookingStatus env db id).2.bookings.find? (fun b => b._id == id) =
        some { booking with pendingPayment := 0 } ∧
      (promoteBookingStatus env db id).2.bookings =
        modifyFirst (fun b => b._id == id) (fun b => { b with pendingPayment := 0 })
          db.bookings) ∧
    (toLowerCase (farmer.status.getD "") = "pending" →
      (promoteBookingStatus env db id).2.incomes = db.incomes ∧
      (promoteBookingStatus env db id).2.bookings = db.bookings) := by
  have key := promoteBookingStatus_found env db id booking farmer hid hvalid hb hf
  have hbid : booking._id = id := by simpa using List.find?_some hb
  have hfid : farmer._id = booking.farmer := by simpa using List.find?_some hf
  refine ⟨fun h => ?_, fun h => ?_⟩
  · have hne : toLowerCase (farmer.status.getD "") ≠ "pending" := by
      rcases h with h | h <;> rw [h] <;> decide
    rw [key, if_neg hne, if_pos h]
    refine ⟨by simp only [hbid, hfid], ?_, rfl⟩
    simp only
    rw [find?_modifyFirst, hb]
    · rfl
    · intro x hx; exact hx
  · rw [key, if_pos h]
    exact ⟨rfl, rfl⟩

/-- Witness of C6: promoting booking `b001` of the sample store, whose farmer
is `Sown`, records an income of its final total price 8; promoting booking
`b002`, whose farmer is `pending`, records none. -/
theorem promoteBookingStatus_income_witness :
    (promoteBookingStatus sampleEnv sampleDB "b001").2.incomes =
      sampleDB.incomes ++ [{ date := 1000, amount := 8, booking := "b001", farmer := "f002" }] ∧
    (promoteBookingStatus sampleEnv sampleDB "b002").2.incomes = sampleDB.incomes :=
  ⟨((promoteBookingStatus_income sampleEnv sampleDB "b001" (sampleBooking "b001" "f002")
      ⟨"f002", some "Sown"⟩ (by decide) (by decide) (by decide) (by decide)).1
      (Or.inr (by decide))).1,
   ((promoteBookingStatus_income sampleEnv sampleDB "b002" (sampleBooking "b002" "f003")
      ⟨"f003", some "pending"⟩ (by decide) (by decide) (by decide) (by decide)).2
      (by decide)).1⟩

theorem step_farmers_advance (env : Env) (db : DB) (r : Request) (hr : r.isCreate = false) :
    List.Forall₂ (fun f f' => f'._id = f._id ∧ advances f.status f'.status = true)
      db.farmers (step env db r).2.farmers := by
  have hrefl : ∀ l : List Farmer,
      List.Forall₂ (fun f f' => f'._id = f._id ∧ advances f.status f'.status = true) l l :=
    fun l => List.forall₂_same.mpr fun f _ => ⟨rfl, advances_refl f.status⟩
  cases r with
  | create body => simp [Request.isCreate] at hr
  | delete id =>
    simp only [step]
    rcases deleteBooking_inv env db id with ⟨_, h⟩ | ⟨_, _, _, _, _, _, _, h, _⟩
    · rw [h]; exact hrefl _
    · rw [h]; exact hrefl _
  | promote id =>
    simp only [step]
    rcases promoteBookingStatus_inv env db id with h | h | ⟨booking, farmer, hid, hvalid, hb, hf⟩
    · rw [h]; exact hrefl _
    · rw [h]; exact hrefl _
    · rw [promoteBookingStatus_found env db id booking farmer hid hvalid hb hf]
      split
      · rename_i h
        exact forall₂_modifyFirst_of_find? _ _ _ (fun f => ⟨rfl, advances_refl f.status⟩) _ _ hf
          ⟨rfl, by simp [advances, h]⟩
      · split
        · rename_i h
          refine forall₂_modifyFirst_of_find? _ _ _ (fun f => ⟨rfl, advances_refl f.status⟩) _ _ hf
            ⟨rfl, ?_⟩
          rcases h with h | h <;> simp [advances, h]
        · exact hrefl _

/-- C4 (as stated it fails): farmer `f001` of the sample store is `completed`;
a `createBooking` for that farmer is answered 201 and leaves the farmer
`pending`, which is a move back. -/
theorem createBooking_status_regresses :
    (sampleDB.farmers.find? (fun f => f._id == "f001")).map (fun f => f.status) =
      some (some "completed") ∧
    (createBooking sampleEnv sampleDB (sampleBody 2)).1.status = 201 ∧
    ((createBooking sampleEnv sampleDB (sampleBody 2)).2.farmers.find?
      (fun f => f._id == "f001")).map (fun f => f.status) = some (some "pending") ∧
    advances (some "completed") (some "pending") = false := by
  decide

/-- C4 (amended): across every sequence of `deleteBooking` and
`promoteBookingStatus` requests each farmer's status only advances along
pending → sowing → completed: every request leaves each farmer's status as it
was or moves it to the next state (`sown` counts as `sowing`, the old status is
read without regard to case).  `createBooking` is outside this order: it sets
the status of the farmer it names to `pending` and leaves the other farmers as
they were. -/
theorem farmer_status_advances (db : DB) (reqs : List (Env × Request)) :
    ((∀ er ∈ reqs, er.2.isCreate = false) →
      List.Chain
        (fun a b => List.Forall₂
          (fun f f' => f'._id = f._id ∧ advances f.status f'.status = true) a.farmers b.farmers)
        db (trace db reqs)) ∧
    (∀ env body, (createBooking env db body).1.status = 201 →
      ∃ farmerId, body.farmerId = some farmerId ∧
        ((createBooking env db body).2.farmers.find? (fun f => f._id == farmerId)).map
          (fun f => f.status) = some (some "pending") ∧
        List.Forall₂
          (fun f f' => f'._id = f._id ∧
            (f'.status = f.status ∨ (f._id = farmerId ∧ f'.status = some "pending")))
          db.farmers (createBooking env db body).2.farmers) := by
  constructor
  · intro hreqs
    induction reqs generalizing db with
    | nil => exact List.Chain.nil
    | cons er rest ih =>
      obtain ⟨env, r⟩ := er
      simp only [trace]
      refine List.Chain.cons ?_ (ih _ fun er' h => hreqs er' (List.mem_cons_of_mem _ h))
      exact step_farmers_advance env db r (hreqs (env, r) (List.mem_cons_self _ _))
  · intro env body h201
    rcases createBooking_inv env db body with ⟨hne, _⟩ |
      ⟨farmerId, farmer, booking, hfid, _, hfarmer, _, _, hfarmers, _⟩
    · exact absurd h201 hne
    · refine ⟨farmerId, hfid, ?_, ?_⟩
      · rw [hfarmers, find?_modifyFirst, hfarmer]
        · rfl
        · intro x hx; exact hx
      · rw [hfarmers]
        refine forall₂_modifyFirst_of_find? _ _ _ (fun f => ⟨rfl, Or.inl rfl⟩) _ _ hfarmer
          ⟨rfl, Or.inr ⟨?_, rfl⟩⟩
        simpa using List.find?_some hfarmer

/-- Witness of C4 (amended): on the sample store, booking `b001` (farmer
`Sown`) is promoted and then deleted; and a booking is created for farmer
`f001`. -/
theorem farmer_status_advances_witness :
    List.Chain
      (fun a b => List.Forall₂
        (fun f f' => f'._id = f._id ∧ advances f.status f'.status = true) a.farmers b.farmers)
      sampleDB
      (trace sampleDB [(sampleEnv, .promote "b001"), (sampleEnv, .delete "b001")]) ∧
    ∃ farmerId, (sampleBody 2).farmerId = some farmerId ∧
      ((createBooking sampleEnv sampleDB (sampleBody 2)).2.farmers.find?
        (fun f => f._id == farmerId)).map (fun f => f.status) = some (some "pending") ∧
      List.Forall₂
        (fun f f' => f'._id = f._id ∧
          (f'.status = f.status ∨ (f._id = farmerId ∧ f'.status = some "pending")))
        sampleDB.farmers (createBooking sampleEnv sampleDB (sampleBody 2)).2.farmers :=
  ⟨(farmer_status_advances sampleDB
      [(sampleEnv, .promote "b001"), (sampleEnv, .delete "b001")]).1 (by decide),
   (farmer_status_advances sampleDB []).2 sampleEnv (sampleBody 2) (by decide)⟩

/-! ## Stock is never negative -/

theorem mem_deleteFirst {α : Type} (p : α → Bool) :
    ∀ (l : List α) (x : α), x ∈ deleteFirst p l → x ∈ l
  | [], x, h => by simp [deleteFirst] at h
  | y :: ys, x, h => by
    by_cases hy : p y = true
    · simp only [deleteFirst, hy, if_true] at h
      exact List.mem_cons_of_mem _ h
    · have hy' : p y = false := by simpa using hy
      simp only [deleteFirst, hy', Bool.false_eq_true, if_false, List.mem_cons] at h
      rcases h with rfl | h
      · exact List.mem_cons_self _ _
      · exact List.mem_cons_of_mem _ (mem_deleteFirst p ys x h)

/-- C8: Stock quantity is never negative.  If every Stock quantity and every
booked quantity (of the stored bookings and of the request) is at least 0, then
after any booking request every Stock quantity is still at least 0, and so is
every booked quantity; and a successful `createBooking` whose quantity is above
the stock of its variety sets that stock to 0. -/
theorem stock_never_negative (env : Env) (db : DB) (r : Request)
    (hs : ∀ s ∈ db.stocks, 0 ≤ s.quantity) (hb : ∀ b ∈ db.bookings, 0 ≤ b.quantity)
    (hr : ∀ body q, r = .create body → body.quantity = some q → 0 ≤ q) :
    (∀ s ∈ (step env db r).2.stocks, 0 ≤ s.quantity) ∧
    (∀ b ∈ (step env db r).2.bookings, 0 ≤ b.quantity) ∧
    (∀ body variety qty cv q₀, r = .create body →
      body.variety = some variety → body.quantity = some qty →
      (createBooking env db body).1.status = 201 →
      resolveVariety env db variety = some cv → stockOf db cv._id = some q₀ → q₀ < qty →
      stockOf (createBooking env db body).2 cv._id = some 0) := by
  refine ⟨?_, ?_, ?_⟩
  · cases r with
    | create body =>
      simp only [step]
      rcases createBooking_inv env db body with ⟨_, h⟩ |
        ⟨_, _, booking, _, _, _, _, _, _, _, _, _, _, _, hstocks⟩
      · rw [h]; exact hs
      · rw [hstocks]
        cases resolveVariety env db booking.variety with
        | none => exact hs
        | some cv =>
          intro s hmem
          rcases mem_modifyFirst _ _ _ _ hmem with h | ⟨y, _, rfl⟩
          · exact hs s h
          · exact le_max_right _ _
    | delete id =>
      simp only [step]
      rcases deleteBooking_inv env db id with ⟨_, h⟩ |
        ⟨booking, farmer, _, _, hfind, _, _, _, _, _, _, _, _, hstocks⟩
      · rw [h]; exact hs
      · rw [hstocks]
        have hq : 0 ≤ booking.quantity := hb booking (List.mem_of_find?_eq_some hfind)
        split
        · cases deletedVarietyRef env db booking with
          | none => exact hs
          | some ref =>
            intro s hmem
            rcases mem_modifyFirst _ _ _ _ hmem with h | ⟨y, hy, rfl⟩
            · exact hs s h
            · have := hs y hy
              show 0 ≤ y.quantity + booking.quantity
              omega
        · exact hs
    | promote id =>
      simp only [step]
      rcases promoteBookingStatus_inv env db id with h | h | ⟨booking, farmer, hid, hvalid, hb', hf⟩
      · rw [h]; exact hs
      · rw [h]; exact hs
      · rw [promoteBookingStatus_found env db id booking farmer hid hvalid hb' hf]
        split
        · exact hs
        · split <;> exact hs
  · cases r with
    | create body =>
      simp only [step]
      rcases createBooking_inv env db body with ⟨_, h⟩ |
        ⟨_, _, booking, _, _, _, hnew, _, _, hbookings, _⟩
      · rw [h]; exact hb
      · rw [hbookings]
        intro b hmem
        rcases List.mem_append.mp hmem with h | h
        · exact hb b h
        · obtain rfl := List.mem_singleton.mp h
          exact hr body _ rfl (newBooking_eq_some hnew).2.2.1
    | delete id =>
      simp only [step]
      rcases deleteBooking_inv env db id with ⟨_, h⟩ | ⟨_, _, _, _, _, _, _, _, hbookings, _⟩
      · rw [h]; exact hb
      · rw [hbookings]
        exact fun b hmem => hb b (mem_deleteFirst _ _ _ hmem)
    | promote id =>
      simp only [step]
      rcases promoteBookingStatus_inv env db id with h | h | ⟨booking, farmer, hid, hvalid, hb', hf⟩
      · rw [h]; exact hb
      · rw [h]; exact hb
      · rw [promoteBookingStatus_found env db id booking farmer hid hvalid hb' hf]
        split
        · exact hb
        · split
          · intro b hmem
            rcases mem_modifyFirst _ _ _ _ hmem with h | ⟨y, hy, rfl⟩
            · exact hb b h
            · exact hb y hy
          · exact hb
  · intro body variety qty cv q₀ _ hv hq h201 hcv hstock hlt
    rw [stockOf_createBooking env db body variety qty cv q₀ hv hq h201 hcv hstock,
      max_eq_right (by omega)]

/-- Witness of C8: a booking of 5 against the sample stock of 3. -/
theorem stock_never_negative_witness :
    (∀ s ∈ (step sampleEnv sampleDB (.create (sampleBody 5))).2.stocks, 0 ≤ s.quantity) ∧
    stockOf (createBooking sampleEnv sampleDB (sampleBody 5)).2 "c001" = some 0 :=
  ⟨(stock_never_negative sampleEnv sampleDB (.create (sampleBody 5)) (by decide) (by decide)
      (by
        intro body q hbody hq
        cases hbody
        cases hq
        decide)).1,
   (stock_never_negative sampleEnv sampleDB (.create (sampleBody 5)) (by decide) (by decide)
      (by
        intro body q hbody hq
        cases hbody
        cases hq
        decide)).2.2 (sampleBody 5) "Roma tomato" 5 ⟨"c001", "Roma tomato", none⟩ 3 rfl rfl rfl
      (by decide) (by decide) (by decide) (by decide)⟩

/-! ## Deleting a booking whose farmer is not pending -/

/-- C9: `deleteBooking` adjusts Stock and TopCrop only if the farmer's status
is exactly `"pending"`: when the farmer of the booking has any other status, a
successful `deleteBooking` removes the booking and leaves the Stock and TopCrop
collections, so every quantity and every `bookedQuantity`, unchanged. -/
theorem deleteBooking_not_pending_frame (env : Env) (db : DB) (id : String)
    (booking : Booking) (farmer : Farmer)
    (hb : db.bookings.find? (fun b => b._id == id) = some booking)
    (hf : db.farmers.find? (fun f => f._id == booking.farmer) = some farmer)
    (hst : farmer.status ≠ some "pending")
    (h200 : (deleteBooking env db id).1.status = 200) :
    (deleteBooking env db id).2.stocks = db.stocks ∧
    (deleteBooking env db id).2.topCrops = db.topCrops ∧
    db.bookings.Perm (booking :: (deleteBooking env db id).2.bookings) := by
  rcases deleteBooking_inv env db id with ⟨hne, _⟩ |
    ⟨booking', farmer', _, _, hb', hf', _, _, hbookings, _, _, _, htop, hstocks⟩
  · exact absurd h200 hne
  · rw [hb] at hb'
    obtain rfl := Option.some.inj hb'
    rw [hf] at hf'
    obtain rfl := Option.some.inj hf'
    rw [if_neg hst] at htop hstocks
    refine ⟨hstocks, htop, ?_⟩
    rw [hbookings]
    exact perm_deleteFirst _ _ _ hb

/-- Witness of C9: booking `b001` of the sample store belongs to farmer `f002`,
whose status is `Sown`. -/
theorem deleteBooking_not_pending_frame_witness :
    (deleteBooking sampleEnv sampleDB "b001").2.stocks = sampleDB.stocks ∧
    (deleteBooking sampleEnv sampleDB "b001").2.topCrops = sampleDB.topCrops ∧
    sampleDB.bookings.Perm
      (sampleBooking "b001" "f002" :: (deleteBooking sampleEnv sampleDB "b001").2.bookings) :=
  deleteBooking_not_pending_frame sampleEnv sampleDB "b001" (sampleBooking "b001" "f002")
    ⟨"f002", some "Sown"⟩ (by decide) (by decide) (by decide) (by decide)

/-! ## The TopCrop counter -/

theorem topCropFilter_keyed (key : Option String) (name : String) (t : TopCrop) :
    topCropFilter key name
      { t with varietyName := name,
               varietyRef := if key.isSome then key else t.varietyRef } = true := by
  cases key <;> simp [topCropFilter]

theorem topCropOf_upsert (db db' : DB) (now : Int) (key : Option String) (name : String)
    (cropGroupId : Option String) (qty : Int)
    (h : db'.topCrops = upsertTopCrop now key name cropGroupId qty db.topCrops) :
    topCropOf db' key name = some ((topCropOf db key name).getD 0 + qty) := by
  unfold topCropOf
  rw [h]
  unfold upsertTopCrop
  cases hfind : db.topCrops.find? (topCropFilter key name) with
  | none =>
    have hany : db.topCrops.any (topCropFilter key name) = false := by
      rw [List.any_eq_false]
      exact fun x hx => by simpa using List.find?_eq_none.mp hfind x hx
    rw [hany]
    simp only [Bool.false_eq_true, if_false, List.find?_append, hfind, Option.none_or]
    have hnew : topCropFilter key name
        { varietyRef := key, varietyName := name, cropGroup := cropGroupId,
          bookedQuantity := qty, lastBookedAt := some now } = true := by
      cases key <;> simp [topCropFilter]
    simp [List.find?, hnew]
  | some t =>
    have hany : db.topCrops.any (topCropFilter key name) = true := by
      rw [List.any_eq_true]
      exact ⟨t, List.mem_of_find?_eq_some hfind, List.find?_some hfind⟩
    rw [hany]
    simp only [if_true]
    rw [find?_modifyFirst, hfind]
    · rfl
    · intro x _
      exact topCropFilter_keyed key name _

/-- C10 (as stated it fails): the sample TopCrop counter is 10.  A booking of 5
is created and the counter is 15, not 10 - 5; booking `b002` (4 seedlings,
farmer `pending`) is deleted and the counter is 6, not 10 + 4. -/
theorem topCrop_counter_not_reversed :
    topCropOf sampleDB (some "c001") "Roma tomato" = some 10 ∧
    (createBooking sampleEnv sampleDB (sampleBody 5)).1.status = 201 ∧
    topCropOf (createBooking sampleEnv sampleDB (sampleBody 5)).2 (some "c001") "Roma tomato" =
      some 15 ∧
    (deleteBooking sampleEnv sampleDB "b002").1.status = 200 ∧
    topCropOf (deleteBooking sampleEnv sampleDB "b002").2 (some "c001") "Roma tomato" =
      some 6 := by
  decide

/-- C10 (amended): the TopCrop counter keyed by a booking's crop variety is
incremented by the booked quantity on booking creation (an entry that is
missing is created and counts as 0), and on deletion of a booking whose farmer
is `pending` it is decremented by the booked quantity, but not below 0. -/
theorem topCrop_counter (env : Env) (db : DB) :
    (∀ body variety qty, body.variety = some variety → body.quantity = some qty →
      (createBooking env db body).1.status = 201 →
      topCropOf (createBooking env db body).2 (bookedVarietyRef env db variety)
          (bookedVarietyName env db variety) =
        some ((topCropOf db (bookedVarietyRef env db variety)
          (bookedVarietyName env db variety)).getD 0 + qty)) ∧
    (∀ id booking farmer b₀,
      db.bookings.find? (fun b => b._id == id) = some booking →
      db.farmers.find? (fun f => f._id == booking.farmer) = some farmer →
      farmer.status = some "pending" →
      (deleteBooking env db id).1.status = 200 →
      topCropOf db (deletedVarietyRef env db booking) booking.variety = some b₀ →
      topCropOf (deleteBooking env db id).2 (deletedVarietyRef env db booking) booking.variety =
        some (max (b₀ - booking.quantity) 0)) := by
  constructor
  · intro body variety qty hv hq h201
    rcases createBooking_inv env db body with ⟨hne, _⟩ |
      ⟨farmerId, farmer, booking, _, _, _, hnew, _, _, _, _, _, _, htop, _⟩
    · exact absurd h201 hne
    · obtain ⟨hv', _, hq', _⟩ := newBooking_eq_some hnew
      have e1 : booking.variety = variety := by rw [hv] at hv'; exact (Option.some.inj hv').symm
      have e2 : booking.quantity = qty := by rw [hq] at hq'; exact (Option.some.inj hq').symm
      rw [e1, e2] at htop
      exact topCropOf_upsert db _ env.now _ _ _ qty htop
  · intro id booking farmer b₀ hb hf hst h200 hb₀
    rcases deleteBooking_inv env db id with ⟨hne, _⟩ |
      ⟨booking', farmer', _, _, hb', hf', _, _, _, _, _, _, htop, _⟩
    · exact absurd h200 hne
    · rw [hb] at hb'
      obtain rfl := Option.some.inj hb'
      rw [hf] at hf'
      obtain rfl := Option.some.inj hf'
      rw [if_pos hst] at htop
      unfold topCropOf at hb₀ ⊢
      obtain ⟨t, ht, htq⟩ := Option.map_eq_some'.mp hb₀
      rw [htop, find?_modifyFirst, ht]
      · simp [htq]
      · intro x hx
        cases hk : deletedVarietyRef env db booking <;> simpa [topCropFilter, hk] using hx

/-- Witness of C10 (amended): on the sample store, whose TopCrop counter is 10,
a booking of 5 is created, and booking `b002` of 4 is deleted. -/
theorem topCrop_counter_witness :
    topCropOf (createBooking sampleEnv sampleDB (sampleBody 5)).2
        (bookedVarietyRef sampleEnv sampleDB "Roma tomato")
        (bookedVarietyName sampleEnv sampleDB "Roma tomato") =
      some ((topCropOf sampleDB (bookedVarietyRef sampleEnv sampleDB "Roma tomato")
        (bookedVarietyName sampleEnv sampleDB "Roma tomato")).getD 0 + 5) ∧
    topCropOf (deleteBooking sampleEnv sampleDB "b002").2
        (deletedVarietyRef sampleEnv sampleDB (sampleBooking "b002" "f003")) "c001" =
      some (max (10 - 4) 0) :=
  ⟨(topCrop_counter sampleEnv sampleDB).1 (sampleBody 5) "Roma tomato" 5 rfl rfl (by decide),
   (topCrop_counter sampleEnv sampleDB).2 "b002" (sampleBooking "b002" "f003")
     ⟨"f003", some "pending"⟩ 10 (by decide) (by decide) (by decide) (by decide) (by decide)⟩

/-! ## The TopCrop counter on booking creation -/

theorem length_modifyFirst {α : Type} (p : α → Bool) (f : α → α) :
    ∀ l : List α, (modifyFirst p f l).length = l.length
  | [] => rfl
  | x :: xs => by
    by_cases hx : p x = true
    · simp [modifyFirst, hx]
    · have hx' : p x = false := by simpa using hx
      simp [modifyFirst, hx', length_modifyFirst p f xs]

theorem any_eq_isSome_find? {α : Type} (p : α → Bool) (l : List α) :
    l.any p = (l.find? p).isSome := by
  induction l with
  | nil => rfl
  | cons x xs ih =>
    by_cases hx : p x = true
    · simp [List.find?, hx]
    · have hx' : p x = false := by simpa using hx
      simp [List.find?, hx', ih]

/-- C11: `TopCrop.bookedQuantity` is a running counter of booked quantity.
After every successful `createBooking` with quantity `q` (which is
`Number(quantity) || 0` of the request), the counter of the TopCrop entry for
the booking's variety is its previous value plus `q`, a missing entry counting
as 0: when no entry matched, exactly one entry is added, with counter `q`, and
when one matched, no entry is added. -/
theorem createBooking_topCrop_running_counter (env : Env) (db : DB) (body : BookingBody)
    (variety : String) (qty : Int)
    (hv : body.variety = some variety) (hq : body.quantity = some qty)
    (h201 : (createBooking env db body).1.status = 201) :
    body.quantity.getD 0 = qty ∧
    topCropOf (createBooking env db body).2 (bookedVarietyRef env db variety)
        (bookedVarietyName env db variety) =
      some ((topCropOf db (bookedVarietyRef env db variety)
        (bookedVarietyName env db variety)).getD 0 + qty) ∧
    (topCropOf db (bookedVarietyRef env db variety) (bookedVarietyName env db variety) = none →
      ∃ t, (createBooking env db body).2.topCrops = db.topCrops ++ [t] ∧
        t.bookedQuantity = qty ∧ t.varietyRef = bookedVarietyRef env db variety ∧
        t.varietyName = bookedVarietyName env db variety) ∧
    (topCropOf db (bookedVarietyRef env db variety) (bookedVarietyName env db variety) ≠ none →
      (createBooking env db body).2.topCrops.length = db.topCrops.length) := by
  rcases createBooking_inv env db body with ⟨hne, _⟩ |
    ⟨farmerId, farmer, booking, _, _, _, hnew, _, _, _, _, _, _, htop, _⟩
  · exact absurd h201 hne
  · obtain ⟨hv', _, hq', _⟩ := newBooking_eq_some hnew
    have e1 : booking.variety = variety := by rw [hv] at hv'; exact (Option.some.inj hv').symm
    have e2 : booking.quantity = qty := by rw [hq] at hq'; exact (Option.some.inj hq').symm
    rw [e1, e2] at htop
    refine ⟨by rw [hq]; rfl, topCropOf_upsert db _ env.now _ _ _ qty htop, ?_, ?_⟩
    · intro hnone
      have hfind : db.topCrops.find? (topCropFilter (bookedVarietyRef env db variety)
          (bookedVarietyName env db variety)) = none := by
        unfold topCropOf at hnone
        simpa using hnone
      have hany : db.topCrops.any (topCropFilter (bookedVarietyRef env db variety)
          (bookedVarietyName env db variety)) = false := by
        rw [any_eq_isSome_find?, hfind]; rfl
      rw [htop]
      unfold upsertTopCrop
      simp only [bookedVarietyRef, bookedVarietyName] at hany ⊢
      rw [hany]
      simp only [Bool.false_eq_true, if_false]
      exact ⟨_, rfl, rfl, rfl, rfl⟩
    · intro hsome
      have hany : db.topCrops.any (topCropFilter (bookedVarietyRef env db variety)
          (bookedVarietyName env db variety)) = true := by
        rw [any_eq_isSome_find?]
        unfold topCropOf at hsome
        cases hf : db.topCrops.find? (topCropFilter (bookedVarietyRef env db variety)
          (bookedVarietyName env db variety)) with
        | none => rw [hf] at hsome; exact absurd rfl hsome
        | some t => rfl
      rw [htop]
      unfold upsertTopCrop
      simp only [bookedVarietyRef, bookedVarietyName] at hany
      rw [hany]
      simp only [if_true]
      exact length_modifyFirst _ _ _

/-- Witness of C11: a booking of 5 on the sample store, whose TopCrop counter
for the variety is 10. -/
theorem createBooking_topCrop_running_counter_witness :
    topCropOf (createBooking sampleEnv sampleDB (sampleBody 5)).2
        (bookedVarietyRef sampleEnv sampleDB "Roma tomato")
        (bookedVarietyName sampleEnv sampleDB "Roma tomato") =
      some ((topCropOf sampleDB (bookedVarietyRef sampleEnv sampleDB "Roma tomato")
        (bookedVarietyName sampleEnv sampleDB "Roma tomato")).getD 0 + 5) ∧
    (createBooking sampleEnv sampleDB (sampleBody 5)).2.topCrops.length =
      sampleDB.topCrops.length :=
  ⟨(createBooking_topCrop_running_counter sampleEnv sampleDB (sampleBody 5) "Roma tomato" 5
      rfl rfl (by decide)).2.1,
   (createBooking_topCrop_running_counter sampleEnv sampleDB (sampleBody 5) "Roma tomato" 5
      rfl rfl (by decide)).2.2.2 (by decide)⟩

/-! ## Error answers of `updateSchedule` -/

/-- C16 (as stated it fails): a progress update that names the schedule `zz`,
which is no schedule of the sample store and no well-formed identifier, is
answered 500, not 404 (the store is unchanged). -/
theorem updateSchedule_malformed_id_not_404 :
    sampleDB.schedules.find? (fun s => s._id == "zz") = none ∧
    sampleEnv.isValid "zz" = false ∧
    updateSchedule sampleEnv sampleDB
      ⟨some "updateVarietyProgress", some ⟨some "zz", some "g001", some "v001", some 1⟩⟩ =
      (⟨500⟩, sampleDB) := by
  decide

/-- C16 (amended): `updateSchedule` maps validation failures to 400 and missing
documents to 404 and changes nothing in either case.  A missing action or
payload, an action other than `updateVarietyProgress`, or a missing
`scheduleId`, `groupId`, `varietyId` or `completed` (`completed` is missing only
when null or undefined) yields 400; for a well-formed schedule identifier, an
unknown schedule, a group not in the schedule or a variety not in the group
yields 404; a malformed schedule identifier yields 500; and every answer other
than 200 leaves the store as it was. -/
theorem updateSchedule_error_mapping (env : Env) (db : DB) (body : UpdateScheduleBody) :
    ((updateSchedule env db body).1.status ≠ 200 → (updateSchedule env db body).2 = db) ∧
    (present body.action = none ∨ body.payload = none →
      updateSchedule env db body = (⟨400⟩, db)) ∧
    (∀ action, present body.action = some action → action ≠ "updateVarietyProgress" →
      updateSchedule env db body = (⟨400⟩, db)) ∧
    (∀ p, body.payload = some p →
      present p.scheduleId = none ∨ present p.groupId = none ∨ present p.varietyId = none ∨
        p.completed = none →
      updateSchedule env db body = (⟨400⟩, db)) ∧
    (∀ sid gid vid c,
      body = ⟨some "updateVarietyProgress", some ⟨some sid, some gid, some vid, some c⟩⟩ →
      truthy sid = true → truthy gid = true → truthy vid = true →
      (env.isValid sid = false → updateSchedule env db body = (⟨500⟩, db)) ∧
      (env.isValid sid = true →
        (db.schedules.find? (fun s => s._id == sid) = none →
          updateSchedule env db body = (⟨404⟩, db)) ∧
        (∀ s, db.schedules.find? (fun s => s._id == sid) = some s →
          (s.groups.find? (fun g => g.groupId == gid) = none →
            updateSchedule env db body = (⟨404⟩, db)) ∧
          (∀ g, s.groups.find? (fun g => g.groupId == gid) = some g →
            g.varieties.find? (fun v => v.varietyId == vid) = none →
            updateSchedule env db body = (⟨404⟩, db))))) := by
  refine ⟨?_, ?_, ?_, ?_, ?_⟩
  · intro hne
    rcases updateSchedule_inv env db body with ⟨_, h⟩ | ⟨_, _, _, _, _, _, _, _, _, _, _, _, _, heq⟩
    · exact h
    · rw [heq] at hne
      exact absurd rfl hne
  · rintro (h | h)
    · simp [updateSchedule, h]
    · cases hpa : present body.action <;> simp [updateSchedule, hpa, h]
  · intro action hact hne
    cases hp : body.payload with
    | none => simp [updateSchedule, hact, hp]
    | some p => simp [updateSchedule, hact, hp, hne]
  · intro p hp hmiss
    cases hpa : present body.action with
    | none => simp [updateSchedule, hpa]
    | some action =>
      by_cases hname : action = "updateVarietyProgress"
      · simp only [updateSchedule, hpa, hp, hname, bne_self_eq_false, Bool.false_eq_true,
          if_false]
        rcases hmiss with h | h | h | h
        · simp [h]
        · cases h1 : present p.scheduleId <;> simp [h]
        · cases h1 : present p.scheduleId <;> cases h2 : present p.groupId <;> simp [h]
        · cases h1 : present p.scheduleId <;> cases h2 : present p.groupId <;>
            cases h3 : present p.varietyId <;> simp [h]
      · simp [updateSchedule, hpa, hp, hname]
  · rintro sid gid vid c rfl hsid hgid hvid
    have h0 : present (some "updateVarietyProgress") = some "updateVarietyProgress" :=
      present_eq_some.mpr ⟨rfl, by decide⟩
    have h1 : present (some sid) = some sid := present_eq_some.mpr ⟨rfl, hsid⟩
    have h2 : present (some gid) = some gid := present_eq_some.mpr ⟨rfl, hgid⟩
    have h3 : present (some vid) = some vid := present_eq_some.mpr ⟨rfl, hvid⟩
    refine ⟨fun hbad => ?_, fun hvalid => ⟨fun hs => ?_, fun s hs => ⟨fun hg => ?_,
      fun g hg hv => ?_⟩⟩⟩
    · simp [updateSchedule, h0, h1, h2, h3, hbad]
    · simp [updateSchedule, h0, h1, h2, h3, hvalid, hs]
    · simp [updateSchedule, h0, h1, h2, h3, hvalid, hs, hg]
    · simp [updateSchedule, h0, h1, h2, h3, hvalid, hs, hg, hv]

/-- Witness of C16 (amended): on the sample store, a request without payload
is answered 400, one for the unknown schedule `s009` is answered 404, and one
with `completed = 0` is not rejected as incomplete. -/
theorem updateSchedule_error_mapping_witness :
    updateSchedule sampleEnv sampleDB ⟨some "updateVarietyProgress", none⟩ = (⟨400⟩, sampleDB) ∧
    updateSchedule sampleEnv sampleDB
      ⟨some "updateVarietyProgress", some ⟨some "s009", some "g001", some "v001", some 1⟩⟩ =
      (⟨404⟩, sampleDB) ∧
    (updateSchedule sampleEnv sampleDB (sampleProgress 0)).1.status = 200 :=
  ⟨(updateSchedule_error_mapping sampleEnv sampleDB ⟨some "updateVarietyProgress", none⟩).2.1
      (Or.inr rfl),
   ((updateSchedule_error_mapping sampleEnv sampleDB
      ⟨some "updateVarietyProgress", some ⟨some "s009", some "g001", some "v001", some 1⟩⟩).2.2.2.2
      "s009" "g001" "v001" 1 rfl (by decide) (by decide) (by decide)).2 (by decide) |>.1
      (by decide),
   by decide⟩

/-! ## Error answers of `createBooking` -/

/-- C17 (as stated it fails): a booking request whose `farmerId` is `zz`, which
matches no farmer of the sample store and is no well-formed identifier, is
answered 500, not 404 (the store is unchanged). -/
theorem createBooking_malformed_farmer_not_404 :
    sampleDB.farmers.find? (fun f => f._id == "zz") = none ∧
    sampleEnv.isValid "zz" = false ∧
    createBooking sampleEnv sampleDB { sampleBody 2 with farmerId := some "zz" } =
      (⟨500⟩, sampleDB) := by
  decide

/-- C17 (amended): `createBooking` with an absent `farmerId`, or with a
well-formed `farmerId` that matches no farmer, answers 404; with a malformed
`farmerId` it answers 500; in each case the store is unchanged: no Booking is
created and no Farmer, TopCrop or Stock document is changed. -/
theorem createBooking_unknown_farmer (env : Env) (db : DB) (body : BookingBody) :
    (body.farmerId = none → createBooking env db body = (⟨404⟩, db)) ∧
    (∀ farmerId, body.farmerId = some farmerId →
      db.farmers.find? (fun f => f._id == farmerId) = none →
      (env.isValid farmerId = true → createBooking env db body = (⟨404⟩, db)) ∧
      (env.isValid farmerId = false → createBooking env db body = (⟨500⟩, db))) := by
  refine ⟨fun h => ?_, fun farmerId h hnone => ⟨fun hv => ?_, fun hv => ?_⟩⟩
  · simp [createBooking, h]
  · simp [createBooking, h, hv, hnone]
  · simp [createBooking, h, hv]

/-- Witness of C17 (amended): farmer `f009` is well-formed and unknown in the
sample store. -/
theorem createBooking_unknown_farmer_witness :
    createBooking sampleEnv sampleDB { sampleBody 2 with farmerId := some "f009" } =
      (⟨404⟩, sampleDB) :=
  ((createBooking_unknown_farmer sampleEnv sampleDB
    { sampleBody 2 with farmerId := some "f009" }).2 "f009" rfl (by decide)).1 (by decide)

theorem createBookingWith_found (fails : BookingWrite → Bool) (env : Env) (db : DB)
    (body : BookingBody) (farmerId : String) (farmer : Farmer) (booking : Booking)
    (hfid : body.farmerId = some farmerId) (hvalid : env.isValid farmerId = true)
    (hfarmer : db.farmers.find? (fun f => f._id == farmerId) = some farmer)
    (hnew : newBooking env farmerId body = some booking) :
    createBookingWith fails env db body =
      if fails .farmerSave then
        (⟨500⟩, { db with
          bookings := db.bookings ++ [booking],
          schedules := env.afterBookingCreated booking db.schedules })
      else if fails .topCropUpdate then
        (⟨500⟩, { db with
          bookings := db.bookings ++ [booking],
          schedules := env.afterBookingCreated booking db.schedules,
          farmers := modifyFirst (fun f => f._id == farmerId)
            (fun f => { f with status := some "pending" }) db.farmers })
      else
        match resolveVariety env db booking.variety with
        | some cv =>
          if (db.stocks.find? (fun s => s.variety == cv._id)).isSome && fails .stockSave then
            (⟨500⟩, { db with
              bookings := db.bookings ++ [booking],
              schedules := env.afterBookingCreated booking db.schedules,
              farmers := modifyFirst (fun f => f._id == farmerId)
                (fun f => { f with status := some "pending" }) db.farmers,
              topCrops := upsertTopCrop env.now (some cv._id) cv.name
                (match present body.cropGroup with
                  | some g => some g
                  | none => present cv.group)
                booking.quantity db.topCrops })
          else (⟨201⟩, (createBooking env db body).2)
        | none => (⟨201⟩, (createBooking env db body).2) := by
  have hq := (newBooking_eq_some hnew).2.2.1
  have hr : ∀ (fs : List Farmer) (bs : List Booking) (ss : List Schedule),
      resolveVariety env { db with farmers := fs, bookings := bs, schedules := ss }
        booking.variety = resolveVariety env db booking.variety := fun _ _ _ => rfl
  simp only [createBookingWith, createBooking, hfid, hvalid, hfarmer, hnew, hq, Bool.not_true,
    Bool.false_eq_true, if_false, Option.getD_some, hr]
  split
  · rfl
  · split
    · rfl
    · cases resolveVariety env db booking.variety with
      | none => rfl
      | some cv =>
        simp only [Option.map_some', Option.getD_some, Option.some_bind]

/-- C19: `createBooking` has no rollback.  When a write after the booking save
is rejected, the handler answers 500 and the earlier writes stay: if the farmer
save fails, the new Booking is stored (farmers, TopCrop and Stock as before); if
the TopCrop update fails, the new Booking and the farmer's status `pending` are
stored (TopCrop and Stock as before); if the Stock save fails, the new Booking,
the farmer's status and the TopCrop increment are stored (Stock as before).
With no rejected write the handler is `createBooking`. -/
theorem createBooking_no_rollback (fails : BookingWrite → Bool) (env : Env) (db : DB)
    (body : BookingBody) (farmerId : String) (farmer : Farmer) (booking : Booking)
    (hfid : body.farmerId = some farmerId) (hvalid : env.isValid farmerId = true)
    (hfarmer : db.farmers.find? (fun f => f._id == farmerId) = some farmer)
    (hnew : newBooking env farmerId body = some booking) :
    (fails .farmerSave = true →
      (createBookingWith fails env db body).1.status = 500 ∧
      (createBookingWith fails env db body).2.bookings = db.bookings ++ [booking] ∧
      (createBookingWith fails env db body).2.farmers = db.farmers ∧
      (createBookingWith fails env db body).2.topCrops = db.topCrops ∧
      (createBookingWith fails env db body).2.stocks = db.stocks) ∧
    (fails .farmerSave = false → fails .topCropUpdate = true →
      (createBookingWith fails env db body).1.status = 500 ∧
      (createBookingWith fails env db body).2.bookings = db.bookings ++ [booking] ∧
      ((createBookingWith fails env db body).2.farmers.find? (fun f => f._id == farmerId)).map
        (fun f => f.status) = some (some "pending") ∧
      (createBookingWith fails env db body).2.topCrops = db.topCrops ∧
      (createBookingWith fails env db body).2.stocks = db.stocks) ∧
    (fails .farmerSave = false → fails .topCropUpdate = false → fails .stockSave = true →
      ∀ cv, resolveVariety env db booking.variety = some cv →
      (db.stocks.find? (fun s => s.variety == cv._id)).isSome = true →
      (createBookingWith fails env db body).1.status = 500 ∧
      (createBookingWith fails env db body).2.bookings = db.bookings ++ [booking] ∧
      ((createBookingWith fails env db body).2.farmers.find? (fun f => f._id == farmerId)).map
        (fun f => f.status) = some (some "pending") ∧
      topCropOf (createBookingWith fails env db body).2 (some cv._id) cv.name =
        some ((topCropOf db (some cv._id) cv.name).getD 0 + booking.quantity) ∧
      (createBookingWith fails env db body).2.stocks = db.stocks) ∧
    ((∀ w, fails w = false) →
      createBookingWith fails env db body = createBooking env db body) := by
  have key := createBookingWith_found fails env db body farmerId farmer booking hfid hvalid
    hfarmer hnew
  have hpending : ((modifyFirst (fun f : Farmer => f._id == farmerId)
      (fun f => { f with status := some "pending" }) db.farmers).find?
      (fun f => f._id == farmerId)).map (fun f => f.status) = some (some "pending") := by
    rw [find?_modifyFirst, hfarmer]
    · rfl
    · intro x hx; exact hx
  refine ⟨fun h1 => ?_, fun h1 h2 => ?_, fun h1 h2 h3 cv hcv hstock => ?_, fun hall => ?_⟩
  · rw [key, if_pos h1]
    exact ⟨rfl, rfl, rfl, rfl, rfl⟩
  · rw [key, if_neg (by simp [h1]), if_pos h2]
    exact ⟨rfl, rfl, hpending, rfl, rfl⟩
  · rw [key, if_neg (by simp [h1]), if_neg (by simp [h2]), hcv]
    simp only [hstock, h3, Bool.and_self, if_true]
    exact ⟨trivial, trivial, hpending, topCropOf_upsert db _ env.now _ _ _ _ rfl, trivial⟩
  · rw [key, if_neg (by simp [hall]), if_neg (by simp [hall])]
    have h201 : (createBooking env db body).1.status = 201 := by
      simp [createBooking, hfid, hvalid, hfarmer, hnew]
    have hpair : createBooking env db body = (⟨201⟩, (createBooking env db body).2) := by
      rcases hcb : createBooking env db body with ⟨⟨st⟩, d⟩
      rw [hcb] at h201
      simp only at h201
      subst h201
      rfl
    cases resolveVariety env db booking.variety with
    | none => exact hpair.symm
    | some cv =>
      simp only [hall, Bool.and_false, Bool.false_eq_true, if_false]
      exact hpair.symm

/-- Witness of C19: on the sample store the Stock save of a booking of 5 is
rejected; the booking, the farmer's status and the TopCrop counter 10 + 5 are
stored, the stock is still 3. -/
theorem createBooking_no_rollback_witness :
    (createBookingWith (fun w => decide (w = .stockSave)) sampleEnv sampleDB
      (sampleBody 5)).1.status = 500 ∧
    (createBookingWith (fun w => decide (w = .stockSave)) sampleEnv sampleDB
      (sampleBody 5)).2.bookings = sampleDB.bookings ++ [sampleCreated 5] ∧
    ((createBookingWith (fun w => decide (w = .stockSave)) sampleEnv sampleDB
      (sampleBody 5)).2.farmers.find? (fun f => f._id == "f001")).map (fun f => f.status) =
      some (some "pending") ∧
    topCropOf (createBookingWith (fun w => decide (w = .stockSave)) sampleEnv sampleDB
      (sampleBody 5)).2 (some "c001") "Roma tomato" =
      some ((topCropOf sampleDB (some "c001") "Roma tomato").getD 0 + 5) ∧
    (createBookingWith (fun w => decide (w = .stockSave)) sampleEnv sampleDB
      (sampleBody 5)).2.stocks = sampleDB.stocks :=
  (createBooking_no_rollback (fun w => decide (w = .stockSave)) sampleEnv sampleDB (sampleBody 5)
    "f001" ⟨"f001", some "completed"⟩ (sampleCreated 5) rfl (by decide) (by decide)
    (by decide)).2.2.1 (by decide) (by decide) (by decide) ⟨"c001", "Roma tomato", none⟩
    (by decide) (by decide)

/-! ## The calendar of the dashboard -/

/-- Days of year `y`. -/
theorem daysBeforeYear_succ (y : Int) :
    daysBeforeYear (y + 1) = daysBeforeYear y + (if isLeapYear y = true then 366 else 365) := by
  unfold daysBeforeYear isLeapYear
  by_cases h4 : y % 4 = 0 <;> by_cases h100 : y % 100 = 0 <;> by_cases h400 : y % 400 = 0 <;>
    simp [h4, h100, h400] <;> omega

theorem daysBeforeMonth_zero (y : Int) : daysBeforeMonth y 0 = 0 := by
  simp [daysBeforeMonth]

theorem daysBeforeMonth_nonneg (y m : Int) (h0 : 0 ≤ m) (h1 : m ≤ 11) :
    0 ≤ daysBeforeMonth y m := by
  interval_cases m <;> cases hl : isLeapYear y <;> simp [daysBeforeMonth, hl]

theorem daysBeforeMonth_succ (y m : Int) (h0 : 0 ≤ m) (h1 : m < 11) :
    daysBeforeMonth y (m + 1) = daysBeforeMonth y m + daysInMonth y m := by
  interval_cases m <;> cases hl : isLeapYear y <;> simp [daysBeforeMonth, daysInMonth, hl]

theorem daysBeforeMonth_last (y : Int) :
    daysBeforeMonth y 11 + daysInMonth y 11 = if isLeapYear y = true then 366 else 365 := by
  cases hl : isLeapYear y <;> simp [daysBeforeMonth, daysInMonth, hl]

theorem daysBeforeMonth_add_le (y m : Int) (h0 : 0 ≤ m) (h1 : m ≤ 11) :
    daysBeforeMonth y m + daysInMonth y m ≤ if isLeapYear y = true then 366 else 365 := by
  interval_cases m <;> cases hl : isLeapYear y <;> simp [daysBeforeMonth, daysInMonth, hl]

theorem mkDate_eq (y m d : Int) (hy : 100 ≤ y) (h0 : 0 ≤ m) (h1 : m ≤ 11) :
    mkDate y m d = (daysBeforeYear y + daysBeforeMonth y m + (d - 1)) * msPerDay := by
  have hd : m / 12 = 0 := by omega
  have hm : m % 12 = m := by omega
  have hq : ¬ (0 ≤ y ∧ y ≤ 99) := by omega
  simp only [mkDate, hd, hm, if_neg hq, add_zero]

theorem mkDate_next_month (y m : Int) (hy : 100 ≤ y) (h0 : 0 ≤ m) (h1 : m ≤ 11) :
    mkDate y (m + 1) 1 =
      (daysBeforeYear y + daysBeforeMonth y m + daysInMonth y m) * msPerDay := by
  by_cases h11 : m = 11
  · subst h11
    have hq : ¬ (0 ≤ y ∧ y ≤ 99) := by omega
    have := daysBeforeMonth_last y
    have := daysBeforeYear_succ y
    simp only [mkDate, if_neg hq]
    norm_num
    rw [daysBeforeMonth_zero]
    omega
  · rw [mkDate_eq y (m + 1) 1 hy (by omega) (by omega),
      daysBeforeMonth_succ y m h0 (by omega)]
    ring

theorem mkDate_next_year (y : Int) (hy : 100 ≤ y) :
    mkDate (y + 1) 0 1 =
      (daysBeforeYear y + (if isLeapYear y = true then 366 else 365)) * msPerDay := by
  rw [mkDate_eq (y + 1) 0 1 (by omega) (by omega) (by omega), daysBeforeMonth_zero,
    daysBeforeYear_succ]
  ring

/-! ## Net income per period -/

theorem sumAmounts_eq_totalIn {α : Type} (records : List α) (field dateField : α → Int)
    (start stop : Int) (keep : α → Bool) :
    sumAmounts records field dateField start stop keep =
      totalIn records field dateField start stop keep := by
  have hfilter : (records.filter fun r => inRange start stop (dateField r) && keep r) =
      records.filter fun r => decide (start ≤ dateField r ∧ dateField r < stop) && keep r := by
    congr 1
    funext r
    simp [inRange, Bool.decide_and]
  unfold sumAmounts aggregateTotal totalIn
  simp only [hfilter]
  cases hm : records.filter fun r => decide (start ≤ dateField r ∧ dateField r < stop) && keep r
    with
  | nil => simp
  | cons x xs => simp

theorem totalIn_eq_zero {α : Type} (records : List α) (field dateField : α → Int)
    (start stop : Int) (keep : α → Bool)
    (h : ∀ r ∈ records, inRange start stop (dateField r) = false) :
    totalIn records field dateField start stop keep = 0 := by
  unfold totalIn
  have : (records.filter fun r =>
      decide (start ≤ dateField r ∧ dateField r < stop) && keep r) = [] := by
    rw [List.filter_eq_nil_iff]
    intro r hr
    have := h r hr
    simp only [inRange, Bool.and_eq_false_imp, decide_eq_true_eq, decide_eq_false_iff_not,
      not_lt] at this
    simp only [Bool.and_eq_true, decide_eq_true_eq, not_and, Bool.not_eq_true]
    intro h1
    omega
  rw [this]
  rfl

/-- C12: `getIncomeData` computes, for each period, the sum of `Income.amount`
minus the sum of `Expense.total` with status `Done` minus the sum of
`Salary.totalAmount` with status `paid`, over the records dated in the period
(`start` included, `end` excluded); the sum of `Loss.value` with status `Done`
is subtracted for the month and the year only; and a period in which no record
is dated gives 0. -/
theorem getIncomeData_net (now : LocalDate) (db : DB) :
    (∀ p, calcNetIncome p now db =
      totalIn db.incomes (fun i => i.amount) (fun i => i.date)
          (getDateRange p now).1 (getDateRange p now).2 (fun _ => true)
        - totalIn db.expenses (fun e => e.total) (fun e => e.date)
          (getDateRange p now).1 (getDateRange p now).2 (fun e => e.status == "Done")
        - totalIn db.salaries (fun s => s.totalAmount) (fun s => s.paymentDate)
          (getDateRange p now).1 (getDateRange p now).2 (fun s => s.status == "paid")
        - (if p = .day then 0
           else totalIn db.losses (fun l => l.value) (fun l => l.date)
             (getDateRange p now).1 (getDateRange p now).2 (fun l => l.status == "Done"))) ∧
    getIncomeData now db =
      ⟨calcNetIncome .day now db, calcNetIncome .month now db, calcNetIncome .year now db⟩ ∧
    (∀ p,
      (∀ i ∈ db.incomes, inRange (getDateRange p now).1 (getDateRange p now).2 i.date = false) →
      (∀ e ∈ db.expenses, inRange (getDateRange p now).1 (getDateRange p now).2 e.date = false) →
      (∀ s ∈ db.salaries,
        inRange (getDateRange p now).1 (getDateRange p now).2 s.paymentDate = false) →
      (∀ l ∈ db.losses, inRange (getDateRange p now).1 (getDateRange p now).2 l.date = false) →
      calcNetIncome p now db = 0) := by
  have main : ∀ p, calcNetIncome p now db =
      totalIn db.incomes (fun i => i.amount) (fun i => i.date)
          (getDateRange p now).1 (getDateRange p now).2 (fun _ => true)
        - totalIn db.expenses (fun e => e.total) (fun e => e.date)
          (getDateRange p now).1 (getDateRange p now).2 (fun e => e.status == "Done")
        - totalIn db.salaries (fun s => s.totalAmount) (fun s => s.paymentDate)
          (getDateRange p now).1 (getDateRange p now).2 (fun s => s.status == "paid")
        - (if p = .day then 0
           else totalIn db.losses (fun l => l.value) (fun l => l.date)
             (getDateRange p now).1 (getDateRange p now).2 (fun l => l.status == "Done")) := by
    intro p
    cases p <;> simp [calcNetIncome, sumAmounts_eq_totalIn]
  refine ⟨main, rfl, ?_⟩
  intro p hi he hs hl
  rw [main, totalIn_eq_zero _ _ _ _ _ _ hi, totalIn_eq_zero _ _ _ _ _ _ he,
    totalIn_eq_zero _ _ _ _ _ _ hs, totalIn_eq_zero _ _ _ _ _ _ hl]
  simp

/-- Witness of C12: the sample ledger has no record on 6 November 2026, so the
daily net income is 0; the monthly one is 500 - 100 - 0 - 30. -/
theorem getIncomeData_net_witness :
    calcNetIncome .day sampleNow sampleLedger = 0 ∧
    calcNetIncome .month sampleNow sampleLedger = 370 :=
  ⟨(getIncomeData_net sampleNow sampleLedger).2.2 .day (by decide) (by decide) (by decide)
      (by decide),
   by decide⟩

/-! ## The ranges of a day, a month and a year -/

/-- C13: for every current instant `now`, the day, month and year ranges of
`getDateRange` are half-open intervals that contain `now`.  The day starts at
local midnight of the current day and ends one day later; the month starts at
midnight of its first day and ends at the first day of the next month (of
January of the next year after December); the year starts on 1 January and ends
on 1 January of the next year.  A record dated at `start` is in the range and
one dated at `end` is not, and the day range lies in the month range, which
lies in the year range. -/
theorem getDateRange_half_open (now : LocalDate) (hnow : now.valid) :
    ((getDateRange .day now).1 = now.getTime - now.msOfDay ∧
      (getDateRange .day now).2 = (getDateRange .day now).1 + msPerDay) ∧
    ((getDateRange .month now).1 = LocalDate.getTime ⟨now.year, now.month, 1, 0⟩ ∧
      (getDateRange .month now).2 =
        (getDateRange .month now).1 + daysInMonth now.year now.month * msPerDay ∧
      (getDateRange .month now).2 =
        LocalDate.getTime ⟨if now.month = 11 then now.year + 1 else now.year,
          if now.month = 11 then 0 else now.month + 1, 1, 0⟩) ∧
    ((getDateRange .year now).1 = LocalDate.getTime ⟨now.year, 0, 1, 0⟩ ∧
      (getDateRange .year now).2 = LocalDate.getTime ⟨now.year + 1, 0, 1, 0⟩) ∧
    (∀ p, (getDateRange p now).1 ≤ now.getTime ∧ now.getTime < (getDateRange p now).2) ∧
    (∀ p, inRange (getDateRange p now).1 (getDateRange p now).2 (getDateRange p now).1 = true ∧
      inRange (getDateRange p now).1 (getDateRange p now).2 (getDateRange p now).2 = false) ∧
    ((getDateRange .month now).1 ≤ (getDateRange .day now).1 ∧
      (getDateRange .day now).2 ≤ (getDateRange .month now).2) ∧
    ((getDateRange .year now).1 ≤ (getDateRange .month now).1 ∧
      (getDateRange .month now).2 ≤ (getDateRange .year now).2) := by
  obtain ⟨hy, hm0, hm1, hd0, hd1, ht0, ht1⟩ := hnow
  have eDay1 := mkDate_eq now.year now.month now.date hy hm0 hm1
  have eDay2 := mkDate_eq now.year now.month (now.date + 1) hy hm0 hm1
  have eMon1 := mkDate_eq now.year now.month 1 hy hm0 hm1
  have eMon2 := mkDate_next_month now.year now.month hy hm0 hm1
  have eYr1 := mkDate_eq now.year 0 1 hy (le_refl 0) (by omega)
  have eYr2 := mkDate_next_year now.year hy
  have hz := daysBeforeMonth_zero now.year
  have hM := daysBeforeMonth_nonneg now.year now.month hm0 hm1
  have hL := daysBeforeMonth_add_le now.year now.month hm0 hm1
  have hms : msPerDay = 86400000 := rfl
  have hdim : 28 ≤ daysInMonth now.year now.month := by
    unfold daysInMonth
    split
    · split <;> omega
    · split <;> omega
  have hnext : mkDate (if now.month = 11 then now.year + 1 else now.year)
      (if now.month = 11 then 0 else now.month + 1) 1 = mkDate now.year (now.month + 1) 1 := by
    by_cases h11 : now.month = 11
    · rw [if_pos h11, if_pos h11, h11, eYr2]
      have := mkDate_next_month now.year 11 hy (by omega) (by omega)
      have hlast := daysBeforeMonth_last now.year
      have h12 : (11 : Int) + 1 = 12 := rfl
      rw [h12] at this ⊢
      rw [this, ← hlast]
      ring
    · rw [if_neg h11, if_neg h11]
  simp only [getDateRange, LocalDate.getTime, add_zero]
  rw [hnext]
  generalize daysBeforeYear now.year = D at *
  generalize daysBeforeMonth now.year now.month = M at *
  generalize daysInMonth now.year now.month = N at *
  generalize (if isLeapYear now.year = true then (366 : Int) else 365) = L at *
  rw [hz] at eYr1
  rw [eDay1, eDay2, eMon1, eMon2, eYr1, eYr2, hms]
  rw [hms] at ht1
  refine ⟨⟨by ring, by ring⟩, ⟨trivial, by ring, rfl⟩, ⟨trivial, trivial⟩, ?_, ?_, ?_, ?_⟩
  · intro p
    cases p <;> simp only [getDateRange, eDay1, eDay2, eMon1, eMon2, eYr1, eYr2, hms] <;>
      constructor <;> omega
  · intro p
    cases p <;>
      simp only [getDateRange, eDay1, eDay2, eMon1, eMon2, eYr1, eYr2, hms, inRange,
        Bool.and_eq_true, decide_eq_true_eq, Bool.and_eq_false_imp,
        decide_eq_false_iff_not, not_lt] <;>
      constructor <;> omega
  · constructor <;> omega
  · constructor <;> omega

/-- Witness of C13: 6 November 2026, 10:00. -/
theorem getDateRange_half_open_witness :
    (getDateRange .day sampleNow).1 ≤ sampleNow.getTime ∧
    sampleNow.getTime < (getDateRange .day sampleNow).2 ∧
    (getDateRange .month sampleNow).1 ≤ (getDateRange .day sampleNow).1 ∧
    (getDateRange .day sampleNow).2 ≤ (getDateRange .month sampleNow).2 :=
  ⟨((getDateRange_half_open sampleNow (by decide)).2.2.2.1 .day).1,
   ((getDateRange_half_open sampleNow (by decide)).2.2.2.1 .day).2,
   (getDateRange_half_open sampleNow (by decide)).2.2.2.2.2.1⟩

/-! ## The monthly trend -/

theorem trendCount_nil (i : Int) : trendCount [] i = 0 := rfl

theorem trendCount_cons (r : MonthGroup) (rs : List MonthGroup) (i : Int)
    (hnot : r.month ∉ rs.map fun g => g.month) :
    trendCount (r :: rs) i = (if r.month = i then r.count else 0) + trendCount rs i := by
  unfold trendCount
  by_cases h : r.month = i
  · have hnone : rs.find? (fun m => m.month == i) = none := by
      rw [List.find?_eq_none]
      intro x hx hxi
      apply hnot
      rw [List.mem_map]
      exact ⟨x, hx, by rw [h]; simpa using hxi⟩
    simp [List.find?, h, hnone]
  · have h' : (r.month == i) = false := by simpa using h
    simp [List.find?, h, h']

theorem sum_if_month (m c : Int) :
    (if m = 1 then c else 0) + (if m = 2 then c else 0) + (if m = 3 then c else 0) +
      (if m = 4 then c else 0) + (if m = 5 then c else 0) + (if m = 6 then c else 0) +
      (if m = 7 then c else 0) + (if m = 8 then c else 0) + (if m = 9 then c else 0) +
      (if m = 10 then c else 0) + (if m = 11 then c else 0) + (if m = 12 then c else 0) =
    if 1 ≤ m ∧ m ≤ 12 then c else 0 := by
  by_cases h : 1 ≤ m ∧ m ≤ 12
  · obtain ⟨h1, h2⟩ := h
    interval_cases m <;> simp
  · have e1 : m ≠ 1 := by omega
    have e2 : m ≠ 2 := by omega
    have e3 : m ≠ 3 := by omega
    have e4 : m ≠ 4 := by omega
    have e5 : m ≠ 5 := by omega
    have e6 : m ≠ 6 := by omega
    have e7 : m ≠ 7 := by omega
    have e8 : m ≠ 8 := by omega
    have e9 : m ≠ 9 := by omega
    have e10 : m ≠ 10 := by omega
    have e11 : m ≠ 11 := by omega
    have e12 : m ≠ 12 := by omega
    simp [h, e1, e2, e3, e4, e5, e6, e7, e8, e9, e10, e11, e12]

theorem sum_trendCount (raw : List MonthGroup) (hnodup : (raw.map fun g => g.month).Nodup) :
    trendCount raw 1 + trendCount raw 2 + trendCount raw 3 + trendCount raw 4 +
      trendCount raw 5 + trendCount raw 6 + trendCount raw 7 + trendCount raw 8 +
      trendCount raw 9 + trendCount raw 10 + trendCount raw 11 + trendCount raw 12 =
    ((raw.filter fun g => decide (1 ≤ g.month ∧ g.month ≤ 12)).map fun g => g.count).sum := by
  induction raw with
  | nil => simp [trendCount_nil]
  | cons r rs ih =>
    rw [List.map_cons, List.nodup_cons] at hnodup
    obtain ⟨hnot, hrest⟩ := hnodup
    have ih' := ih hrest
    have hs := sum_if_month r.month r.count
    simp only [trendCount_cons r rs _ hnot]
    by_cases h : 1 ≤ r.month ∧ r.month ≤ 12
    · rw [if_pos h] at hs
      rw [List.filter_cons_of_pos (by simpa using h), List.map_cons, List.sum_cons, ← ih']
      omega
    · rw [if_neg h] at hs
      rw [List.filter_cons_of_neg (by simpa using h), ← ih']
      omega

theorem monthlyTrend_eq (raw : List MonthGroup) :
    monthlyTrend raw =
      [⟨"Jan", trendCount raw 1⟩, ⟨"Feb", trendCount raw 2⟩, ⟨"Mar", trendCount raw 3⟩,
       ⟨"Apr", trendCount raw 4⟩, ⟨"May", trendCount raw 5⟩, ⟨"Jun", trendCount raw 6⟩,
       ⟨"Jul", trendCount raw 7⟩, ⟨"Aug", trendCount raw 8⟩, ⟨"Sep", trendCount raw 9⟩,
       ⟨"Oct", trendCount raw 10⟩, ⟨"Nov", trendCount raw 11⟩, ⟨"Dec", trendCount raw 12⟩] := by
  have hcount : ∀ o : Option MonthGroup,
      (match o with
        | some f => f.count
        | none => 0) = (o.map fun f => f.count).getD 0 := by
    intro o; cases o <;> rfl
  simp only [monthlyTrend, monthNames, List.enum, List.enumFrom, List.map, hcount, trendCount]
  norm_num

/-- C14: for every aggregation result, `monthly_trend` has exactly 12 entries,
named Jan to Dec in this order; the entry at position `i` carries the count of
the raw group whose month number is `i + 1`, and 0 when there is no such group;
hence, the groups of an aggregation having distinct months, the counts of
`monthly_trend` sum to the total of the raw groups with month in 1..12. -/
theorem monthlyTrend_entries (raw : List MonthGroup) :
    (monthlyTrend raw).length = 12 ∧
    (monthlyTrend raw).map (fun e => e.month) =
      ["Jan", "Feb", "Mar", "Apr", "May", "Jun", "Jul", "Aug", "Sep", "Oct", "Nov", "Dec"] ∧
    (∀ i : Nat, i < 12 →
      (monthlyTrend raw)[i]?.map (fun e => e.count) = some (trendCount raw ((i : Int) + 1))) ∧
    ((raw.map fun g => g.month).Nodup →
      ((monthlyTrend raw).map fun e => e.count).sum =
        ((raw.filter fun g => decide (1 ≤ g.month ∧ g.month ≤ 12)).map fun g => g.count).sum) ∧
    (∀ now db, (getBookingStats now db raw).monthly_trend = monthlyTrend raw) := by
  refine ⟨?_, ?_, ?_, ?_, fun _ _ => rfl⟩
  · rw [monthlyTrend_eq]; rfl
  · rw [monthlyTrend_eq]; rfl
  · intro i hi
    rw [monthlyTrend_eq]
    interval_cases i <;> simp
  · intro hnodup
    rw [← sum_trendCount raw hnodup, monthlyTrend_eq]
    simp only [List.map, List.sum_cons, List.sum_nil]
    omega

/-- Witness of C14: groups for March (7), December (2) and a month number 13
(9). -/
theorem monthlyTrend_entries_witness :
    (monthlyTrend [⟨3, 7⟩, ⟨12, 2⟩, ⟨13, 9⟩])[2]?.map (fun e => e.count) =
      some (trendCount [⟨3, 7⟩, ⟨12, 2⟩, ⟨13, 9⟩] ((2 : Nat) + 1)) ∧
    ((monthlyTrend [⟨3, 7⟩, ⟨12, 2⟩, ⟨13, 9⟩]).map fun e => e.count).sum =
      ((List.filter (fun g : MonthGroup => decide (1 ≤ g.month ∧ g.month ≤ 12))
        [⟨3, 7⟩, ⟨12, 2⟩, ⟨13, 9⟩]).map fun g => g.count).sum :=
  ⟨(monthlyTrend_entries [⟨3, 7⟩, ⟨12, 2⟩, ⟨13, 9⟩]).2.2.1 2 (by decide),
   (monthlyTrend_entries [⟨3, 7⟩, ⟨12, 2⟩, ⟨13, 9⟩]).2.2.2.1 (by decide)⟩

/-! ## Creating a crop entry -/

theorem newEntry_eq_some {env : Env} {castDate : String → Option Int}
    {groupId varietyId date : String} {body : NewEntryBody} {entry : NewEntry}
    (h : newEntry env castDate groupId varietyId date body = some entry) :
    entry.groupId = groupId ∧ entry.varietyId = varietyId ∧ castDate date = some entry.date ∧
    body.totalTrays = some entry.totalTrays ∧ body.totalPlants = some entry.totalPlants ∧
    entry.sowingDate = (present body.sowingDate).bind castDate ∧
    entry.totalMans = body.totalMans.getD 0 := by
  unfold newEntry at h
  cases hd : castDate date with
  | none => simp [hd] at h
  | some d =>
    cases htr : body.totalTrays with
    | none => simp [hd, htr] at h
    | some trays =>
      cases hpl : body.totalPlants with
      | none => simp [hd, htr, hpl] at h
      | some plants =>
        cases hp : present body.sowingDate with
        | none =>
          simp only [hd, htr, hpl, hp] at h
          split at h
          · simp only [Option.some.injEq] at h
            subst h
            exact ⟨rfl, rfl, rfl, rfl, rfl, rfl, rfl⟩
          · cases h
        | some s =>
          cases hc : castDate s with
          | none => simp [hd, htr, hpl, hp, hc] at h
          | some sd =>
            simp only [hd, htr, hpl, hp, hc, Option.map_some'] at h
            split at h
            · simp only [Option.some.injEq] at h
              subst h
              exact ⟨rfl, rfl, rfl, rfl, rfl, by simp [hc], rfl⟩
            · cases h

/-- C15: `createNewEntry` answers 400, with no entry saved, exactly when
`groupId`, `varietyId` or `date` is missing (falsy) in the request body.  When
all three are present it goes on to save: either the save is rejected (500,
nothing stored) or it answers 201 and one entry is added that carries the
submitted `date`, `groupId`, `varietyId`, `totalTrays`, `totalPlants`,
`sowingDate` and `totalMans` (0 when `totalMans` is not submitted).  And it does
save: whenever the submitted fields meet the schema of `models/NewEntry.js`
(identifiers and dates well-formed, `totalTrays` and `totalPlants` given,
nothing negative), the answer is 201 and the store afterwards is the store
before with exactly that entry, of status `active`, added at the end. -/
theorem createNewEntry_validation (env : Env) (castDate : String → Option Int) (db : DB)
    (body : NewEntryBody) :
    ((createNewEntry env castDate db body).1.status = 400 ↔
      present body.groupId = none ∨ present body.varietyId = none ∨ present body.date = none) ∧
    ((createNewEntry env castDate db body).1.status = 400 →
      (createNewEntry env castDate db body).2 = db) ∧
    (∀ groupId varietyId date, present body.groupId = some groupId →
      present body.varietyId = some varietyId → present body.date = some date →
      createNewEntry env castDate db body = (⟨500⟩, db) ∨
      ∃ entry,
        createNewEntry env castDate db body =
          (⟨201⟩, { db with newEntries := db.newEntries ++ [entry] }) ∧
        entry.groupId = groupId ∧ entry.varietyId = varietyId ∧
        castDate date = some entry.date ∧
        body.totalTrays = some entry.totalTrays ∧ body.totalPlants = some entry.totalPlants ∧
        entry.sowingDate = (present body.sowingDate).bind castDate ∧
        entry.totalMans = body.totalMans.getD 0) ∧
    (∀ groupId varietyId date d trays plants, present body.groupId = some groupId →
      present body.varietyId = some varietyId → present body.date = some date →
      castDate date = some d → body.totalTrays = some trays → body.totalPlants = some plants →
      env.isValid groupId = true → env.isValid varietyId = true →
      0 ≤ trays → 0 ≤ plants → 0 ≤ body.totalMans.getD 0 →
      (∀ s, present body.sowingDate = some s → (castDate s).isSome = true) →
      createNewEntry env castDate db body =
        (⟨201⟩, { db with
          newEntries := db.newEntries ++
            [{ groupId := groupId, varietyId := varietyId, date := d, totalTrays := trays,
               totalPlants := plants, sowingDate := (present body.sowingDate).bind castDate,
               totalMans := body.totalMans.getD 0, status := "active" }] })) := by
  have hpresent : ∀ groupId varietyId date, present body.groupId = some groupId →
      present body.varietyId = some varietyId → present body.date = some date →
      createNewEntry env castDate db body =
        match newEntry env castDate groupId varietyId date body with
        | some entry => (⟨201⟩, { db with newEntries := db.newEntries ++ [entry] })
        | none => (⟨500⟩, db) := by
    intro groupId varietyId date hg hv hd
    simp only [createNewEntry, hg, hv, hd]
  have hmissing : present body.groupId = none ∨ present body.varietyId = none ∨
      present body.date = none → createNewEntry env castDate db body = (⟨400⟩, db) := by
    rintro (h | h | h)
    · simp [createNewEntry, h]
    · cases hg : present body.groupId <;> simp [createNewEntry, hg, h]
    · cases hg : present body.groupId <;> cases hv : present body.varietyId <;>
        simp [createNewEntry, hg, hv, h]
  refine ⟨⟨fun h400 => ?_, fun h => by rw [hmissing h]⟩, fun h400 => ?_, ?_, ?_⟩
  · cases hg : present body.groupId with
    | none => exact Or.inl rfl
    | some groupId =>
      cases hv : present body.varietyId with
      | none => exact Or.inr (Or.inl rfl)
      | some varietyId =>
        cases hd : present body.date with
        | none => exact Or.inr (Or.inr rfl)
        | some date =>
          rw [hpresent groupId varietyId date hg hv hd] at h400
          cases hnew : newEntry env castDate groupId varietyId date body <;>
            rw [hnew] at h400 <;> simp at h400
  · cases hg : present body.groupId with
    | none => rw [hmissing (Or.inl hg)]
    | some groupId =>
      cases hv : present body.varietyId with
      | none => rw [hmissing (Or.inr (Or.inl hv))]
      | some varietyId =>
        cases hd : present body.date with
        | none => rw [hmissing (Or.inr (Or.inr hd))]
        | some date =>
          rw [hpresent groupId varietyId date hg hv hd] at h400
          cases hnew : newEntry env castDate groupId varietyId date body <;>
            rw [hnew] at h400 <;> simp at h400
  · intro groupId varietyId date hg hv hd
    rw [hpresent groupId varietyId date hg hv hd]
    cases hnew : newEntry env castDate groupId varietyId date body with
    | none => exact Or.inl rfl
    | some entry => exact Or.inr ⟨entry, rfl, newEntry_eq_some hnew⟩
  · intro groupId varietyId date d trays plants hg hv hd hcast htrays hplants hvg hvv h0 h1 h2
      hsow
    rw [hpresent groupId varietyId date hg hv hd]
    have hnew : newEntry env castDate groupId varietyId date body =
        some { groupId := groupId, varietyId := varietyId, date := d, totalTrays := trays,
               totalPlants := plants, sowingDate := (present body.sowingDate).bind castDate,
               totalMans := body.totalMans.getD 0, status := "active" } := by
      unfold newEntry
      cases hp : present body.sowingDate with
      | none => simp [hcast, htrays, hplants, hp, hvg, hvv, h0, h1, h2]
      | some s =>
        have hs := hsow s hp
        cases hc : castDate s with
        | none => rw [hc] at hs; cases hs
        | some sd => simp [hcast, htrays, hplants, hp, hc, hvg, hvv, h0, h1, h2]
    rw [hnew]

/-- Witness of C15: the sample request without its `groupId` is answered 400
and stores nothing; the full sample request is saved. -/
theorem createNewEntry_validation_witness :
    (createNewEntry sampleEnv sampleCastDate sampleDB
      { sampleEntryBody with groupId := none }).1.status = 400 ∧
    (createNewEntry sampleEnv sampleCastDate sampleDB
      { sampleEntryBody with groupId := none }).2 = sampleDB ∧
    (createNewEntry sampleEnv sampleCastDate sampleDB sampleEntryBody = (⟨500⟩, sampleDB) ∨
      ∃ entry,
        createNewEntry sampleEnv sampleCastDate sampleDB sampleEntryBody =
          (⟨201⟩, { sampleDB with newEntries := sampleDB.newEntries ++ [entry] }) ∧
        entry.groupId = "g001" ∧ entry.varietyId = "c001" ∧
        sampleCastDate "2026-11-06" = some entry.date ∧
        sampleEntryBody.totalTrays = some entry.totalTrays ∧
        sampleEntryBody.totalPlants = some entry.totalPlants ∧
        entry.sowingDate = (present sampleEntryBody.sowingDate).bind sampleCastDate ∧
        entry.totalMans = sampleEntryBody.totalMans.getD 0) ∧
    (createNewEntry sampleEnv sampleCastDate sampleDB sampleEntryBody).1.status = 201 ∧
    createNewEntry sampleEnv sampleCastDate sampleDB sampleEntryBody =
      (⟨201⟩, { sampleDB with
        newEntries := sampleDB.newEntries ++
          [{ groupId := "g001", varietyId := "c001", date := mkDate 2026 10 6,
             totalTrays := 20, totalPlants := 1960,
             sowingDate := (present sampleEntryBody.sowingDate).bind sampleCastDate,
             totalMans := sampleEntryBody.totalMans.getD 0, status := "active" }] }) :=
  ⟨(createNewEntry_validation sampleEnv sampleCastDate sampleDB
      { sampleEntryBody with groupId := none }).1.mpr (Or.inl (by decide)),
   (createNewEntry_validation sampleEnv sampleCastDate sampleDB
      { sampleEntryBody with groupId := none }).2.1 (by decide),
   (createNewEntry_validation sampleEnv sampleCastDate sampleDB sampleEntryBody).2.2.1
      "g001" "c001" "2026-11-06" (by decide) (by decide) (by decide),
   by decide,
   (createNewEntry_validation sampleEnv sampleCastDate sampleDB sampleEntryBody).2.2.2
      "g001" "c001" "2026-11-06" (mkDate 2026 10 6) 20 1960 (by decide) (by decide) (by decide)
      (by decide) rfl rfl (by decide) (by decide) (by decide) (by decide) (by decide)
      (by decide)⟩

/-! ## The bounded increment of the schedule page -/

theorem handleAddCompleted_eq (page : SchedulePage) (a : Int) (v : ScheduleVariety)
    (hparse : parseInt page.completedQtyInput = some a) (hpos : 0 < a)
    (hv : currentVariety page = some v) :
    handleAddCompleted page =
      if v.completed.getD 0 + a > v.total.getD 0 then
        .message "Warning: entered quantity exceeds total planned quantity."
      else
        .send ⟨some "updateVarietyProgress",
               some ⟨page.selectedScheduleId, page.selectedGroupId, page.selectedVarietyId,
                     some (v.completed.getD 0 + a)⟩⟩ := by
  have hnot : ¬ a ≤ 0 := by omega
  simp only [handleAddCompleted, hparse, hv, if_neg hnot]

/-- C20: `handleAddCompleted` is a bounded increment.  It sends an update
exactly when the entered text parses to an integer `a > 0`, a variety is
selected and `c + a <= t` for the page's completed `c` and total `t` of that
variety, and the update carries `completed = c + a`; in every other case it
only sets a message.  When the server's variety has the total `t` the page
shows, every update the page sends passes the bound check of `updateSchedule`,
which answers 200. -/
theorem handleAddCompleted_bounded (page : SchedulePage) :
    (∀ body, handleAddCompleted page = .send body ↔
      ∃ a v, parseInt page.completedQtyInput = some a ∧ 0 < a ∧
        currentVariety page = some v ∧ v.completed.getD 0 + a ≤ v.total.getD 0 ∧
        body = ⟨some "updateVarietyProgress",
                some ⟨page.selectedScheduleId, page.selectedGroupId, page.selectedVarietyId,
                      some (v.completed.getD 0 + a)⟩⟩) ∧
    ((∀ body, handleAddCompleted page ≠ .send body) →
      ∃ text, handleAddCompleted page = .message text) ∧
    (∀ env db body sid gid vid v s g w,
      handleAddCompleted page = .send body →
      currentVariety page = some v →
      page.selectedScheduleId = some sid → page.selectedGroupId = some gid →
      page.selectedVarietyId = some vid →
      truthy sid = true → truthy gid = true → truthy vid = true → env.isValid sid = true →
      db.schedules.find? (fun s => s._id == sid) = some s →
      s.groups.find? (fun g => g.groupId == gid) = some g →
      g.varieties.find? (fun v => v.varietyId == vid) = some w →
      w.total.getD 0 = v.total.getD 0 →
      (updateSchedule env db body).1.status = 200) := by
  have hsend : ∀ body, handleAddCompleted page = .send body →
      ∃ a v, parseInt page.completedQtyInput = some a ∧ 0 < a ∧
        currentVariety page = some v ∧ v.completed.getD 0 + a ≤ v.total.getD 0 ∧
        body = ⟨some "updateVarietyProgress",
                some ⟨page.selectedScheduleId, page.selectedGroupId, page.selectedVarietyId,
                      some (v.completed.getD 0 + a)⟩⟩ := by
    intro body h
    cases hparse : parseInt page.completedQtyInput with
    | none => simp [handleAddCompleted, hparse] at h
    | some a =>
      by_cases hpos : a ≤ 0
      · simp [handleAddCompleted, hparse, hpos] at h
      · cases hv : currentVariety page with
        | none => simp [handleAddCompleted, hparse, hpos, hv] at h
        | some v =>
          rw [handleAddCompleted_eq page a v hparse (by omega) hv] at h
          by_cases hgt : v.completed.getD 0 + a > v.total.getD 0
          · rw [if_pos hgt] at h
            cases h
          · rw [if_neg hgt] at h
            exact ⟨a, v, rfl, by omega, rfl, by omega, (AddCompleted.send.inj h).symm⟩
  refine ⟨fun body => ⟨hsend body, ?_⟩, ?_, ?_⟩
  · rintro ⟨a, v, hparse, hpos, hv, hle, rfl⟩
    rw [handleAddCompleted_eq page a v hparse hpos hv, if_neg (by omega)]
  · intro hno
    cases h : handleAddCompleted page with
    | message text => exact ⟨text, rfl⟩
    | send body => exact absurd h (hno body)
  · intro env db body sid gid vid v s g w h hv hsid hgid hvid tsid tgid tvid hvalid hs hg hw htotal
    obtain ⟨a, v', _, _, hv', hle, rfl⟩ := hsend body h
    rw [hv] at hv'
    obtain rfl := Option.some.inj hv'
    rw [hsid, hgid, hvid, updateSchedule_found env db sid gid vid _ s g w tsid tgid tvid hvalid
      hs hg hw, if_neg (by omega)]

/-- Witness of C20: on the sample page (completed 2 of 10) the text `3` sends
`completed = 5`, which the server holding the sample store answers with 200. -/
theorem handleAddCompleted_bounded_witness :
    handleAddCompleted samplePage = .send (sampleProgress (2 + 3)) ∧
    (updateSchedule sampleEnv sampleDB (sampleProgress (2 + 3))).1.status = 200 :=
  ⟨((handleAddCompleted_bounded samplePage).1 (sampleProgress (2 + 3))).mpr
      ⟨3, ⟨"v001", [⟨"b001", "f001", 4⟩], some 10, some 2⟩, by decide, by decide, by decide,
        by decide, rfl⟩,
   (handleAddCompleted_bounded samplePage).2.2 sampleEnv sampleDB (sampleProgress (2 + 3))
      "s001" "g001" "v001" ⟨"v001", [⟨"b001", "f001", 4⟩], some 10, some 2⟩
      sampleSchedule ⟨"g001", [⟨"v001", [⟨"b001", "f001", 4⟩], some 10, some 2⟩,
                               ⟨"v002", [], none, none⟩]⟩
      ⟨"v001", [⟨"b001", "f001", 4⟩], some 10, some 2⟩
      (by decide) (by decide) rfl rfl rfl (by decide) (by decide) (by decide) (by decide)
      (by decide) (by decide) (by decide) rfl⟩

/-! ## What the pages show when a fetch fails -/

/-- C18 (as stated it fails): when its fetch fails, the losses list is set to
the empty list (the page has no sample losses), and the bookings list is the
sample data only on the `All Bookings` tab: on the `Pending` tab it is the one
pending sample row and on the `Sowing` tab it is empty. -/
theorem fetch_failure_not_sample :
    fetchLosses (fun x : Int => x) none = [] ∧
    fetchBookingsForTab "Pending" (fun _ => none) =
      [⟨"#1002", "Soham Sonawane", "Chilli", "500 seedlings", "Jun 28, 2025", "Pending", 1000⟩] ∧
    fetchBookingsForTab "Sowing" (fun _ => none) = [] ∧
    fetchBookingsForTab "Pending" (fun _ => none) ≠ bookingsDefaultData ∧
    fetchBookingsForTab "Sowing" (fun _ => none) ≠ bookingsDefaultData := by
  decide

/-- C18 (amended): when the fetch fails, the admin dashboard, the crop entries
page and the schedule page set their state to their hardcoded sample data, and
the expenses page to its sample expenses in normalised form; the bookings page
sets its list to the sample bookings on the `All Bookings` tab and, on another
tab, to the sample bookings whose status is the tab's status; the losses fetch
has no sample data and sets the list to empty. -/
theorem fetch_failure_fallback :
    (∀ incomeRes bookingRes nutrientRes,
      incomeRes = none ∨ bookingRes = none ∨ nutrientRes = none →
      fetchData incomeRes bookingRes nutrientRes =
        (dummyIncome, dummyBookingStats, dummyNutrients)) ∧
    fetchCrops none = cropsDefaultData ∧
    fetchSchedules none = defaultSchedules ∧
    (∀ now, fetchExpenses now none = (defaultExpenses now).map normalize) ∧
    (∀ get : String → Option (List BookingRow), (∀ ep, get ep = none) →
      fetchBookingsForTab "All Bookings" get = bookingsDefaultData ∧
      ∀ activeTab, activeTab ≠ "All Bookings" →
        fetchBookingsForTab activeTab get =
          bookingsDefaultData.filter fun d =>
            toLowerCase d.status == mapTabToParam activeTab) ∧
    (∀ (α β : Type) (normalizeLoss : α → β), fetchLosses normalizeLoss none = []) := by
  refine ⟨?_, rfl, rfl, fun _ => rfl, ?_, fun _ _ _ => rfl⟩
  · rintro incomeRes bookingRes nutrientRes (h | h | h)
    · subst h; rfl
    · subst h; cases incomeRes <;> rfl
    · subst h; cases incomeRes <;> cases bookingRes <;> rfl
  · intro get hget
    have hnone : ∀ l : List String, l.findSome? get = none := by
      intro l
      induction l with
      | nil => rfl
      | cons x xs ih => simp [List.findSome?, hget x, ih]
    refine ⟨?_, fun activeTab hne => ?_⟩
    · simp [fetchBookingsForTab, hnone]
    · simp [fetchBookingsForTab, hnone, hne]

/-- Witness of C18 (amended): every request of the dashboard fails; and every
request of the bookings page fails on the `Completed` tab. -/
theorem fetch_failure_fallback_witness :
    fetchData none none none = (dummyIncome, dummyBookingStats, dummyNutrients) ∧
    fetchBookingsForTab "Completed" (fun _ => none) =
      bookingsDefaultData.filter fun d => toLowerCase d.status == mapTabToParam "Completed" :=
  ⟨fetch_failure_fallback.1 none none none (Or.inl rfl),
   (fetch_failure_fallback.2.2.2.2.1 (fun _ => none) (fun _ => rfl)).2 "Completed" (by decide)⟩

/-! ## The list of bookings -/

theorem toLowerCase_ne_empty (q : String) (hq : truthy q = true) : toLowerCase q ≠ "" := by
  intro h
  have hdata : (toLowerCase q).data = [] := by rw [h]
  simp only [toLowerCase, List.map_eq_nil_iff] at hdata
  have hq' : q = "" := by
    cases q with
    | mk data => simp only at hdata; subst hdata; rfl
  subst hq'
  simp [truthy] at hq

theorem status_filter_eq (o : Option String) (q : String) (hq : truthy q = true) :
    (match present o with
      | some farmerStatus => toLowerCase farmerStatus == toLowerCase q
      | none => false) = o.any fun s => toLowerCase s == toLowerCase q := by
  cases o with
  | none => rfl
  | some s =>
    by_cases hs : truthy s = true
    · have : present (some s) = some s := present_eq_some.mpr ⟨rfl, hs⟩
      rw [this]
      rfl
    · have hnone : present (some s) = none := by simp [present, Option.filter, hs]
      have hs' : s = "" := by simpa [truthy] using hs
      rw [hnone, hs']
      have hne := toLowerCase_ne_empty q hq
      have he : toLowerCase "" = "" := rfl
      simp only [Option.any_some, he]
      symm
      simpa using fun h => hne h.symm

/-- C21: `getBookings` with a non-empty `status` query returns, in their stored
order, exactly the bookings whose populated farmer has a status equal to the
query without regard to case; without a status query (absent or empty) it
returns every booking.  Each returned item has `bookingId` equal to `#` followed
by the last four characters of the booking identifier, and `status` equal to
the farmer's status, or `Pending` when the farmer or its status is absent or
empty. -/
theorem getBookings_by_status (db : DB) :
    (∀ q, truthy q = true →
      getBookings db (some q) =
        (db.bookings.filter fun b =>
          ((populatedFarmer db b).bind fun f => f.status).any fun s =>
            toLowerCase s == toLowerCase q).map (formatBooking db)) ∧
    getBookings db none = db.bookings.map (formatBooking db) ∧
    getBookings db (some "") = db.bookings.map (formatBooking db) ∧
    (∀ b, (formatBooking db b).bookingId = "#" ++ sliceLast4 b._id ∧
      (sliceLast4 b._id).data <:+ b._id.data ∧
      (4 ≤ b._id.data.length → (sliceLast4 b._id).data.length = 4) ∧
      (∀ f s, populatedFarmer db b = some f → f.status = some s → s ≠ "" →
        (formatBooking db b).status = s) ∧
      (populatedFarmer db b = none → (formatBooking db b).status = "Pending") ∧
      (∀ f, populatedFarmer db b = some f → f.status = none ∨ f.status = some "" →
        (formatBooking db b).status = "Pending")) := by
  refine ⟨fun q hq => ?_, rfl, rfl, fun b => ⟨rfl, ?_, ?_, ?_, ?_, ?_⟩⟩
  · have hp : present (some q) = some q := present_eq_some.mpr ⟨rfl, hq⟩
    simp only [getBookings, hp]
    congr 1
    apply List.filter_congr
    intro b _
    exact status_filter_eq _ q hq
  · exact List.drop_suffix _ _
  · intro h4
    simp only [sliceLast4, List.length_drop]
    omega
  · intro f s hf hs hne
    have hp : present (some s) = some s :=
      present_eq_some.mpr ⟨rfl, by simpa [truthy] using hne⟩
    simp [formatBooking, hf, hs, hp]
  · intro hf
    simp [formatBooking, hf, present, Option.filter]
  · intro f hf hs
    rcases hs with hs | hs <;> simp [formatBooking, hf, hs, present, Option.filter, truthy]

/-- Witness of C21: in the sample store only farmer `f002` is `Sown`; an
identifier of 24 characters gives its last four. -/
theorem getBookings_by_status_witness :
    getBookings sampleDB (some "SOWN") =
      (sampleDB.bookings.filter fun b =>
        ((populatedFarmer sampleDB b).bind fun f => f.status).any fun s =>
          toLowerCase s == toLowerCase "SOWN").map (formatBooking sampleDB) ∧
    (getBookings sampleDB (some "SOWN")).map (fun i => i._id) = ["b001"] ∧
    (formatBooking sampleDB (sampleBooking "b001" "f002")).status = "Sown" ∧
    sliceLast4 "64f200a17d9f2a1234567001" = "7001" :=
  ⟨(getBookings_by_status sampleDB).1 "SOWN" (by decide),
   by decide,
   ((getBookings_by_status sampleDB).2.2.2 (sampleBooking "b001" "f002")).2.2.2.1
     ⟨"f002", some "Sown"⟩ "Sown" (by decide) rfl (by decide),
   by decide⟩

/-! ## The promote button and the backend -/

/-- C22: the promote button of the bookings page and the backend agree on the
transition.  For a booking found with its farmer, whatever the farmer's status
string: when the page computes a next status from it (`sowing` from pending,
`completed` from sowing or sown), `promoteBookingStatus` answers 200 and assigns
exactly that status to the farmer; and the page offers no button exactly when
the backend answers 400, the store then being unchanged. -/
theorem promote_button_agrees (env : Env) (db : DB) (id : String)
    (booking : Booking) (farmer : Farmer)
    (hid : truthy id = true) (hvalid : env.isValid id = true)
    (hb : db.bookings.find? (fun b => b._id == id) = some booking)
    (hf : db.farmers.find? (fun f => f._id == booking.farmer) = some farmer) :
    (∀ n, nextStatus (farmer.status.getD "") = some n →
      (promoteBookingStatus env db id).1.status = 200 ∧
      (promoteBookingStatus env db id).2.farmers.find? (fun f => f._id == booking.farmer) =
        some { farmer with status := some n }) ∧
    (nextStatus (farmer.status.getD "") = none ↔
      (promoteBookingStatus env db id).1.status = 400) ∧
    (nextStatus (farmer.status.getD "") = none →
      promoteBookingStatus env db id = (⟨400⟩, db)) := by
  have key := promoteBookingStatus_found env db id booking farmer hid hvalid hb hf
  have hfind : ∀ n, (modifyFirst (fun f : Farmer => f._id == booking.farmer)
      (fun f => { f with status := some n }) db.farmers).find?
      (fun f => f._id == booking.farmer) = some { farmer with status := some n } := by
    intro n
    rw [find?_modifyFirst, hf]
    · rfl
    · intro x hx; exact hx
  by_cases h1 : toLowerCase (farmer.status.getD "") = "pending"
  · have hn : nextStatus (farmer.status.getD "") = some "sowing" := by
      simp [nextStatus, h1]
    rw [key, if_pos h1, hn]
    refine ⟨fun n hn' => ?_, ⟨fun h => (by cases h), fun h => by simp at h⟩, fun h => by cases h⟩
    obtain rfl := Option.some.inj hn'
    exact ⟨rfl, hfind _⟩
  · by_cases h2 : toLowerCase (farmer.status.getD "") = "sowing" ∨
        toLowerCase (farmer.status.getD "") = "sown"
    · have hn : nextStatus (farmer.status.getD "") = some "completed" := by
        rcases h2 with h | h <;> simp [nextStatus, h]
      rw [key, if_neg h1, if_pos h2, hn]
      refine ⟨fun n hn' => ?_, ⟨fun h => (by cases h), fun h => by simp at h⟩,
        fun h => by cases h⟩
      obtain rfl := Option.some.inj hn'
      exact ⟨rfl, hfind _⟩
    · have hn : nextStatus (farmer.status.getD "") = none := by
        simp only [not_or] at h2
        simp [nextStatus, h1, h2.1, h2.2]
      rw [key, if_neg h1, if_neg h2, hn]
      exact ⟨fun n h => (by cases h), ⟨fun _ => rfl, fun _ => rfl⟩, fun _ => rfl⟩

/-- Witness of C22: in the sample store the page shows `Promote to Completed`
for booking `b001` (farmer `Sown`) and no button for booking `b003` (farmer
`completed`). -/
theorem promote_button_agrees_witness :
    ((promoteBookingStatus sampleEnv sampleDB "b001").1.status = 200 ∧
      (promoteBookingStatus sampleEnv sampleDB "b001").2.farmers.find?
        (fun f => f._id == "f002") = some ⟨"f002", some "completed"⟩) ∧
    promoteBookingStatus sampleEnv sampleDB "b003" = (⟨400⟩, sampleDB) :=
  ⟨(promote_button_agrees sampleEnv sampleDB "b001" (sampleBooking "b001" "f002")
      ⟨"f002", some "Sown"⟩ (by decide) (by decide) (by decide) (by decide)).1 "completed"
      (by decide),
   (promote_button_agrees sampleEnv sampleDB "b003" (sampleBooking "b003" "f001")
      ⟨"f001", some "completed"⟩ (by decide) (by decide) (by decide) (by decide)).2.2
      (by decide)⟩

/-- C23: the outcome of `promoteBookingStatus` does not depend on the request
body.  Two requests with the same booking identifier, served on the same store,
give the same answer and the same store afterwards (so the same status of every
farmer), whatever `status` their bodies carry; in particular this holds for the
requests the page sends. -/
theorem promote_ignores_body (env : Env) (db : DB) (r₁ r₂ : PromoteRequest)
    (h : r₁.id = r₂.id) :
    promoteBookingStatusOf env db r₁ = promoteBookingStatusOf env db r₂ ∧
    (promoteBookingStatusOf env db r₁).1.status = (promoteBookingStatusOf env db r₂).1.status ∧
    (promoteBookingStatusOf env db r₁).2.farmers = (promoteBookingStatusOf env db r₂).2.farmers ∧
    (∀ id s₁ s₂, promoteBookingStatusOf env db (handlePromoteBooking id s₁) =
      promoteBookingStatusOf env db (handlePromoteBooking id s₂)) := by
  have heq : promoteBookingStatusOf env db r₁ = promoteBookingStatusOf env db r₂ := by
    unfold promoteBookingStatusOf
    rw [h]
  exact ⟨heq, by rw [heq], by rw [heq], fun _ _ _ => rfl⟩

/-- Witness of C23: booking `b002` of the sample store promoted with the body
`sowing` and with the body `completed`. -/
theorem promote_ignores_body_witness :
    promoteBookingStatusOf sampleEnv sampleDB ⟨"b002", some "sowing"⟩ =
      promoteBookingStatusOf sampleEnv sampleDB ⟨"b002", some "completed"⟩ :=
  (promote_ignores_body sampleEnv sampleDB ⟨"b002", some "sowing"⟩ ⟨"b002", some "completed"⟩
    rfl).1

/-! ## Status per farmer -/

theorem formatBooking_status_of_farmer (db : DB) (b : Booking) (f : Farmer) (n : String)
    (hf : db.farmers.find? (fun x => x._id == b.farmer) = some f)
    (hst : f.status = some n) (hn : truthy n = true) :
    (formatBooking db b).status = n := by
  have hp : present (some n) = some n := present_eq_some.mpr ⟨rfl, hn⟩
  simp [formatBooking, populatedFarmer, hf, hst, hp]

theorem nextStatus_truthy {s n : String} (h : nextStatus s = some n) : truthy n = true := by
  unfold nextStatus at h
  simp only at h
  split at h
  · obtain rfl := Option.some.inj h; decide
  · split at h
    · obtain rfl := Option.some.inj h; decide
    · cases h

/-- The store after a promotion that the page offers. -/
theorem promoteBookingStatus_next (env : Env) (db : DB) (id : String)
    (booking : Booking) (farmer : Farmer) (n : String)
    (hid : truthy id = true) (hvalid : env.isValid id = true)
    (hb : db.bookings.find? (fun b => b._id == id) = some booking)
    (hf : db.farmers.find? (fun f => f._id == booking.farmer) = some farmer)
    (hn : nextStatus (farmer.status.getD "") = some n) :
    (promoteBookingStatus env db id).1.status = 200 ∧
    (promoteBookingStatus env db id).2.farmers =
      modifyFirst (fun f => f._id == booking.farmer) (fun f => { f with status := some n })
        db.farmers ∧
    (((promoteBookingStatus env db id).2.bookings = db.bookings ∧
        (promoteBookingStatus env db id).2.incomes = db.incomes) ∨
      ((promoteBookingStatus env db id).2.bookings =
          modifyFirst (fun b => b._id == id) (fun b => { b with pendingPayment := 0 })
            db.bookings ∧
        (promoteBookingStatus env db id).2.incomes =
          db.incomes ++ [{ date := env.now, amount := booking.finalTotalPrice,
                           booking := booking._id, farmer := farmer._id }])) := by
  have key := promoteBookingStatus_found env db id booking farmer hid hvalid hb hf
  by_cases h1 : toLowerCase (farmer.status.getD "") = "pending"
  · have hn' : nextStatus (farmer.status.getD "") = some "sowing" := by simp [nextStatus, h1]
    rw [hn] at hn'
    obtain rfl := Option.some.inj hn'
    rw [key, if_pos h1]
    exact ⟨rfl, rfl, Or.inl ⟨rfl, rfl⟩⟩
  · by_cases h2 : toLowerCase (farmer.status.getD "") = "sowing" ∨
        toLowerCase (farmer.status.getD "") = "sown"
    · have hn' : nextStatus (farmer.status.getD "") = some "completed" := by
        rcases h2 with h | h <;> simp [nextStatus, h]
      rw [hn] at hn'
      obtain rfl := Option.some.inj hn'
      rw [key, if_neg h1, if_pos h2]
      exact ⟨rfl, rfl, Or.inr ⟨rfl, rfl⟩⟩
    · have hn' : nextStatus (farmer.status.getD "") = none := by
        simp only [not_or] at h2
        simp [nextStatus, h1, h2.1, h2.2]
      rw [hn] at hn'
      cases hn'

/-- C24: status is held per farmer, not per booking.  After a successful
`promoteBookingStatus` on one booking of a farmer, `getBookings` (which formats
every stored booking) reports the new status for every booking of that farmer;
the bookings other than the promoted one are stored as before, and an Income
record that is added refers to the promoted booking. -/
theorem status_per_farmer (env : Env) (db : DB) (id : String)
    (booking : Booking) (farmer : Farmer) (n : String)
    (hid : truthy id = true) (hvalid : env.isValid id = true)
    (hb : db.bookings.find? (fun b => b._id == id) = some booking)
    (hf : db.farmers.find? (fun f => f._id == booking.farmer) = some farmer)
    (hn : nextStatus (farmer.status.getD "") = some n) :
    (promoteBookingStatus env db id).1.status = 200 ∧
    getBookings (promoteBookingStatus env db id).2 none =
      (promoteBookingStatus env db id).2.bookings.map
        (formatBooking (promoteBookingStatus env db id).2) ∧
    List.Forall₂
      (fun b b' => b'._id = b._id ∧ b'.farmer = b.farmer ∧ (b._id ≠ id → b' = b) ∧
        (b.farmer = booking.farmer →
          (formatBooking (promoteBookingStatus env db id).2 b').status = n))
      db.bookings (promoteBookingStatus env db id).2.bookings ∧
    (∀ i ∈ (promoteBookingStatus env db id).2.incomes, i ∈ db.incomes ∨ i.booking = id) := by
  obtain ⟨h200, hfarmers, hrest⟩ :=
    promoteBookingStatus_next env db id booking farmer n hid hvalid hb hf hn
  have hbid : booking._id = id := by simpa using List.find?_some hb
  have hstatus : ∀ b : Booking, b.farmer = booking.farmer →
      (formatBooking (promoteBookingStatus env db id).2 b).status = n := by
    intro b hbf
    refine formatBooking_status_of_farmer _ b { farmer with status := some n } n ?_ rfl
      (nextStatus_truthy hn)
    rw [hfarmers, hbf, find?_modifyFirst, hf]
    · rfl
    · intro x hx; exact hx
  refine ⟨h200, rfl, ?_, ?_⟩
  · rcases hrest with ⟨hbk, _⟩ | ⟨hbk, _⟩
    · rw [hbk]
      exact List.forall₂_same.mpr fun b _ => ⟨rfl, rfl, fun _ => rfl, hstatus b⟩
    · rw [hbk]
      refine forall₂_modifyFirst_of_find? _ _ _
        (fun b => ⟨rfl, rfl, fun _ => rfl, hstatus b⟩) _ _ hb ⟨rfl, rfl, ?_, ?_⟩
      · intro hne
        exact absurd hbid hne
      · intro _
        exact hstatus _ rfl
  · intro i hi
    rcases hrest with ⟨_, hinc⟩ | ⟨_, hinc⟩
    · rw [hinc] at hi
      exact Or.inl hi
    · rw [hinc] at hi
      rcases List.mem_append.mp hi with h | h
      · exact Or.inl h
      · obtain rfl := List.mem_singleton.mp h
        exact Or.inr hbid

/-- Witness of C24: in the sample store with two bookings of farmer `f002`,
booking `b001` is promoted to completed; both bookings of the farmer are
reported completed, only `b001` has its pending payment reset. -/
theorem status_per_farmer_witness :
    (promoteBookingStatus sampleEnv sampleDB2 "b001").1.status = 200 ∧
    (∀ i ∈ (promoteBookingStatus sampleEnv sampleDB2 "b001").2.incomes,
      i ∈ sampleDB2.incomes ∨ i.booking = "b001") ∧
    (getBookings (promoteBookingStatus sampleEnv sampleDB2 "b001").2 none).map
      (fun i => (i._id, i.status)) =
      [("b001", "completed"), ("b002", "pending"), ("b003", "completed"),
       ("b004", "completed")] ∧
    (promoteBookingStatus sampleEnv sampleDB2 "b001").2.bookings.map
      (fun b => b.pendingPayment) = [0, 8, 8, 8] :=
  ⟨(status_per_farmer sampleEnv sampleDB2 "b001" (sampleBooking "b001" "f002")
      ⟨"f002", some "Sown"⟩ "completed" (by decide) (by decide) (by decide) (by decide)
      (by decide)).1,
   (status_per_farmer sampleEnv sampleDB2 "b001" (sampleBooking "b001" "f002")
      ⟨"f002", some "Sown"⟩ "completed" (by decide) (by decide) (by decide) (by decide)
      (by decide)).2.2.2,
   by decide, by decide⟩

/-! ## The TopCrop counter over a creation and its deletion -/

/-- C25 (the code departs from it): the variety `c009` is a well-formed
identifier of no crop variety and the TopCrop entry of that name counts 10.  A
booking of 5 is created (counter 15) and deleted at once, the farmer being
`pending`: the deletion looks the entry up by `varietyRef`, finds none, and the
counter stays 15 instead of returning to 10. -/
theorem create_then_delete_topCrop_not_restored :
    topCropOf sampleDB3 none "c009" = some 10 ∧
    (createBooking sampleEnv sampleDB3 { sampleBody 5 with variety := some "c009" }).1.status
      = 201 ∧
    topCropOf (createBooking sampleEnv sampleDB3
      { sampleBody 5 with variety := some "c009" }).2 none "c009" = some 15 ∧
    (deleteBooking sampleEnv (createBooking sampleEnv sampleDB3
      { sampleBody 5 with variety := some "c009" }).2 "b999").1.status = 200 ∧
    topCropOf (deleteBooking sampleEnv (createBooking sampleEnv sampleDB3
      { sampleBody 5 with variety := some "c009" }).2 "b999").2 none "c009" = some 15 ∧
    (deleteBooking sampleEnv (createBooking sampleEnv sampleDB3
      { sampleBody 5 with variety := some "c009" }).2 "b999").2.topCrops.map
      (fun t => t.bookedQuantity) = [15] := by
  decide

/-- Where the claim of C25 holds: when the variety of the booking resolves to a
crop variety, or is no well-formed identifier, a successful `createBooking`
followed at once by a successful `deleteBooking` of the new booking returns the
TopCrop counter of the variety, if it was at least 0, to its value before. -/
theorem create_then_delete_restores_topCrop (env env' : Env) (db : DB) (body : BookingBody)
    (variety : String) (qty b₀ : Int)
    (hv : body.variety = some variety) (hq : body.quantity = some qty)
    (hb₀ : topCropOf db (bookedVarietyRef env db variety) (bookedVarietyName env db variety) =
      some b₀)
    (hnonneg : 0 ≤ b₀)
    (hres : (resolveVariety env db variety).isSome = true ∨ env.isValid variety = false)
    (henv : env'.isValid = env.isValid)
    (hfresh : ∀ b ∈ db.bookings, b._id ≠ env.newId)
    (h201 : (createBooking env db body).1.status = 201)
    (h200 : (deleteBooking env' (createBooking env db body).2 env.newId).1.status = 200) :
    topCropOf (deleteBooking env' (createBooking env db body).2 env.newId).2
      (bookedVarietyRef env db variety) (bookedVarietyName env db variety) = some b₀ := by
  obtain ⟨farmerId, booking, farmer, hnew, hb, hf, hst, hkey⟩ :=
    delete_after_create env env' db body henv hfresh h201 h200
  obtain ⟨hv', _, hq', _⟩ := newBooking_eq_some hnew
  have e1 : booking.variety = variety := by rw [hv] at hv'; exact (Option.some.inj hv').symm
  have e2 : booking.quantity = qty := by rw [hq] at hq'; exact (Option.some.inj hq').symm
  rcases createBooking_inv env db body with ⟨hne, _⟩ |
    ⟨_, _, booking₁, _, _, _, hnew₁, _, _, _, hcvs, _, _, htop, _⟩
  · exact absurd h201 hne
  have e3 : booking₁.variety = variety := by
    have := (newBooking_eq_some hnew₁).1; rw [hv] at this; exact (Option.some.inj this).symm
  have e4 : booking₁.quantity = qty := by
    have := (newBooking_eq_some hnew₁).2.2.1; rw [hq] at this; exact (Option.some.inj this).symm
  rw [e3, e4] at htop
  have hpost : topCropOf (createBooking env db body).2 (bookedVarietyRef env db variety)
      (bookedVarietyName env db variety) =
      some ((topCropOf db (bookedVarietyRef env db variety)
        (bookedVarietyName env db variety)).getD 0 + qty) :=
    topCropOf_upsert db (createBooking env db body).2 env.now _ _ _ qty htop
  -- the filter of the deletion is the filter of the creation
  have hfilter : topCropFilter (deletedVarietyRef env' (createBooking env db body).2 booking)
      booking.variety =
      topCropFilter (bookedVarietyRef env db variety) (bookedVarietyName env db variety) := by
    cases hcv : resolveVariety env db variety with
    | some cv =>
      have := hkey cv (by rw [e1]; exact hcv)
      rw [this]
      simp only [bookedVarietyRef, hcv, Option.map_some']
      funext t
      rfl
    | none =>
      have hbad : env.isValid variety = false := by
        rcases hres with h | h
        · rw [hcv] at h; cases h
        · exact h
      have hname : db.cropVarieties.find? (fun cv => cv.name == variety) = none := by
        simpa [resolveVariety, hbad] using hcv
      have hdel : deletedVarietyRef env' (createBooking env db body).2 booking = none := by
        simp [deletedVarietyRef, henv, e1, hbad, hcvs, hname]
      rw [hdel, e1]
      simp only [bookedVarietyRef, bookedVarietyName, hcv, Option.map_none', Option.getD_none]
  rcases deleteBooking_inv env' (createBooking env db body).2 env.newId with ⟨hne, _⟩ |
    ⟨booking', farmer', _, _, hb', hf', _, _, _, _, _, _, htop', _⟩
  · exact absurd h200 hne
  rw [hb] at hb'
  obtain rfl := Option.some.inj hb'
  rw [hf] at hf'
  obtain rfl := Option.some.inj hf'
  rw [if_pos hst, hfilter, e2] at htop'
  rw [hb₀] at hpost
  simp only [Option.getD_some] at hpost
  unfold topCropOf at hpost ⊢
  obtain ⟨t, ht, htq⟩ := Option.map_eq_some'.mp hpost
  rw [htop', find?_modifyFirst, ht]
  · simp only [Option.map_some', htq, Option.some.injEq]
    rw [max_eq_left (by omega)]
    omega
  · intro x hx
    cases hk : bookedVarietyRef env db variety <;> simpa [topCropFilter, hk] using hx

/-- The second half of C25: `deleteBooking` leaves no TopCrop counter below 0
that was not below 0 before. -/
theorem deleteBooking_topCrop_nonneg (env : Env) (db : DB) (id : String)
    (h : ∀ t ∈ db.topCrops, 0 ≤ t.bookedQuantity) :
    ∀ t ∈ (deleteBooking env db id).2.topCrops, 0 ≤ t.bookedQuantity := by
  rcases deleteBooking_inv env db id with ⟨_, heq⟩ |
    ⟨booking, farmer, _, _, _, _, _, _, _, _, _, _, htop, _⟩
  · rw [heq]; exact h
  · rw [htop]
    split
    · intro t hmem
      rcases mem_modifyFirst _ _ _ _ hmem with hm | ⟨y, _, rfl⟩
      · exact h t hm
      · exact le_max_right _ _
    · exact h


/-! ## Nutrient stock -/

/-- C26: `getNutrientStock` maps every nutrient to one output row, in the same
order, with `available = currentStock`, `lowerLimit = threshold` and status
`low` if and only if `currentStock < threshold`, otherwise `ok`; a stock exactly
at the threshold is `ok`. -/
theorem getNutrientStock_rows (db : DB) :
    (getNutrientStock db).length = db.nutrients.length ∧
    List.Forall₂
      (fun n r => r.id = n._id ∧ r.name = n.name ∧ r.available = n.currentStock ∧
        r.lowerLimit = n.threshold ∧
        (r.status = "low" ↔ n.currentStock < n.threshold) ∧
        (r.status = "ok" ↔ ¬ n.currentStock < n.threshold) ∧
        (n.currentStock = n.threshold → r.status = "ok"))
      db.nutrients (getNutrientStock db) := by
  refine ⟨by simp [getNutrientStock], ?_⟩
  unfold getNutrientStock
  rw [List.forall₂_map_right_iff]
  refine List.forall₂_same.mpr fun n _ => ⟨rfl, rfl, rfl, rfl, ?_, ?_, ?_⟩
  · by_cases h : n.currentStock < n.threshold
    · simp [h]
    · simp only [h, if_false, iff_false]
      decide
  · by_cases h : n.currentStock < n.threshold
    · simp only [h, if_true, not_true_eq_false, iff_false]
      decide
    · simp [h]
  · intro h
    simp [h]

/-- Witness of C26: the sample nutrients, one of them exactly at its
threshold. -/
theorem getNutrientStock_rows_witness :
    (getNutrientStock sampleNutrients).length = sampleNutrients.nutrients.length ∧
    (getNutrientStock sampleNutrients).map (fun r => r.status) = ["low", "ok", "ok"] :=
  ⟨(getNutrientStock_rows sampleNutrients).1, by decide⟩

end PlantNursing
